import Mathlib

/-!
Scheduler of the rendering coordinator (internal/coordinator/scheduler.go)

A shallow embedding of the scheduler: the bounded task channel, the registry
of active tasks, the reclamation sweep and the retry policy.

Modelling conventions.

* The buffered channel `taskQueue` is a list (head = next value received)
  together with its capacity. A non-blocking send (`select` with `default`)
  appends at the tail when the list is shorter than the capacity and takes the
  `default` branch otherwise.
* The map `activeTasks` is a function from keys to optional tasks. Go ranges
  over a map in an unspecified order, so the two loops that range over the map
  take the visiting order as an extra argument `order`.
* `time.Now()` and `uuid.New().String()` are inputs of the operations that
  call them (`now`, `taskID`). Instants are integers (nanoseconds counted from
  Go's zero `time.Time`), so the zero value of a `time.Time` field is `0`.
* Tasks are handled through pointers in the source. Every pointer the
  scheduler holds lives in exactly one place (one channel slot, one map entry,
  or one spawned goroutine), because each operation moves the pointer it
  touches; the embedding therefore stores task values.
* Every operation is one atomic step. A `GetNextTask` caller parked on an
  empty channel is a caller that has not taken its step yet (`blocked`). The
  goroutine spawned by `RequeueTask` is a separate step, `requeuePush`.
  With capacity 0 the channel is unbuffered and a send can only complete by
  meeting a parked receiver: the step model (`trySend`, `step`) describes the
  sends that find no caller parked, and `chanSend`, `EnqueueTaskCh`,
  `requeuePushCh` and `receiveHandOff` describe the send with the receive queue
  of the channel made explicit. With capacity at least 1 a hand-over to a
  parked caller is the same as the send followed by that caller's step
  (`EnqueueTaskCh_hand_off_as_steps`, `requeuePushCh_hand_off_as_steps`).
-/

namespace Coordinator

/-- An instant, in nanoseconds counted from the zero `time.Time`. -/
abbrev Time := Int

/-- The zero value of `time.Time` (a field that was never assigned). -/
def Time.zero : Time := 0

/-- Smallest `time.Duration` (an int64 count of nanoseconds). -/
def minDuration : Int := -(2 ^ 63)

/-- Largest `time.Duration`. -/
def maxDuration : Int := 2 ^ 63 - 1

/-- The method `t.Sub(u)`: the duration `t - u`, saturated to the range of
`time.Duration`. -/
def Time.Sub (t u : Time) : Int :=
  if t - u > maxDuration then maxDuration
  else if t - u < minDuration then minDuration
  else t - u

/-- Two's-complement wrap-around of an `int32` result. -/
def wrapInt32 (x : Int) : Int := (x + 2 ^ 31) % 2 ^ 32 - 2 ^ 31

/-- The struct `Task`. `P` is the type of the opaque payload. -/
structure Task (P : Type) where
  ID : String
  JobID : String
  FrameID : String
  Payload : P
  CreatedAt : Time
  StartedAt : Time
  Retries : Int
deriving DecidableEq, Repr

/-- The value of `ctx.Err()` once `ctx.Done()` is closed. -/
inductive CtxError where
  | Canceled
  | DeadlineExceeded
deriving DecidableEq, Repr

/-- Errors returned by the scheduler: the two `fmt.Errorf` values (with their
message) and the context error passed through by `GetNextTask`. -/
inductive SchedError where
  | queueFull (msg : String)
  | context (e : CtxError)
deriving DecidableEq, Repr

/-- The error of `EnqueueTask` when the channel is full. -/
def errEnqueueFull : SchedError := .queueFull "[Error] Scheduler queue is at capacity"

/-- The error of the goroutine of `RequeueTask` when the channel is full. -/
def errRequeueFull : SchedError := .queueFull "[SCHEDULER] Scheduler queue is at capacity"

/-- The map `activeTasks`. -/
abbrev Registry (P : Type) := String → Option (Task P)

/-- The statement `m[k] = task`. -/
def Registry.insert {P : Type} (m : Registry P) (k : String) (task : Task P) : Registry P :=
  fun k' => if k' = k then some task else m k'

/-- The statement `delete(m, k)`. -/
def Registry.delete {P : Type} (m : Registry P) (k : String) : Registry P :=
  fun k' => if k' = k then none else m k'

/-- The struct `Scheduler`; `cap` is the capacity the channel was made with. -/
structure Scheduler (P : Type) where
  cap : Nat
  taskQueue : List (Task P)
  activeTasks : Registry P

/-- The constructor `NewScheduler(maxQueueSize)`. `make(chan *Task, n)` panics for a negative
size, which is the result `none`. -/
def NewScheduler {P : Type} (maxQueueSize : Int) : Option (Scheduler P) :=
  if maxQueueSize < 0 then none
  else some { cap := maxQueueSize.toNat, taskQueue := [], activeTasks := fun _ => none }

/-- The non-blocking send `select { case s.taskQueue <- task: ... default: ... }`
in a state where no receiver is parked on the channel (`chanSend` with
`receiverParked = false`): `some` of the new state when the send case runs,
`none` for the `default` case. -/
def trySend {P : Type} (s : Scheduler P) (task : Task P) : Option (Scheduler P) :=
  if s.taskQueue.length < s.cap then some { s with taskQueue := s.taskQueue ++ [task] }
  else none

/-- The method `EnqueueTask(payload, jobID, frameID)`, with the generated uuid `taskID`
and the reading `now` of the clock; returns the new state and the Go result
pair `(string, error)`. -/
def EnqueueTask {P : Type} (s : Scheduler P) (payload : P) (jobID frameID : String)
    (taskID : String) (now : Time) : Scheduler P × (String × Option SchedError) :=
  let task : Task P :=
    { ID := taskID, JobID := jobID, FrameID := frameID, Payload := payload,
      CreatedAt := now, StartedAt := Time.zero, Retries := 0 }
  match trySend s task with
  | some s' => (s', (taskID, none))
  | none => (s, ("", some errEnqueueFull))

/-- What a `GetNextTask` call does in a given state: it returns `(task, nil)`,
it returns `(nil, err)`, or neither case of its `select` is ready. -/
inductive NextTask (P : Type) where
  | task (t : Task P)
  | err (e : SchedError)
  | blocked
deriving DecidableEq, Repr

/-- The method `GetNextTask(ctx)`. `ctxErr` is `none` while `ctx.Done()` is open and
`some e` once it is closed with `ctx.Err() = e`. When both cases of the
`select` are ready Go chooses one at random: `pick = true` is the receive
case. `now` is the clock reading taken in the receive case. -/
def GetNextTask {P : Type} (s : Scheduler P) (ctxErr : Option CtxError) (pick : Bool)
    (now : Time) : Scheduler P × NextTask P :=
  let recv (task : Task P) (rest : List (Task P)) : Scheduler P × NextTask P :=
    let task' : Task P := { task with StartedAt := now }
    ({ s with taskQueue := rest, activeTasks := s.activeTasks.insert task'.ID task' },
      .task task')
  match s.taskQueue, ctxErr with
  | task :: rest, none => recv task rest
  | task :: rest, some e => if pick then recv task rest else (s, .err (.context e))
  | [], some e => (s, .err (.context e))
  | [], none => (s, .blocked)

/-- The method `popActiveTask(taskID)`: the Go result `(task, exists)` is `some task`
when `exists` is true and `none` otherwise. -/
def popActiveTask {P : Type} (s : Scheduler P) (taskID : String) :
    Scheduler P × Option (Task P) :=
  match s.activeTasks taskID with
  | some task => ({ s with activeTasks := s.activeTasks.delete taskID }, some task)
  | none => (s, none)

/-- The goroutine spawned by `RequeueTask`, run on the task `t` it was given:
the new state and the pair `(string, error)` it evaluates to. -/
def requeuePush {P : Type} (s : Scheduler P) (t : Task P) :
    Scheduler P × (String × Option SchedError) :=
  match trySend s t with
  | some s' => (s', (t.ID, none))
  | none => (s, ("", some errRequeueFull))

/-- The method `RequeueTask(taskID)` up to the `go` statement: the new state and the
argument of the spawned goroutine, if one is spawned. -/
def RequeueTask {P : Type} (s : Scheduler P) (taskID : String) (now : Time) :
    Scheduler P × Option (Task P) :=
  match popActiveTask s taskID with
  | (s', some task) => (s', some { task with CreatedAt := now })
  | (s', none) => (s', none)

/-- The method `MarkTaskComplete(taskID)`: the result of the pop is discarded. -/
def MarkTaskComplete {P : Type} (s : Scheduler P) (taskID : String) : Scheduler P :=
  (popActiveTask s taskID).1

/-- The method `GetQueueLength()`: `len` of the channel. -/
def GetQueueLength {P : Type} (s : Scheduler P) : Nat := s.taskQueue.length

/-- The locked loop of `sweep` over the map, visiting the keys in `order`:
the registry after the loop and the slice `deadTasks`. -/
def scanExpired {P : Type} (timeout : Int) (now : Time) :
    Registry P → List String → Registry P × List (Task P)
  | active, [] => (active, [])
  | active, id :: rest =>
    match active id with
    | some task =>
      if Time.Sub now task.StartedAt > timeout then
        let r := scanExpired timeout now (active.delete id) rest
        (r.1, task :: r.2)
      else scanExpired timeout now active rest
    | none => scanExpired timeout now active rest

/-- The three messages `sweep` prints. -/
inductive SweepReport where
  | dropped (id : String) (retries : Int)
  | requeued (id : String) (retries : Int)
  | lost (id : String)
deriving DecidableEq, Repr

/-- The second loop of `sweep`, over `deadTasks`: the new state and the
messages printed. -/
def requeueDead {P : Type} : Scheduler P → List (Task P) → Scheduler P × List SweepReport
  | s, [] => (s, [])
  | s, task :: rest =>
    let task' : Task P := { task with Retries := wrapInt32 (task.Retries + 1) }
    if task'.Retries > 3 then
      let r := requeueDead s rest
      (r.1, .dropped task'.ID task'.Retries :: r.2)
    else
      match trySend s task' with
      | some s' =>
        let r := requeueDead s' rest
        (r.1, .requeued task'.ID task'.Retries :: r.2)
      | none =>
        let r := requeueDead s rest
        (r.1, .lost task'.ID :: r.2)

/-- The method `sweep(timeout)` with clock reading `now` and map visiting order `order`. -/
def sweep {P : Type} (s : Scheduler P) (timeout : Int) (now : Time) (order : List String) :
    Scheduler P × List SweepReport :=
  let scan := scanExpired timeout now s.activeTasks order
  requeueDead { s with activeTasks := scan.1 } scan.2

/-- The loop of `PurgeJobTasks` over the map, visiting the keys in `order`. -/
def purgeLoop {P : Type} (jobID : String) : Registry P → List String → Registry P
  | active, [] => active
  | active, taskID :: rest =>
    match active taskID with
    | some task =>
      if task.JobID = jobID then purgeLoop jobID (active.delete taskID) rest
      else purgeLoop jobID active rest
    | none => purgeLoop jobID active rest

/-- The method `PurgeJobTasks(jobID)` with map visiting order `order`; the second
component is the returned `error` (always `nil`). -/
def PurgeJobTasks {P : Type} (s : Scheduler P) (jobID : String) (order : List String) :
    Scheduler P × Option SchedError :=
  ({ s with activeTasks := purgeLoop jobID s.activeTasks order }, none)

/-- A visiting order of a `range` over the map `m`: every key of `m` exactly
once and nothing else. -/
def Enumerates {P : Type} (order : List String) (m : Registry P) : Prop :=
  order.Nodup ∧ ∀ k, k ∈ order ↔ m k ≠ none

/-- The arguments of one `EnqueueTask` call together with the uuid and the
clock reading the call obtains. -/
structure EnqueueCall (P : Type) where
  payload : P
  jobID : String
  frameID : String
  taskID : String
  now : Time

/-- The task an `EnqueueTask` call constructs. -/
def EnqueueCall.task {P : Type} (c : EnqueueCall P) : Task P :=
  { ID := c.taskID, JobID := c.jobID, FrameID := c.frameID, Payload := c.payload,
    CreatedAt := c.now, StartedAt := Time.zero, Retries := 0 }

/-- A sequence of `EnqueueTask` calls with nothing in between: the final
state and the results of the calls, in order. -/
def enqueueAll {P : Type} :
    Scheduler P → List (EnqueueCall P) → Scheduler P × List (String × Option SchedError)
  | s, [] => (s, [])
  | s, c :: rest =>
    let r := EnqueueTask s c.payload c.jobID c.frameID c.taskID c.now
    let rs := enqueueAll r.1 rest
    (rs.1, r.2 :: rs.2)

/-! ## The scheduler as a transition system -/

/-- The ids of a list of tasks, in order. -/
def taskIDs {P : Type} (l : List (Task P)) : List String := l.map (fun t => t.ID)

/-- A scheduler together with the goroutines spawned by `RequeueTask` that
have not run their send yet (each with the task it was given) and the uuids
generated so far (a ghost component, used only to say that a uuid is fresh). -/
structure Sys (P : Type) where
  sched : Scheduler P
  spawned : List (Task P)
  issued : List String

/-- The calls and internal events of the scheduler, each with the values it
reads from its environment (clock, uuid generator, select choice, map
visiting order). -/
inductive Op (P : Type) where
  | enqueue (payload : P) (jobID frameID taskID : String) (now : Time)
  | getNext (ctxErr : Option CtxError) (pick : Bool) (now : Time)
  | complete (taskID : String)
  | requeue (taskID : String) (now : Time)
  | requeuePush (i : Nat)
  | sweep (timeout : Int) (now : Time) (order : List String)
  | purge (jobID : String) (order : List String)
  | queueLength

/-- The effect of one operation. `requeuePush i` runs the send of the `i`-th
spawned goroutine. -/
def step {P : Type} (s : Sys P) : Op P → Sys P
  | .enqueue payload jobID frameID taskID now =>
    { s with sched := (EnqueueTask s.sched payload jobID frameID taskID now).1,
             issued := taskID :: s.issued }
  | .getNext ctxErr pick now => { s with sched := (GetNextTask s.sched ctxErr pick now).1 }
  | .complete taskID => { s with sched := MarkTaskComplete s.sched taskID }
  | .requeue taskID now =>
    match RequeueTask s.sched taskID now with
    | (sched', some t) => { s with sched := sched', spawned := s.spawned ++ [t] }
    | (sched', none) => { s with sched := sched' }
  | .requeuePush i =>
    match s.spawned.get? i with
    | some t => { s with sched := (requeuePush s.sched t).1, spawned := s.spawned.eraseIdx i }
    | none => s
  | .sweep timeout now order => { s with sched := (sweep s.sched timeout now order).1 }
  | .purge jobID order => { s with sched := (PurgeJobTasks s.sched jobID order).1 }
  | .queueLength => s

/-- The environment values an operation may read in state `s`: a generated
uuid is one never generated before, a timeout is a `time.Duration`, and a
visiting order of the map enumerates its keys. -/
def admissible {P : Type} (s : Sys P) : Op P → Prop
  | .enqueue _ _ _ taskID _ => taskID ∉ s.issued
  | .sweep timeout _ order =>
    minDuration ≤ timeout ∧ timeout ≤ maxDuration ∧ Enumerates order s.sched.activeTasks
  | .purge _ order => Enumerates order s.sched.activeTasks
  | _ => True

/-- The state after a sequence of operations. -/
def run {P : Type} : Sys P → List (Op P) → Sys P
  | s, [] => s
  | s, op :: ops => run (step s op) ops

/-- Every operation of the sequence is admissible in the state it runs in. -/
def admissibleRun {P : Type} : Sys P → List (Op P) → Prop
  | _, [] => True
  | s, op :: ops => admissible s op ∧ admissibleRun (step s op) ops

/-- The states reachable from a scheduler constructed by
`NewScheduler(maxQueueSize)`. -/
def Reachable {P : Type} (maxQueueSize : Int) (s : Sys P) : Prop :=
  ∃ s0 ops, NewScheduler maxQueueSize = some s0 ∧
    admissibleRun { sched := s0, spawned := [], issued := [] } ops ∧
    s = run { sched := s0, spawned := [], issued := [] } ops

/-- No task with id `id` is pending, waiting in a spawned goroutine, or
active. -/
def Gone {P : Type} (id : String) (s : Sys P) : Prop :=
  id ∉ taskIDs s.sched.taskQueue ∧ id ∉ taskIDs s.spawned ∧
    ∀ k t, s.sched.activeTasks k = some t → t.ID ≠ id

/-- The structural invariant of reachable states: pending and spawned tasks
have pairwise distinct ids, every registry entry is stored under its own id,
no active id is pending or spawned, and every id in the system was issued. -/
structure Inv {P : Type} (s : Sys P) : Prop where
  nodup : (taskIDs (s.sched.taskQueue ++ s.spawned)).Nodup
  key : ∀ k t, s.sched.activeTasks k = some t → t.ID = k
  disjoint : ∀ k t, s.sched.activeTasks k = some t →
    k ∉ taskIDs (s.sched.taskQueue ++ s.spawned)
  pendingIssued : ∀ id ∈ taskIDs (s.sched.taskQueue ++ s.spawned), id ∈ s.issued
  activeIssued : ∀ k t, s.sched.activeTasks k = some t → k ∈ s.issued

/-- The task a sweep pushes back: `Retries` incremented (as an int32). -/
def bumpRetries {P : Type} (task : Task P) : Task P :=
  { task with Retries := wrapInt32 (task.Retries + 1) }

/-- The id an operation hands to a producer: the first component of the
result of an `EnqueueTask` call that returns a nil error. -/
def enqueuedID {P : Type} (s : Scheduler P) : Op P → Option String
  | .enqueue payload jobID frameID taskID now =>
    match (EnqueueTask s payload jobID frameID taskID now).2 with
    | (id, none) => some id
    | (_, some _) => none
  | _ => none

/-- The id of the task an operation hands to a worker: the task returned by a
`GetNextTask` call. -/
def servedID {P : Type} (s : Scheduler P) : Op P → Option String
  | .getNext ctxErr pick now =>
    match (GetNextTask s ctxErr pick now).2 with
    | .task t => some t.ID
    | _ => none
  | _ => none

/-- The ids returned by the successful `EnqueueTask` calls of a run, in order. -/
def enqueuedIDs {P : Type} : Sys P → List (Op P) → List String
  | _, [] => []
  | s, op :: ops => (enqueuedID s.sched op).toList ++ enqueuedIDs (step s op) ops

/-- The ids of the tasks returned by the `GetNextTask` calls of a run, in order. -/
def servedIDs {P : Type} : Sys P → List (Op P) → List String
  | _, [] => []
  | s, op :: ops => (servedID s.sched op).toList ++ servedIDs (step s op) ops

/-- An operation that is neither a reclamation nor a requeue. -/
def plainOp {P : Type} : Op P → Prop
  | .requeue _ _ => False
  | .requeuePush _ => False
  | .sweep _ _ _ => False
  | _ => True

/-! ## Example states -/

/-- A scheduler of capacity 1 holding one pending task and one active task. -/
def exampleFull : Scheduler Nat :=
  { cap := 1,
    taskQueue := [{ ID := "p", JobID := "j", FrameID := "f", Payload := 1,
                    CreatedAt := 3, StartedAt := 0, Retries := 0 }],
    activeTasks := fun k =>
      if k = "q" then
        some { ID := "q", JobID := "j", FrameID := "g", Payload := 2,
               CreatedAt := 1, StartedAt := 2, Retries := 0 }
      else none }

/-- The same scheduler with capacity 2, so with room for one more task. -/
def exampleRoom : Scheduler Nat := { exampleFull with cap := 2 }

/-- A scheduler with an empty pending queue and one active task. -/
def exampleIdle : Scheduler Nat := { exampleFull with taskQueue := [] }

/-- A fresh system of capacity 2. -/
def exampleInit : Sys Nat :=
  { sched := { cap := 2, taskQueue := [], activeTasks := fun _ => none },
    spawned := [], issued := [] }

/-- The state after task "a" was enqueued at time 0 and dispatched at time 5. -/
def exampleDispatched : Sys Nat :=
  run exampleInit [.enqueue 1 "j" "f" "a" 0, .getNext none false 5]

/-- The task "a" as it is recorded in the registry of `exampleDispatched`. -/
def exampleActive : Task Nat :=
  { ID := "a", JobID := "j", FrameID := "f", Payload := 1,
    CreatedAt := 0, StartedAt := 5, Retries := 0 }

/-- A scheduler with a pending task of the job "render" and one active task
of each of the jobs "render" and "comp". -/
def exampleTwoJobs : Scheduler Nat :=
  { cap := 4,
    taskQueue := [{ ID := "r2", JobID := "render", FrameID := "f2", Payload := 2,
                    CreatedAt := 3, StartedAt := 0, Retries := 0 }],
    activeTasks :=
      Registry.insert
        (Registry.insert (fun _ => none) "r1"
          { ID := "r1", JobID := "render", FrameID := "f1", Payload := 1,
            CreatedAt := 1, StartedAt := 4, Retries := 0 })
        "c1"
        { ID := "c1", JobID := "comp", FrameID := "f1", Payload := 3,
          CreatedAt := 2, StartedAt := 5, Retries := 1 } }

/-- A run without reclamation or requeue: enqueue "a", enqueue "b", dequeue,
enqueue "c", dequeue. -/
def exampleFifoOps : List (Op Nat) :=
  [.enqueue 1 "j" "f1" "a" 0, .enqueue 2 "j" "f2" "b" 1, .getNext none false 2,
   .enqueue 3 "j" "f3" "c" 3, .getNext none false 4]

/-- One reclamation cycle of a scenario: a worker dequeues at time `d` with an
open context and never reports back, then a sweep runs at time `w`. -/
def reclaimCycle {P : Type} (s : Scheduler P) (timeout : Int) (d w : Time)
    (order : List String) : Scheduler P :=
  (sweep (GetNextTask s none false d).1 timeout w order).1

/-- Fifty milliseconds as a `time.Duration`. -/
def ms50 : Int := 50000000

/-- A fresh scheduler of capacity 1 after `EnqueueTask` of a task that gets the
uuid "a" at time 0. -/
def exampleOneTask : Scheduler Nat :=
  (EnqueueTask { cap := 1, taskQueue := [], activeTasks := fun _ => none } 1 "j" "f" "a" 0).1

/-- Successive reclamation cycles, each given as the pair of its dispatch time
and its sweep time. -/
def reclaimCycles {P : Type} (s : Scheduler P) (timeout : Int) (order : List String) :
    List (Time × Time) → Scheduler P
  | [] => s
  | (d, w) :: rest => reclaimCycles (reclaimCycle s timeout d w order) timeout order rest

/-- The arguments of the scenario call: payload 1, job "j", frame "f", uuid
"a", clock reading 0. -/
def exampleCall : EnqueueCall Nat :=
  { payload := 1, jobID := "j", frameID := "f", taskID := "a", now := 0 }

/-- The test of the locked loop of `sweep`: `now.Sub(task.StartedAt) > timeout`. -/
def expired {P : Type} (timeout : Int) (now : Time) (task : Task P) : Bool :=
  decide (Time.Sub now task.StartedAt > timeout)

/-- The task `t` is held by the scheduler: it is pending, it is the argument
of a spawned push, or it is stored in the registry. -/
def InSys {P : Type} (s : Sys P) (t : Task P) : Prop :=
  t ∈ s.sched.taskQueue ∨ t ∈ s.spawned ∨ ∃ k, s.sched.activeTasks k = some t

/-- Every task held by the scheduler has `Retries` between 0 and 3. -/
def RetryBound {P : Type} (s : Sys P) : Prop :=
  ∀ t, InSys s t → 0 ≤ t.Retries ∧ t.Retries ≤ 3

/-- How operation `op`, run in state `s`, turns a held task `t` into the held
task `t'`: it leaves it alone, `GetNextTask` sets `StartedAt` of the head of the
queue, `RequeueTask` sets `CreatedAt` of the active task it is called for, or a
sweep increments `Retries` of an active task it finds timed out and pushes it
back. -/
def Evolves {P : Type} (s : Sys P) (op : Op P) (t t' : Task P) : Prop :=
  t' = t ∨
  (∃ ctxErr pick now, op = .getNext ctxErr pick now ∧
    s.sched.taskQueue.head? = some t ∧ t' = { t with StartedAt := now }) ∨
  (∃ taskID now, op = .requeue taskID now ∧
    s.sched.activeTasks taskID = some t ∧ t' = { t with CreatedAt := now }) ∨
  (∃ timeout now order, op = .sweep timeout now order ∧
    (∃ k, s.sched.activeTasks k = some t) ∧ Time.Sub now t.StartedAt > timeout ∧
    t' = bumpRetries t ∧ t'.Retries ≤ 3)

/-- The run in which task "a" is dispatched at 0, 70, 150 and 220ms and
reclaimed by sweeps (timeout 50ms) at 60, 140 and 210ms. -/
def exampleThreeSweeps : List (Op Nat) :=
  [.enqueue 1 "j" "f" "a" 0, .getNext none false 0, .sweep ms50 60000000 ["a"],
   .getNext none false 70000000, .sweep ms50 140000000 ["a"],
   .getNext none false 150000000, .sweep ms50 210000000 ["a"],
   .getNext none false 220000000]

/-- The state after `exampleThreeSweeps`: task "a" is active with Retries 3. -/
def exampleLastChance : Sys Nat := run exampleInit exampleThreeSweeps

/-- The registry entry of task "a" in `exampleLastChance`. -/
def exampleLastTask : Task Nat :=
  { ID := "a", JobID := "j", FrameID := "f", Payload := 1,
    CreatedAt := 0, StartedAt := 220000000, Retries := 3 }

/-- Operation `op`, run in state `s`, takes the active task `id` back: it is an
explicit `RequeueTask(id)` or a sweep whose scan collects a task with that id. -/
def reclaims {P : Type} (id : String) (s : Sys P) : Op P → Prop
  | .requeue taskID _ => taskID = id
  | .sweep timeout now order =>
    id ∈ taskIDs (scanExpired timeout now s.sched.activeTasks order).2
  | _ => False

/-- No operation of the run takes the task `id` back. -/
def neverReclaimed {P : Type} (id : String) : Sys P → List (Op P) → Prop
  | _, [] => True
  | s, op :: ops => ¬ reclaims id s op ∧ neverReclaimed id (step s op) ops

/-- Two tasks pending on a fresh scheduler of capacity 2. -/
def exampleTwoPending : Sys Nat :=
  run exampleInit [.enqueue 1 "j" "f1" "a" 0, .enqueue 2 "j" "f2" "b" 1]

/-- The number of `GetNextTask` calls of a run that return the task `id`. -/
def dispatchCount {P : Type} (id : String) : Sys P → List (Op P) → Nat
  | _, [] => 0
  | s, op :: ops =>
    (if servedID s.sched op = some id then 1 else 0) + dispatchCount id (step s op) ops

/-- The operation is an explicit `RequeueTask(id)`. -/
def requeuesTask {P : Type} (id : String) : Op P → Prop
  | .requeue taskID _ => taskID = id
  | _ => False

/-- The number `b` of dispatches the task `id` can still get without an
explicit `RequeueTask`: an active task with `Retries = r` has `3 - r` left, a
pending one `4 - r`, a task that has left the system none, and a uuid not yet
generated four. -/
def Budget {P : Type} (id : String) (s : Sys P) (b : Nat) : Prop :=
  (∃ t, s.sched.activeTasks id = some t ∧ t.Retries + b = 3) ∨
  (∃ t ∈ s.sched.taskQueue, t.ID = id ∧ t.Retries + b = 4) ∨
  (Gone id s ∧ id ∈ s.issued ∧ b = 0) ∨
  (id ∉ s.issued ∧ b = 4)

/-- A run in which task "a" is dispatched five times, each time handed back by
an explicit `RequeueTask` whose spawned push then runs. -/
def exampleRequeueRun : List (Op Nat) :=
  [.enqueue 1 "j" "f" "a" 0,
   .getNext none false 1, .requeue "a" 2, .requeuePush 0,
   .getNext none false 3, .requeue "a" 4, .requeuePush 0,
   .getNext none false 5, .requeue "a" 6, .requeuePush 0,
   .getNext none false 7, .requeue "a" 8, .requeuePush 0,
   .getNext none false 9]

/-! ## Sends that meet a parked receiver -/

/-- What the send case of a non-blocking send on `taskQueue` does: the value
goes into the buffer, it is handed to a `GetNextTask` caller parked on the
channel, or the send case is not ready and `default` runs. -/
inductive Sent (P : Type) where
  | buffered (s' : Scheduler P)
  | handedOff (task : Task P)
  | refused

/-- The non-blocking send `select { case s.taskQueue <- task: ... default: ... }`
with the receive queue of the channel made explicit: `receiverParked` says
whether a `GetNextTask` caller is parked in its `select` (a caller parks only
on an empty channel). As in the Go runtime, a parked caller is served first
and gets the value directly; otherwise the value is buffered when the buffer
has room; otherwise the send case is not ready. -/
def chanSend {P : Type} (s : Scheduler P) (receiverParked : Bool) (task : Task P) : Sent P :=
  if receiverParked then .handedOff task
  else if s.taskQueue.length < s.cap then
    .buffered { s with taskQueue := s.taskQueue ++ [task] }
  else .refused

/-- The method `EnqueueTask(payload, jobID, frameID)` on a channel whose receive
queue is explicit: the new state, the Go result pair `(string, error)`, and the
task handed to the parked caller, if the send completed that way. -/
def EnqueueTaskCh {P : Type} (s : Scheduler P) (receiverParked : Bool) (payload : P)
    (jobID frameID : String) (taskID : String) (now : Time) :
    Scheduler P × (String × Option SchedError) × Option (Task P) :=
  let task : Task P :=
    { ID := taskID, JobID := jobID, FrameID := frameID, Payload := payload,
      CreatedAt := now, StartedAt := Time.zero, Retries := 0 }
  match chanSend s receiverParked task with
  | .buffered s' => (s', (taskID, none), none)
  | .handedOff t => (s, (taskID, none), some t)
  | .refused => (s, ("", some errEnqueueFull), none)

/-- The goroutine spawned by `RequeueTask` on a channel whose receive queue is
explicit: the new state, the pair `(string, error)` it evaluates to, and the
task handed to the parked caller, if the send completed that way. -/
def requeuePushCh {P : Type} (s : Scheduler P) (receiverParked : Bool) (t : Task P) :
    Scheduler P × (String × Option SchedError) × Option (Task P) :=
  match chanSend s receiverParked t with
  | .buffered s' => (s', (t.ID, none), none)
  | .handedOff u => (s, (t.ID, none), some u)
  | .refused => (s, ("", some errRequeueFull), none)

/-- The receive case of `GetNextTask` for a caller that was parked and is handed
`task` by a sender: it sets `StartedAt`, stores the task under its id and
returns it. -/
def receiveHandOff {P : Type} (s : Scheduler P) (task : Task P) (now : Time) :
    Scheduler P × NextTask P :=
  let task' : Task P := { task with StartedAt := now }
  ({ s with activeTasks := s.activeTasks.insert task'.ID task' }, .task task')

/-- The scheduler `NewScheduler(0)` returns: an unbuffered channel. -/
def exampleUnbuffered : Scheduler Nat :=
  { cap := 0, taskQueue := [], activeTasks := fun _ => none }

/-- The task `EnqueueTask(1, "j", "f")` builds with uuid "a" at time 0. -/
def exampleHandedTask : Task Nat :=
  { ID := "a", JobID := "j", FrameID := "f", Payload := 1,
    CreatedAt := 0, StartedAt := 0, Retries := 0 }

/-- The unbuffered scheduler after `EnqueueTask` handed task "a" to a parked
`GetNextTask` caller, which recorded it at time 5. -/
def exampleUnbufferedActive : Scheduler Nat :=
  (receiveHandOff (EnqueueTaskCh exampleUnbuffered true 1 "j" "f" "a" 0).1
    exampleHandedTask 5).1

/-- The task "a" as `RequeueTask("a")` at time 9 hands it to its spawned push,
after it was recorded at time 5. -/
def exampleRequeued : Task Nat :=
  { ID := "a", JobID := "j", FrameID := "f", Payload := 1,
    CreatedAt := 9, StartedAt := 5, Retries := 0 }

/-- The unbuffered scheduler after `RequeueTask("a")` at time 9, with the
spawned push still to run. -/
def exampleUnbufferedSpawned : Sys Nat :=
  { sched := (RequeueTask exampleUnbufferedActive "a" 9).1,
    spawned := [exampleRequeued], issued := ["a"] }

/-! ## Basic facts about the channel and the map -/

theorem trySend_room {P : Type} (s : Scheduler P) (task : Task P)
    (h : s.taskQueue.length < s.cap) :
    trySend s task = some { s with taskQueue := s.taskQueue ++ [task] } := by
  simp [trySend, h]

theorem trySend_full {P : Type} (s : Scheduler P) (task : Task P)
    (h : s.cap ≤ s.taskQueue.length) : trySend s task = none := by
  simp [trySend, Nat.not_lt.mpr h]

theorem EnqueueTask_room {P : Type} (s : Scheduler P) (payload : P)
    (jobID frameID taskID : String) (now : Time) (h : s.taskQueue.length < s.cap) :
    EnqueueTask s payload jobID frameID taskID now =
      ({ s with taskQueue := s.taskQueue ++
          [{ ID := taskID, JobID := jobID, FrameID := frameID, Payload := payload,
             CreatedAt := now, StartedAt := Time.zero, Retries := 0 }] },
        (taskID, none)) := by
  simp [EnqueueTask, trySend_room s _ h]

theorem EnqueueTask_full {P : Type} (s : Scheduler P) (payload : P)
    (jobID frameID taskID : String) (now : Time) (h : s.cap ≤ s.taskQueue.length) :
    EnqueueTask s payload jobID frameID taskID now = (s, ("", some errEnqueueFull)) := by
  simp [EnqueueTask, trySend_full s _ h]

theorem enqueueAll_room {P : Type} (calls : List (EnqueueCall P)) :
    ∀ s : Scheduler P, s.taskQueue.length + calls.length ≤ s.cap →
      enqueueAll s calls =
        ({ s with taskQueue := s.taskQueue ++ calls.map EnqueueCall.task },
          calls.map (fun c => (c.taskID, none))) := by
  induction calls with
  | nil => intro s _; simp [enqueueAll]
  | cons c rest ih =>
    intro s h
    have hroom : s.taskQueue.length < s.cap := by
      simp only [List.length_cons] at h; omega
    have hrest : ({ s with taskQueue := s.taskQueue ++ [c.task] } : Scheduler P).taskQueue.length
        + rest.length ≤ ({ s with taskQueue := s.taskQueue ++ [c.task] } : Scheduler P).cap := by
      simp only [List.length_cons] at h
      simp only [List.length_append, List.length_singleton]; omega
    have hstep := EnqueueTask_room s c.payload c.jobID c.frameID c.taskID c.now hroom
    simp only [enqueueAll, hstep]
    rw [show ({ s with taskQueue := s.taskQueue ++
          [{ ID := c.taskID, JobID := c.jobID, FrameID := c.frameID, Payload := c.payload,
             CreatedAt := c.now, StartedAt := Time.zero, Retries := 0 }] } : Scheduler P)
        = { s with taskQueue := s.taskQueue ++ [c.task] } from rfl]
    rw [ih _ hrest]
    simp

theorem GetNextTask_recv {P : Type} (s : Scheduler P) (ctxErr : Option CtxError)
    (pick : Bool) (now : Time) (head : Task P) (tail : List (Task P))
    (hq : s.taskQueue = head :: tail) (hsel : ctxErr = none ∨ pick = true) :
    GetNextTask s ctxErr pick now =
      ({ s with taskQueue := tail,
                activeTasks := s.activeTasks.insert head.ID { head with StartedAt := now } },
        .task { head with StartedAt := now }) := by
  unfold GetNextTask
  rcases hsel with h | h
  · subst h; simp [hq]
  · subst h
    cases ctxErr <;> simp [hq]

theorem GetNextTask_done {P : Type} (s : Scheduler P) (e : CtxError)
    (pick : Bool) (now : Time) (hsel : s.taskQueue = [] ∨ pick = false) :
    GetNextTask s (some e) pick now = (s, .err (.context e)) := by
  unfold GetNextTask
  rcases hsel with h | h
  · simp [h]
  · subst h
    cases hq : s.taskQueue <;> simp

theorem GetNextTask_blocked {P : Type} (s : Scheduler P) (pick : Bool) (now : Time)
    (hq : s.taskQueue = []) : GetNextTask s none pick now = (s, .blocked) := by
  simp [GetNextTask, hq]

theorem GetNextTask_cases {P : Type} (s : Scheduler P) (ctxErr : Option CtxError)
    (pick : Bool) (now : Time) :
    (∃ head tail, s.taskQueue = head :: tail ∧
      GetNextTask s ctxErr pick now =
        ({ s with taskQueue := tail,
                  activeTasks := s.activeTasks.insert head.ID { head with StartedAt := now } },
          .task { head with StartedAt := now })) ∨
    (∃ e, ctxErr = some e ∧ GetNextTask s ctxErr pick now = (s, .err (.context e))) ∨
    (s.taskQueue = [] ∧ ctxErr = none ∧ GetNextTask s ctxErr pick now = (s, .blocked)) := by
  cases hq : s.taskQueue with
  | nil =>
    cases ctxErr with
    | none => exact Or.inr (Or.inr ⟨rfl, rfl, GetNextTask_blocked s pick now hq⟩)
    | some e => exact Or.inr (Or.inl ⟨e, rfl, GetNextTask_done s e pick now (Or.inl hq)⟩)
  | cons head tail =>
    cases ctxErr with
    | none =>
      exact Or.inl ⟨head, tail, rfl, GetNextTask_recv s none pick now head tail hq (Or.inl rfl)⟩
    | some e =>
      cases pick with
      | true =>
        exact Or.inl ⟨head, tail, rfl,
          GetNextTask_recv s (some e) true now head tail hq (Or.inr rfl)⟩
      | false => exact Or.inr (Or.inl ⟨e, rfl, GetNextTask_done s e false now (Or.inr rfl)⟩)

/-! ## The loops over the map and over the dead tasks -/

theorem Registry.delete_self {P : Type} (m : Registry P) (k : String) :
    m.delete k k = none := by
  simp [Registry.delete]

theorem Registry.delete_of_ne {P : Type} (m : Registry P) (k k' : String) (h : k' ≠ k) :
    m.delete k k' = m k' := by
  simp [Registry.delete, h]

theorem Registry.delete_eq_some {P : Type} (m : Registry P) (k k' : String) (t : Task P)
    (h : m.delete k k' = some t) : k' ≠ k ∧ m k' = some t := by
  unfold Registry.delete at h
  split at h
  · cases h
  · exact ⟨by assumption, h⟩

theorem scanExpired_cons_none {P : Type} (timeout : Int) (now : Time) (active : Registry P)
    (id : String) (rest : List String) (h : active id = none) :
    scanExpired timeout now active (id :: rest) = scanExpired timeout now active rest := by
  simp [scanExpired, h]

theorem scanExpired_cons_keep {P : Type} (timeout : Int) (now : Time) (active : Registry P)
    (id : String) (rest : List String) (task : Task P) (h : active id = some task)
    (hexp : ¬ Time.Sub now task.StartedAt > timeout) :
    scanExpired timeout now active (id :: rest) = scanExpired timeout now active rest := by
  simp only [scanExpired, h, if_neg hexp]

theorem scanExpired_cons_dead {P : Type} (timeout : Int) (now : Time) (active : Registry P)
    (id : String) (rest : List String) (task : Task P) (h : active id = some task)
    (hexp : Time.Sub now task.StartedAt > timeout) :
    scanExpired timeout now active (id :: rest) =
      ((scanExpired timeout now (active.delete id) rest).1,
        task :: (scanExpired timeout now (active.delete id) rest).2) := by
  simp only [scanExpired, h, if_pos hexp]

theorem scanExpired_sub {P : Type} (timeout : Int) (now : Time) (order : List String) :
    ∀ (active : Registry P) (k : String) (t : Task P),
      (scanExpired timeout now active order).1 k = some t → active k = some t := by
  induction order with
  | nil => intro active k t h; simpa [scanExpired] using h
  | cons id rest ih =>
    intro active k t h
    cases htask : active id with
    | none =>
      rw [scanExpired_cons_none timeout now active id rest htask] at h
      exact ih _ k t h
    | some task =>
      by_cases hexp : Time.Sub now task.StartedAt > timeout
      · rw [scanExpired_cons_dead timeout now active id rest task htask hexp] at h
        exact (Registry.delete_eq_some _ _ _ _ (ih _ k t h)).2
      · rw [scanExpired_cons_keep timeout now active id rest task htask hexp] at h
        exact ih _ k t h

theorem scanExpired_dead {P : Type} (timeout : Int) (now : Time) (order : List String) :
    ∀ (active : Registry P) (d : Task P), d ∈ (scanExpired timeout now active order).2 →
      ∃ k, k ∈ order ∧ active k = some d ∧ Time.Sub now d.StartedAt > timeout ∧
        (scanExpired timeout now active order).1 k = none := by
  induction order with
  | nil => intro active d h; simp [scanExpired] at h
  | cons id rest ih =>
    intro active d h
    cases htask : active id with
    | none =>
      rw [scanExpired_cons_none timeout now active id rest htask] at h ⊢
      obtain ⟨k, hk, hact, hex, hnone⟩ := ih _ d h
      exact ⟨k, List.mem_cons_of_mem _ hk, hact, hex, hnone⟩
    | some task =>
      by_cases hexp : Time.Sub now task.StartedAt > timeout
      · rw [scanExpired_cons_dead timeout now active id rest task htask hexp] at h ⊢
        rcases List.mem_cons.mp h with rfl | h'
        · refine ⟨id, List.mem_cons_self _ _, htask, hexp, ?_⟩
          cases hr : (scanExpired timeout now (active.delete id) rest).1 id with
          | none => rfl
          | some t =>
            have := scanExpired_sub timeout now rest _ id t hr
            simp [Registry.delete] at this
        · obtain ⟨k, hk, hact, hex, hnone⟩ := ih _ d h'
          have := Registry.delete_eq_some _ _ _ _ hact
          exact ⟨k, List.mem_cons_of_mem _ hk, this.2, hex, hnone⟩
      · rw [scanExpired_cons_keep timeout now active id rest task htask hexp] at h ⊢
        obtain ⟨k, hk, hact, hex, hnone⟩ := ih _ d h
        exact ⟨k, List.mem_cons_of_mem _ hk, hact, hex, hnone⟩

theorem scanExpired_nodup {P : Type} (timeout : Int) (now : Time) (order : List String) :
    ∀ (active : Registry P), (∀ k t, active k = some t → t.ID = k) →
      (taskIDs (scanExpired timeout now active order).2).Nodup := by
  induction order with
  | nil => intro active _; simp [scanExpired, taskIDs]
  | cons id rest ih =>
    intro active hkey
    cases htask : active id with
    | none =>
      rw [scanExpired_cons_none timeout now active id rest htask]
      exact ih _ hkey
    | some task =>
      by_cases hexp : Time.Sub now task.StartedAt > timeout
      · rw [scanExpired_cons_dead timeout now active id rest task htask hexp]
        have hkey' : ∀ k t, active.delete id k = some t → t.ID = k := fun k t h =>
          hkey k t (Registry.delete_eq_some _ _ _ _ h).2
        simp only [taskIDs, List.map_cons, List.nodup_cons]
        refine ⟨?_, ih _ hkey'⟩
        intro hmem
        obtain ⟨d, hd, hid⟩ := List.mem_map.mp hmem
        obtain ⟨k, _, hact, _, _⟩ := scanExpired_dead timeout now rest _ d hd
        have h1 := Registry.delete_eq_some _ _ _ _ hact
        have h2 := hkey k d h1.2
        have h3 := hkey id task htask
        exact h1.1 (by rw [← h2, hid, h3])
      · rw [scanExpired_cons_keep timeout now active id rest task htask hexp]
        exact ih _ hkey

theorem requeueDead_cons_dropped {P : Type} (s : Scheduler P) (task : Task P)
    (rest : List (Task P)) (h : (bumpRetries task).Retries > 3) :
    requeueDead s (task :: rest) =
      ((requeueDead s rest).1,
        .dropped task.ID (bumpRetries task).Retries :: (requeueDead s rest).2) := by
  simp only [bumpRetries] at h
  simp only [requeueDead, if_pos h, bumpRetries]

theorem requeueDead_cons_pushed {P : Type} (s : Scheduler P) (task : Task P)
    (rest : List (Task P)) (h : ¬ (bumpRetries task).Retries > 3)
    (hroom : s.taskQueue.length < s.cap) :
    requeueDead s (task :: rest) =
      ((requeueDead { s with taskQueue := s.taskQueue ++ [bumpRetries task] } rest).1,
        .requeued task.ID (bumpRetries task).Retries ::
          (requeueDead { s with taskQueue := s.taskQueue ++ [bumpRetries task] } rest).2) := by
  simp only [bumpRetries] at h
  simp only [requeueDead, if_neg h, bumpRetries, trySend_room s _ hroom]

theorem requeueDead_cons_lost {P : Type} (s : Scheduler P) (task : Task P)
    (rest : List (Task P)) (h : ¬ (bumpRetries task).Retries > 3)
    (hfull : s.cap ≤ s.taskQueue.length) :
    requeueDead s (task :: rest) =
      ((requeueDead s rest).1, .lost task.ID :: (requeueDead s rest).2) := by
  simp only [bumpRetries] at h
  simp only [requeueDead, if_neg h, bumpRetries, trySend_full s _ hfull]

theorem requeueDead_spec {P : Type} (dead : List (Task P)) :
    ∀ s : Scheduler P, ∃ pushed : List (Task P),
      pushed.Sublist (dead.map bumpRetries) ∧
      (∀ t ∈ pushed, t.Retries ≤ 3) ∧
      (requeueDead s dead).1 =
        { s with taskQueue := s.taskQueue ++ pushed } := by
  induction dead with
  | nil => intro s; exact ⟨[], by simp, by simp, by simp [requeueDead]⟩
  | cons task rest ih =>
    intro s
    by_cases hret : (bumpRetries task).Retries > 3
    · rw [requeueDead_cons_dropped s task rest hret]
      obtain ⟨pushed, hsub, hle, heq⟩ := ih s
      exact ⟨pushed, by simpa using hsub.cons _, hle, heq⟩
    · by_cases hroom : s.taskQueue.length < s.cap
      · rw [requeueDead_cons_pushed s task rest hret hroom]
        obtain ⟨pushed, hsub, hle, heq⟩ :=
          ih { s with taskQueue := s.taskQueue ++ [bumpRetries task] }
        refine ⟨bumpRetries task :: pushed, ?_, ?_, ?_⟩
        · simpa using hsub.cons₂ (bumpRetries task)
        · intro t ht
          rcases List.mem_cons.mp ht with rfl | ht'
          · exact not_lt.mp hret
          · exact hle t ht'
        · simp only [heq]
          simp
      · rw [requeueDead_cons_lost s task rest hret (Nat.not_lt.mp hroom)]
        obtain ⟨pushed, hsub, hle, heq⟩ := ih s
        exact ⟨pushed, by simpa using hsub.cons _, hle, heq⟩

theorem purgeLoop_cons_none {P : Type} (jobID : String) (active : Registry P)
    (id : String) (rest : List String) (h : active id = none) :
    purgeLoop jobID active (id :: rest) = purgeLoop jobID active rest := by
  simp [purgeLoop, h]

theorem purgeLoop_cons_keep {P : Type} (jobID : String) (active : Registry P)
    (id : String) (rest : List String) (task : Task P) (h : active id = some task)
    (hjob : task.JobID ≠ jobID) :
    purgeLoop jobID active (id :: rest) = purgeLoop jobID active rest := by
  simp only [purgeLoop, h, if_neg hjob]

theorem purgeLoop_cons_delete {P : Type} (jobID : String) (active : Registry P)
    (id : String) (rest : List String) (task : Task P) (h : active id = some task)
    (hjob : task.JobID = jobID) :
    purgeLoop jobID active (id :: rest) = purgeLoop jobID (active.delete id) rest := by
  simp only [purgeLoop, h, if_pos hjob]

theorem purgeLoop_sub {P : Type} (jobID : String) (order : List String) :
    ∀ (active : Registry P) (k : String) (t : Task P),
      purgeLoop jobID active order k = some t → active k = some t := by
  induction order with
  | nil => intro active k t h; simpa [purgeLoop] using h
  | cons id rest ih =>
    intro active k t h
    cases htask : active id with
    | none =>
      rw [purgeLoop_cons_none jobID active id rest htask] at h
      exact ih _ k t h
    | some task =>
      by_cases hjob : task.JobID = jobID
      · rw [purgeLoop_cons_delete jobID active id rest task htask hjob] at h
        exact (Registry.delete_eq_some _ _ _ _ (ih _ k t h)).2
      · rw [purgeLoop_cons_keep jobID active id rest task htask hjob] at h
        exact ih _ k t h

/-! ## The invariant of reachable states -/

theorem taskIDs_append {P : Type} (a b : List (Task P)) :
    taskIDs (a ++ b) = taskIDs a ++ taskIDs b := by
  simp [taskIDs]

theorem mem_taskIDs {P : Type} (id : String) (l : List (Task P)) :
    id ∈ taskIDs l ↔ ∃ t ∈ l, t.ID = id := by
  simp [taskIDs]

theorem Inv_init {P : Type} (maxQueueSize : Int) (s0 : Scheduler P)
    (h : NewScheduler maxQueueSize = some s0) :
    Inv { sched := s0, spawned := [], issued := [] } := by
  unfold NewScheduler at h
  split at h
  · cases h
  · cases h
    exact ⟨by simp [taskIDs], by simp, by simp, by simp [taskIDs], by simp⟩

theorem Inv_enqueue {P : Type} (s : Sys P) (payload : P) (jobID frameID taskID : String)
    (now : Time) (hinv : Inv s) (hfresh : taskID ∉ s.issued) :
    Inv (step s (.enqueue payload jobID frameID taskID now)) := by
  obtain ⟨hnd, hkey, hdis, hpi, hai⟩ := hinv
  by_cases hroom : s.sched.taskQueue.length < s.sched.cap
  · simp only [step, EnqueueTask_room s.sched payload jobID frameID taskID now hroom]
    have hnew : taskID ∉ taskIDs (s.sched.taskQueue ++ s.spawned) := fun h => hfresh (hpi _ h)
    rw [taskIDs_append] at hnd hnew hdis hpi
    refine ⟨?_, hkey, ?_, ?_, ?_⟩
    · simp only [taskIDs_append, taskIDs, List.map_append, List.map_cons, List.map_nil] at *
      rw [List.append_assoc]
      refine (List.nodup_middle).mpr ?_
      simp only [List.singleton_append, List.nil_append, List.nodup_cons]
      exact ⟨hnew, hnd⟩
    · intro k t hk
      have h1 := hdis k t hk
      have h2 : k ≠ taskID := fun h => hfresh (h ▸ hai k t hk)
      simp only [taskIDs_append, taskIDs, List.map_append, List.map_cons, List.map_nil,
        List.mem_append, List.mem_singleton] at h1 ⊢
      tauto
    · intro id hid
      simp only [taskIDs_append, taskIDs, List.map_append, List.map_cons, List.map_nil,
        List.mem_append, List.mem_singleton, List.mem_cons, List.not_mem_nil,
        or_false] at hid hpi ⊢
      rcases hid with (h | h) | h
      · exact Or.inr (hpi id (Or.inl h))
      · exact Or.inl h
      · exact Or.inr (hpi id (Or.inr h))
    · intro k t hk
      exact List.mem_cons_of_mem _ (hai k t hk)
  · simp only [step, EnqueueTask_full s.sched payload jobID frameID taskID now
      (Nat.not_lt.mp hroom)]
    exact ⟨hnd, hkey, hdis, fun id h => List.mem_cons_of_mem _ (hpi id h),
      fun k t h => List.mem_cons_of_mem _ (hai k t h)⟩

theorem Inv_getNext {P : Type} (s : Sys P) (ctxErr : Option CtxError) (pick : Bool)
    (now : Time) (hinv : Inv s) : Inv (step s (.getNext ctxErr pick now)) := by
  obtain ⟨hnd, hkey, hdis, hpi, hai⟩ := hinv
  cases hq : s.sched.taskQueue with
  | nil =>
    cases ctxErr with
    | none =>
      simp only [step, GetNextTask_blocked s.sched pick now hq]
      exact ⟨hnd, hkey, hdis, hpi, hai⟩
    | some e =>
      simp only [step, GetNextTask_done s.sched e pick now (Or.inl hq)]
      exact ⟨hnd, hkey, hdis, hpi, hai⟩
  | cons head tail =>
    by_cases hsel : ctxErr = none ∨ pick = true
    · simp only [step, GetNextTask_recv s.sched ctxErr pick now head tail hq hsel]
      rw [hq] at hnd hdis hpi
      simp only [taskIDs, List.cons_append, List.map_cons, List.nodup_cons] at hnd hdis hpi
      refine ⟨hnd.2, ?_, ?_, ?_, ?_⟩
      · intro k t hk
        simp only [Registry.insert] at hk
        split at hk
        · cases hk; rename_i h; exact h.symm
        · exact hkey k t hk
      · intro k t hk
        simp only [Registry.insert] at hk
        split at hk
        · rename_i h; subst h; exact hnd.1
        · exact fun h => hdis k t hk (List.mem_cons_of_mem _ h)
      · intro id hid
        exact hpi id (List.mem_cons_of_mem _ hid)
      · intro k t hk
        simp only [Registry.insert] at hk
        split at hk
        · rename_i h; subst h; exact hpi _ (List.mem_cons_self _ _)
        · exact hai k t hk
    · have hdone : ∃ e, ctxErr = some e ∧ pick = false := by
        cases ctxErr with
        | none => exact absurd (Or.inl rfl) hsel
        | some e =>
          cases pick with
          | true => exact absurd (Or.inr rfl) hsel
          | false => exact ⟨e, rfl, rfl⟩
      obtain ⟨e, rfl, rfl⟩ := hdone
      simp only [step, GetNextTask_done s.sched e false now (Or.inr rfl)]
      exact ⟨hnd, hkey, hdis, hpi, hai⟩

theorem popActiveTask_some {P : Type} (s : Scheduler P) (taskID : String) (t : Task P)
    (h : s.activeTasks taskID = some t) :
    popActiveTask s taskID = ({ s with activeTasks := s.activeTasks.delete taskID }, some t) := by
  simp [popActiveTask, h]

theorem popActiveTask_none {P : Type} (s : Scheduler P) (taskID : String)
    (h : s.activeTasks taskID = none) : popActiveTask s taskID = (s, none) := by
  simp [popActiveTask, h]

theorem MarkTaskComplete_sub {P : Type} (s : Scheduler P) (taskID : String) :
    (MarkTaskComplete s taskID).taskQueue = s.taskQueue ∧
    (MarkTaskComplete s taskID).cap = s.cap ∧
    (MarkTaskComplete s taskID).activeTasks taskID = none ∧
    ∀ k, k ≠ taskID → (MarkTaskComplete s taskID).activeTasks k = s.activeTasks k := by
  unfold MarkTaskComplete
  cases h : s.activeTasks taskID with
  | none =>
    rw [popActiveTask_none s taskID h]
    exact ⟨rfl, rfl, h, fun _ _ => rfl⟩
  | some t =>
    rw [popActiveTask_some s taskID t h]
    exact ⟨rfl, rfl, Registry.delete_self _ _, fun k hk => Registry.delete_of_ne _ _ _ hk⟩

theorem Inv_shrink {P : Type} (s : Sys P) (sched' : Scheduler P) (hinv : Inv s)
    (hq : sched'.taskQueue = s.sched.taskQueue)
    (hsub : ∀ k t, sched'.activeTasks k = some t → s.sched.activeTasks k = some t) :
    Inv { s with sched := sched' } := by
  obtain ⟨hnd, hkey, hdis, hpi, hai⟩ := hinv
  refine ⟨?_, ?_, ?_, ?_, ?_⟩
  · simpa only [hq] using hnd
  · exact fun k t h => hkey k t (hsub k t h)
  · intro k t h
    simpa only [hq] using hdis k t (hsub k t h)
  · simpa only [hq] using hpi
  · exact fun k t h => hai k t (hsub k t h)

theorem Inv_complete {P : Type} (s : Sys P) (taskID : String) (hinv : Inv s) :
    Inv (step s (.complete taskID)) := by
  obtain ⟨hq, _, hself, hother⟩ := MarkTaskComplete_sub s.sched taskID
  apply Inv_shrink s _ hinv hq
  intro k t h
  by_cases hk : k = taskID
  · subst hk; rw [hself] at h; cases h
  · rwa [hother k hk] at h

theorem Inv_purge {P : Type} (s : Sys P) (jobID : String) (order : List String)
    (hinv : Inv s) : Inv (step s (.purge jobID order)) := by
  exact Inv_shrink s (PurgeJobTasks s.sched jobID order).1 hinv rfl
    (fun k t h => purgeLoop_sub jobID order _ k t h)

theorem RequeueTask_some {P : Type} (s : Scheduler P) (taskID : String) (now : Time)
    (t : Task P) (h : s.activeTasks taskID = some t) :
    RequeueTask s taskID now =
      ({ s with activeTasks := s.activeTasks.delete taskID },
        some { t with CreatedAt := now }) := by
  simp [RequeueTask, popActiveTask_some s taskID t h]

theorem RequeueTask_none {P : Type} (s : Scheduler P) (taskID : String) (now : Time)
    (h : s.activeTasks taskID = none) : RequeueTask s taskID now = (s, none) := by
  simp [RequeueTask, popActiveTask_none s taskID h]

theorem Inv_requeue {P : Type} (s : Sys P) (taskID : String) (now : Time)
    (hinv : Inv s) : Inv (step s (.requeue taskID now)) := by
  cases h : s.sched.activeTasks taskID with
  | none =>
    simp only [step, RequeueTask_none s.sched taskID now h]
    exact hinv
  | some t =>
    obtain ⟨hnd, hkey, hdis, hpi, hai⟩ := hinv
    simp only [step, RequeueTask_some s.sched taskID now t h]
    have hid : t.ID = taskID := hkey taskID t h
    have hnot := hdis taskID t h
    refine ⟨?_, ?_, ?_, ?_, ?_⟩
    · rw [← List.append_assoc, taskIDs_append]
      simp only [taskIDs, List.map_cons, List.map_nil]
      rw [List.nodup_append_comm]
      simp only [List.singleton_append, List.nodup_cons]
      exact ⟨by rw [hid]; exact hnot, hnd⟩
    · exact fun k u hk => hkey k u (Registry.delete_eq_some _ _ _ _ hk).2
    · intro k u hk
      obtain ⟨hne, hk'⟩ := Registry.delete_eq_some _ _ _ _ hk
      have h1 := hdis k u hk'
      rw [← List.append_assoc, taskIDs_append]
      simp only [taskIDs, List.map_cons, List.map_nil, List.mem_append, List.mem_singleton]
      rintro (h2 | h2)
      · exact h1 (by simpa [taskIDs] using h2)
      · exact hne (by rw [h2, hid])
    · intro id hmem
      rw [← List.append_assoc, taskIDs_append] at hmem
      simp only [taskIDs, List.map_cons, List.map_nil, List.mem_append,
        List.mem_singleton] at hmem
      rcases hmem with h2 | h2
      · exact hpi id (by simpa [taskIDs] using h2)
      · rw [h2, hid]; exact hai taskID t h
    · exact fun k u hk => hai k u (Registry.delete_eq_some _ _ _ _ hk).2

theorem perm_cons_eraseIdx {α : Type} (l : List α) (i : Nat) (a : α)
    (h : l.get? i = some a) : l.Perm (a :: l.eraseIdx i) := by
  induction l generalizing i with
  | nil => simp at h
  | cons b rest ih =>
    cases i with
    | zero =>
      simp only [List.get?_cons_zero, Option.some.injEq] at h
      subst h
      simp
    | succ j =>
      simp only [List.get?_cons_succ] at h
      simp only [List.eraseIdx_cons_succ]
      exact ((ih j h).cons b).trans (List.Perm.swap a b _)

theorem requeuePush_room {P : Type} (s : Scheduler P) (t : Task P)
    (h : s.taskQueue.length < s.cap) :
    requeuePush s t = ({ s with taskQueue := s.taskQueue ++ [t] }, (t.ID, none)) := by
  simp [requeuePush, trySend_room s t h]

theorem requeuePush_full {P : Type} (s : Scheduler P) (t : Task P)
    (h : s.cap ≤ s.taskQueue.length) :
    requeuePush s t = (s, ("", some errRequeueFull)) := by
  simp [requeuePush, trySend_full s t h]

theorem Inv_requeuePush {P : Type} (s : Sys P) (i : Nat) (hinv : Inv s) :
    Inv (step s (.requeuePush i)) := by
  cases h : s.spawned.get? i with
  | none =>
    simp only [step, h]
    exact hinv
  | some t =>
    obtain ⟨hnd, hkey, hdis, hpi, hai⟩ := hinv
    have hperm := perm_cons_eraseIdx s.spawned i t h
    by_cases hroom : s.sched.taskQueue.length < s.sched.cap
    · simp only [step, h, requeuePush_room s.sched t hroom]
      have hp : (taskIDs (s.sched.taskQueue ++ [t] ++ s.spawned.eraseIdx i)).Perm
          (taskIDs (s.sched.taskQueue ++ s.spawned)) := by
        unfold taskIDs
        apply List.Perm.map
        rw [List.append_assoc]
        exact List.Perm.append_left _ (by simpa using hperm.symm)
      refine ⟨hp.nodup_iff.mpr hnd, hkey, ?_, ?_, hai⟩
      · exact fun k u hk hmem => hdis k u hk (hp.mem_iff.mp hmem)
      · exact fun id hmem => hpi id (hp.mem_iff.mp hmem)
    · simp only [step, h, requeuePush_full s.sched t (Nat.not_lt.mp hroom)]
      have hsub : (taskIDs (s.sched.taskQueue ++ s.spawned.eraseIdx i)).Sublist
          (taskIDs (s.sched.taskQueue ++ s.spawned)) := by
        unfold taskIDs
        apply List.Sublist.map
        exact List.Sublist.append_left (List.eraseIdx_sublist _ _) _
      refine ⟨hnd.sublist hsub, hkey, ?_, ?_, hai⟩
      · exact fun k u hk hmem => hdis k u hk (hsub.subset hmem)
      · exact fun id hmem => hpi id (hsub.subset hmem)

theorem taskIDs_map_bumpRetries {P : Type} (l : List (Task P)) :
    taskIDs (l.map bumpRetries) = taskIDs l := by
  simp [taskIDs, bumpRetries, Function.comp_def]

theorem sweep_spec {P : Type} (s : Scheduler P) (timeout : Int) (now : Time)
    (order : List String) :
    ∃ pushed : List (Task P),
      pushed.Sublist ((scanExpired timeout now s.activeTasks order).2.map bumpRetries) ∧
      (∀ t ∈ pushed, t.Retries ≤ 3) ∧
      (sweep s timeout now order).1 =
        { s with taskQueue := s.taskQueue ++ pushed,
                 activeTasks := (scanExpired timeout now s.activeTasks order).1 } := by
  obtain ⟨pushed, hsub, hle, heq⟩ := requeueDead_spec
    (scanExpired timeout now s.activeTasks order).2
    { s with activeTasks := (scanExpired timeout now s.activeTasks order).1 }
  exact ⟨pushed, hsub, hle, by simp only [sweep, heq]⟩

theorem Inv_sweep {P : Type} (s : Sys P) (timeout : Int) (now : Time) (order : List String)
    (hinv : Inv s) : Inv (step s (.sweep timeout now order)) := by
  obtain ⟨hnd, hkey, hdis, hpi, hai⟩ := hinv
  obtain ⟨pushed, hsub, _, heq⟩ := sweep_spec s.sched timeout now order
  simp only [step, heq]
  have hsubIDs : (taskIDs pushed).Sublist
      (taskIDs (scanExpired timeout now s.sched.activeTasks order).2) := by
    have h := List.Sublist.map (fun t : Task P => t.ID) hsub
    rwa [show List.map (fun t : Task P => t.ID)
        (List.map bumpRetries (scanExpired timeout now s.sched.activeTasks order).2) =
        taskIDs (scanExpired timeout now s.sched.activeTasks order).2 from
      taskIDs_map_bumpRetries _] at h
  have hdead : ∀ id ∈ taskIDs pushed, ∃ d,
      s.sched.activeTasks id = some d ∧
      (scanExpired timeout now s.sched.activeTasks order).1 id = none := by
    intro id hid
    obtain ⟨d, hd, rfl⟩ := (mem_taskIDs _ _).mp (hsubIDs.subset hid)
    obtain ⟨k, _, hact, _, hnone⟩ := scanExpired_dead timeout now order _ d hd
    have := hkey k d hact
    subst this
    exact ⟨d, hact, hnone⟩
  have hp : (taskIDs (s.sched.taskQueue ++ pushed ++ s.spawned)).Perm
      (taskIDs pushed ++ taskIDs (s.sched.taskQueue ++ s.spawned)) := by
    simp only [taskIDs_append]
    rw [← List.append_assoc]
    exact List.Perm.append_right _ List.perm_append_comm
  refine ⟨?_, ?_, ?_, ?_, ?_⟩
  · refine hp.nodup_iff.mpr (List.nodup_append.mpr ⟨?_, hnd, ?_⟩)
    · exact (scanExpired_nodup timeout now order _ hkey).sublist hsubIDs
    · intro id hid hmem
      obtain ⟨d, hact, _⟩ := hdead id hid
      exact hdis id d hact hmem
  · exact fun k t hk => hkey k t (scanExpired_sub timeout now order _ k t hk)
  · intro k t hk hmem
    rcases List.mem_append.mp (hp.mem_iff.mp hmem) with h | h
    · obtain ⟨_, _, hnone⟩ := hdead k h
      have hk' : (scanExpired timeout now s.sched.activeTasks order).1 k = some t := hk
      rw [hnone] at hk'
      cases hk'
    · exact hdis k t (scanExpired_sub timeout now order _ k t hk) h
  · intro id hmem
    rcases List.mem_append.mp (hp.mem_iff.mp hmem) with h | h
    · obtain ⟨d, hact, _⟩ := hdead id h
      exact hai id d hact
    · exact hpi id h
  · exact fun k t hk => hai k t (scanExpired_sub timeout now order _ k t hk)

theorem Inv_step {P : Type} (s : Sys P) (op : Op P) (hinv : Inv s)
    (hadm : admissible s op) : Inv (step s op) := by
  cases op with
  | enqueue payload jobID frameID taskID now =>
    exact Inv_enqueue s payload jobID frameID taskID now hinv hadm
  | getNext ctxErr pick now => exact Inv_getNext s ctxErr pick now hinv
  | complete taskID => exact Inv_complete s taskID hinv
  | requeue taskID now => exact Inv_requeue s taskID now hinv
  | requeuePush i => exact Inv_requeuePush s i hinv
  | sweep timeout now order => exact Inv_sweep s timeout now order hinv
  | purge jobID order => exact Inv_purge s jobID order hinv
  | queueLength => exact hinv

theorem Inv_run {P : Type} (ops : List (Op P)) :
    ∀ s : Sys P, Inv s → admissibleRun s ops → Inv (run s ops) := by
  induction ops with
  | nil => intro s h _; exact h
  | cons op rest ih =>
    intro s h hadm
    exact ih _ (Inv_step s op h hadm.1) hadm.2

theorem Inv_of_Reachable {P : Type} (maxQueueSize : Int) (s : Sys P)
    (h : Reachable maxQueueSize s) : Inv s := by
  obtain ⟨s0, ops, hnew, hadm, rfl⟩ := h
  exact Inv_run ops _ (Inv_init maxQueueSize s0 hnew) hadm

theorem run_append {P : Type} (ops₁ ops₂ : List (Op P)) :
    ∀ s : Sys P, run s (ops₁ ++ ops₂) = run (run s ops₁) ops₂ := by
  induction ops₁ with
  | nil => intro s; rfl
  | cons op rest ih => intro s; exact ih _

theorem admissibleRun_append {P : Type} (ops₁ ops₂ : List (Op P)) :
    ∀ s : Sys P, admissibleRun s (ops₁ ++ ops₂) ↔
      admissibleRun s ops₁ ∧ admissibleRun (run s ops₁) ops₂ := by
  induction ops₁ with
  | nil => intro s; simp [admissibleRun, run]
  | cons op rest ih =>
    intro s
    show admissible s op ∧ admissibleRun (step s op) (rest ++ ops₂) ↔
      (admissible s op ∧ admissibleRun (step s op) rest) ∧
        admissibleRun (run (step s op) rest) ops₂
    rw [ih, and_assoc]

theorem Reachable_run {P : Type} (maxQueueSize : Int) (s : Sys P) (ops : List (Op P))
    (h : Reachable maxQueueSize s) (hadm : admissibleRun s ops) :
    Reachable maxQueueSize (run s ops) := by
  obtain ⟨s0, ops₀, hnew, hadm₀, rfl⟩ := h
  exact ⟨s0, ops₀ ++ ops, hnew, (admissibleRun_append _ _ _).mpr ⟨hadm₀, hadm⟩,
    (run_append _ _ _).symm⟩

/-! ## Ids that have left the system -/

theorem GetNextTask_task {P : Type} (s : Scheduler P) (ctxErr : Option CtxError)
    (pick : Bool) (now : Time) (u : Task P)
    (h : (GetNextTask s ctxErr pick now).2 = .task u) :
    ∃ head tail, s.taskQueue = head :: tail ∧ u = { head with StartedAt := now } ∧
      GetNextTask s ctxErr pick now =
        ({ s with taskQueue := tail,
                  activeTasks := s.activeTasks.insert head.ID { head with StartedAt := now } },
          .task { head with StartedAt := now }) := by
  rcases GetNextTask_cases s ctxErr pick now with ⟨head, tail, hq, heq⟩ | ⟨e, _, heq⟩ |
    ⟨_, _, heq⟩
  · rw [heq] at h
    cases h
    exact ⟨head, tail, hq, rfl, heq⟩
  · rw [heq] at h; cases h
  · rw [heq] at h; cases h

theorem Gone_shrink {P : Type} (id : String) (s : Sys P) (sched' : Scheduler P)
    (hgone : Gone id s) (hq : sched'.taskQueue = s.sched.taskQueue)
    (hsub : ∀ k t, sched'.activeTasks k = some t → s.sched.activeTasks k = some t) :
    Gone id { s with sched := sched' } :=
  ⟨by simpa only [hq] using hgone.1, hgone.2.1, fun k t h => hgone.2.2 k t (hsub k t h)⟩

theorem Gone_step {P : Type} (id : String) (s : Sys P) (op : Op P)
    (hgone : Gone id s) (hiss : id ∈ s.issued) (hadm : admissible s op) :
    Gone id (step s op) ∧ id ∈ (step s op).issued := by
  obtain ⟨hq, hsp, hreg⟩ := hgone
  cases op with
  | enqueue payload jobID frameID taskID now =>
    have hne : taskID ≠ id := fun h => hadm (h ▸ hiss)
    by_cases hroom : s.sched.taskQueue.length < s.sched.cap
    · simp only [step, EnqueueTask_room s.sched payload jobID frameID taskID now hroom]
      refine ⟨⟨?_, hsp, hreg⟩, List.mem_cons_of_mem _ hiss⟩
      rw [taskIDs_append]
      simp only [taskIDs, List.map_cons, List.map_nil, List.mem_append, List.mem_singleton]
      rintro (h | h)
      · exact hq h
      · exact hne h.symm
    · simp only [step, EnqueueTask_full s.sched payload jobID frameID taskID now
        (Nat.not_lt.mp hroom)]
      exact ⟨⟨hq, hsp, hreg⟩, List.mem_cons_of_mem _ hiss⟩
  | getNext ctxErr pick now =>
    refine ⟨?_, hiss⟩
    rcases GetNextTask_cases s.sched ctxErr pick now with ⟨head, tail, hqueue, heq⟩ |
      ⟨e, _, heq⟩ | ⟨_, _, heq⟩
    · simp only [step, heq]
      rw [hqueue] at hq
      simp only [taskIDs, List.map_cons, List.mem_cons, not_or] at hq
      refine ⟨hq.2, hsp, ?_⟩
      intro k t hk
      simp only [Registry.insert] at hk
      split at hk
      · cases hk; exact fun h => hq.1 h.symm
      · exact hreg k t hk
    · simp only [step, heq]
      exact ⟨hq, hsp, hreg⟩
    · simp only [step, heq]
      exact ⟨hq, hsp, hreg⟩
  | complete taskID =>
    refine ⟨?_, hiss⟩
    obtain ⟨hqueue, _, hself, hother⟩ := MarkTaskComplete_sub s.sched taskID
    refine Gone_shrink id s (MarkTaskComplete s.sched taskID) ⟨hq, hsp, hreg⟩ hqueue ?_
    intro k t h
    by_cases hk : k = taskID
    · subst hk; rw [hself] at h; cases h
    · rwa [hother k hk] at h
  | requeue taskID now =>
    cases h : s.sched.activeTasks taskID with
    | none =>
      simp only [step, RequeueTask_none s.sched taskID now h]
      exact ⟨⟨hq, hsp, hreg⟩, hiss⟩
    | some t =>
      simp only [step, RequeueTask_some s.sched taskID now t h]
      refine ⟨⟨hq, ?_, ?_⟩, hiss⟩
      · rw [taskIDs_append]
        simp only [taskIDs, List.map_cons, List.map_nil, List.mem_append, List.mem_singleton]
        rintro (h2 | h2)
        · exact hsp h2
        · exact hreg taskID t h h2.symm
      · exact fun k u hk => hreg k u (Registry.delete_eq_some _ _ _ _ hk).2
  | requeuePush i =>
    cases h : s.spawned.get? i with
    | none =>
      simp only [step, h]
      exact ⟨⟨hq, hsp, hreg⟩, hiss⟩
    | some t =>
      have hperm := perm_cons_eraseIdx s.spawned i t h
      have ht : t.ID ≠ id := fun h2 =>
        hsp ((mem_taskIDs _ _).mpr ⟨t, hperm.mem_iff.mpr (List.mem_cons_self _ _), h2⟩)
      have hsp' : id ∉ taskIDs (s.spawned.eraseIdx i) := fun hmem => by
        obtain ⟨u, hu, hid⟩ := (mem_taskIDs _ _).mp hmem
        exact hsp ((mem_taskIDs _ _).mpr ⟨u, (List.eraseIdx_sublist _ _).subset hu, hid⟩)
      by_cases hroom : s.sched.taskQueue.length < s.sched.cap
      · simp only [step, h, requeuePush_room s.sched t hroom]
        refine ⟨⟨?_, hsp', hreg⟩, hiss⟩
        rw [taskIDs_append]
        simp only [taskIDs, List.map_cons, List.map_nil, List.mem_append, List.mem_singleton]
        rintro (h2 | h2)
        · exact hq h2
        · exact ht h2.symm
      · simp only [step, h, requeuePush_full s.sched t (Nat.not_lt.mp hroom)]
        exact ⟨⟨hq, hsp', hreg⟩, hiss⟩
  | sweep timeout now order =>
    refine ⟨?_, hiss⟩
    obtain ⟨pushed, hsub, _, heq⟩ := sweep_spec s.sched timeout now order
    simp only [step, heq]
    refine ⟨?_, hsp, ?_⟩
    · rw [taskIDs_append]
      rintro hmem
      rcases List.mem_append.mp hmem with h | h
      · exact hq h
      · obtain ⟨u, hu, hid⟩ := (mem_taskIDs _ _).mp h
        obtain ⟨d, hd, rfl⟩ := List.mem_map.mp (hsub.subset hu)
        obtain ⟨k, _, hact, _, _⟩ := scanExpired_dead timeout now order _ d hd
        exact hreg k d hact hid
    · exact fun k t hk => hreg k t (scanExpired_sub timeout now order _ k t hk)
  | purge jobID order =>
    refine ⟨?_, hiss⟩
    exact Gone_shrink id s (PurgeJobTasks s.sched jobID order).1 ⟨hq, hsp, hreg⟩ rfl
      (fun k t h => purgeLoop_sub jobID order _ k t h)
  | queueLength => exact ⟨⟨hq, hsp, hreg⟩, hiss⟩

theorem Gone_run {P : Type} (id : String) (ops : List (Op P)) :
    ∀ s : Sys P, Gone id s → id ∈ s.issued → admissibleRun s ops →
      Gone id (run s ops) ∧ id ∈ (run s ops).issued := by
  induction ops with
  | nil => intro s h hi _; exact ⟨h, hi⟩
  | cons op rest ih =>
    intro s h hi hadm
    obtain ⟨h', hi'⟩ := Gone_step id s op h hi hadm.1
    exact ih _ h' hi' hadm.2

/-! ## C1 -/

/-- C1: on a scheduler freshly constructed with capacity n, n consecutive
EnqueueTask calls whose generated ids are pairwise distinct all succeed (nil
error), return exactly the generated ids, which are pairwise distinct, and
leave the n tasks pending; whatever the arguments of the next EnqueueTask
call, it fails with the queue-full error and an empty id. -/
theorem C1_enqueue_up_to_capacity {P : Type} (n : Nat) (calls : List (EnqueueCall P))
    (hlen : calls.length = n) (hfresh : (calls.map (fun c => c.taskID)).Nodup) :
    ∃ s0 : Scheduler P, NewScheduler (n : Int) = some s0 ∧
      (∀ r ∈ (enqueueAll s0 calls).2, r.2 = none) ∧
      (enqueueAll s0 calls).2.length = n ∧
      (enqueueAll s0 calls).2.map Prod.fst = calls.map (fun c => c.taskID) ∧
      ((enqueueAll s0 calls).2.map Prod.fst).Nodup ∧
      GetQueueLength (enqueueAll s0 calls).1 = n ∧
      ∀ (payload : P) (jobID frameID taskID : String) (now : Time),
        EnqueueTask (enqueueAll s0 calls).1 payload jobID frameID taskID now =
          ((enqueueAll s0 calls).1, ("", some errEnqueueFull)) := by
  refine ⟨{ cap := n, taskQueue := [], activeTasks := fun _ => none }, ?_, ?_⟩
  · simp [NewScheduler]
  · have hall := enqueueAll_room calls
      ({ cap := n, taskQueue := [], activeTasks := fun _ => none } : Scheduler P)
      (by simp [hlen])
    rw [hall]
    refine ⟨?_, ?_, ?_, ?_, ?_, ?_⟩
    · intro r hr
      simp only [List.mem_map] at hr
      obtain ⟨c, _, rfl⟩ := hr
      rfl
    · simp [hlen]
    · simp [List.map_map, Function.comp_def]
    · simpa [List.map_map, Function.comp_def] using hfresh
    · simp [GetQueueLength, hlen]
    · intro payload jobID frameID taskID now
      apply EnqueueTask_full
      simp [hlen]

/-- C1 at capacity 2 with the ids "a" and "b". -/
theorem C1_enqueue_up_to_capacity_witness :
    ∃ s0 : Scheduler Nat, NewScheduler ((2 : Nat) : Int) = some s0 ∧
      (∀ r ∈ (enqueueAll s0 [⟨10, "j", "f1", "a", 5⟩, ⟨11, "j", "f2", "b", 6⟩]).2, r.2 = none) ∧
      (enqueueAll s0 [⟨10, "j", "f1", "a", 5⟩, ⟨11, "j", "f2", "b", 6⟩]).2.length = 2 ∧
      (enqueueAll s0 [⟨10, "j", "f1", "a", 5⟩, ⟨11, "j", "f2", "b", 6⟩]).2.map Prod.fst =
        ([⟨10, "j", "f1", "a", 5⟩, ⟨11, "j", "f2", "b", 6⟩] : List (EnqueueCall Nat)).map
          (fun c => c.taskID) ∧
      ((enqueueAll s0 [⟨10, "j", "f1", "a", 5⟩, ⟨11, "j", "f2", "b", 6⟩]).2.map Prod.fst).Nodup ∧
      GetQueueLength (enqueueAll s0 [⟨10, "j", "f1", "a", 5⟩, ⟨11, "j", "f2", "b", 6⟩]).1 = 2 ∧
      ∀ (payload : Nat) (jobID frameID taskID : String) (now : Time),
        EnqueueTask (enqueueAll s0 [⟨10, "j", "f1", "a", 5⟩, ⟨11, "j", "f2", "b", 6⟩]).1
            payload jobID frameID taskID now =
          ((enqueueAll s0 [⟨10, "j", "f1", "a", 5⟩, ⟨11, "j", "f2", "b", 6⟩]).1,
            ("", some errEnqueueFull)) :=
  C1_enqueue_up_to_capacity 2 [⟨10, "j", "f1", "a", 5⟩, ⟨11, "j", "f2", "b", 6⟩] rfl (by decide)

/-! ## C2 -/

theorem chanSend_unparked {P : Type} (s : Scheduler P) (task : Task P) :
    chanSend s false task =
      match trySend s task with
      | some s' => .buffered s'
      | none => .refused := by
  by_cases h : s.taskQueue.length < s.cap
  · simp [chanSend, trySend, h]
  · simp [chanSend, trySend, h]

theorem chanSend_room {P : Type} (s : Scheduler P) (task : Task P)
    (h : s.taskQueue.length < s.cap) :
    chanSend s false task = .buffered { s with taskQueue := s.taskQueue ++ [task] } := by
  simp [chanSend, h]

theorem chanSend_refused {P : Type} (s : Scheduler P) (task : Task P)
    (h : s.cap ≤ s.taskQueue.length) : chanSend s false task = .refused := by
  simp [chanSend, Nat.not_lt.mpr h]

theorem chanSend_handOff {P : Type} (s : Scheduler P) (task : Task P) :
    chanSend s true task = .handedOff task := by
  simp [chanSend]

theorem EnqueueTaskCh_unparked {P : Type} (s : Scheduler P) (payload : P)
    (jobID frameID taskID : String) (now : Time) :
    EnqueueTaskCh s false payload jobID frameID taskID now =
      ((EnqueueTask s payload jobID frameID taskID now).1,
        (EnqueueTask s payload jobID frameID taskID now).2, none) := by
  by_cases h : s.taskQueue.length < s.cap
  · simp [EnqueueTaskCh, EnqueueTask, chanSend_room s _ h, trySend_room s _ h]
  · simp [EnqueueTaskCh, EnqueueTask, chanSend_refused s _ (Nat.not_lt.mp h),
      trySend_full s _ (Nat.not_lt.mp h)]

theorem requeuePushCh_unparked {P : Type} (s : Scheduler P) (t : Task P) :
    requeuePushCh s false t = ((requeuePush s t).1, (requeuePush s t).2, none) := by
  by_cases h : s.taskQueue.length < s.cap
  · simp [requeuePushCh, requeuePush, chanSend_room s _ h, trySend_room s _ h]
  · simp [requeuePushCh, requeuePush, chanSend_refused s _ (Nat.not_lt.mp h),
      trySend_full s _ (Nat.not_lt.mp h)]

theorem GetNextTask_receiveHandOff {P : Type} (s : Scheduler P) (pick : Bool) (now : Time)
    (head : Task P) (tail : List (Task P)) (hq : s.taskQueue = head :: tail) :
    GetNextTask s none pick now = receiveHandOff { s with taskQueue := tail } head now := by
  rw [GetNextTask_recv s none pick now head tail hq (Or.inl rfl)]
  rfl

theorem receiveHandOff_as_step {P : Type} (s : Scheduler P) (task : Task P) (pick : Bool)
    (now : Time) (hq : s.taskQueue = []) :
    receiveHandOff s task now =
      GetNextTask { s with taskQueue := s.taskQueue ++ [task] } none pick now := by
  rw [GetNextTask_recv { s with taskQueue := s.taskQueue ++ [task] } none pick now task []
    (by simp [hq]) (Or.inl rfl)]
  simp [receiveHandOff, hq]

theorem EnqueueTaskCh_hand_off_as_steps {P : Type} (s : Scheduler P) (payload : P)
    (jobID frameID taskID : String) (now : Time) (pick : Bool) (now' : Time)
    (hq : s.taskQueue = []) (hcap : 0 < s.cap) :
    receiveHandOff (EnqueueTaskCh s true payload jobID frameID taskID now).1
        { ID := taskID, JobID := jobID, FrameID := frameID, Payload := payload,
          CreatedAt := now, StartedAt := Time.zero, Retries := 0 } now' =
      GetNextTask (EnqueueTask s payload jobID frameID taskID now).1 none pick now' := by
  rw [EnqueueTask_room s payload jobID frameID taskID now (by rw [hq]; exact hcap)]
  rw [← receiveHandOff_as_step s _ pick now' hq]
  simp [EnqueueTaskCh, chanSend_handOff]

theorem requeuePushCh_hand_off_as_steps {P : Type} (s : Scheduler P) (t : Task P)
    (pick : Bool) (now' : Time) (hq : s.taskQueue = []) (hcap : 0 < s.cap) :
    receiveHandOff (requeuePushCh s true t).1 t now' =
      GetNextTask (requeuePush s t).1 none pick now' := by
  rw [requeuePush_room s t (by rw [hq]; exact hcap)]
  rw [← receiveHandOff_as_step s _ pick now' hq]
  simp [requeuePushCh, chanSend_handOff]

/-- C2 (as stated) fails: on the scheduler NewScheduler(0) returns, whose
pending queue is at capacity (length 0, capacity 0), an EnqueueTask call made
while a GetNextTask caller is parked on the channel does not return an error:
the send hands the task to that caller, EnqueueTask returns the generated id
with a nil error, and the caller then records the task in the registry, which
had no entry for it. -/
theorem C2_unbuffered_hand_off :
    NewScheduler (0 : Int) = some exampleUnbuffered ∧
    exampleUnbuffered.cap ≤ exampleUnbuffered.taskQueue.length ∧
    (EnqueueTaskCh exampleUnbuffered true 1 "j" "f" "a" 0).2.1 = ("a", none) ∧
    (EnqueueTaskCh exampleUnbuffered true 1 "j" "f" "a" 0).2.2 = some exampleHandedTask ∧
    exampleUnbuffered.activeTasks "a" = none ∧
    (receiveHandOff (EnqueueTaskCh exampleUnbuffered true 1 "j" "f" "a" 0).1
        exampleHandedTask 5).1.activeTasks "a" =
      some { exampleHandedTask with StartedAt := 5 } :=
  ⟨rfl, by decide, by decide, by decide, by decide, by decide⟩

/-- C2 (amended): with no GetNextTask caller parked on the channel, when the
pending queue is at capacity EnqueueTask returns the queue-full error with an
empty id and the scheduler (queue contents and order, registry) is unchanged,
and when the queue is below capacity EnqueueTask returns the generated id
with a nil error and the only change is that the new task, carrying the given
payload, jobID and frameID, the clock reading as CreatedAt, Retries 0 and the
zero StartedAt, is appended at the tail of the queue. With a caller parked on
the (empty) channel EnqueueTask returns the generated id with a nil error,
queue and registry are as before, and the new task is handed to the parked
caller, whose receive case records it under its id with StartedAt set; at
capacity 1 or more this is the same as appending the task and the caller
receiving it, at capacity 0 it happens although the queue is at capacity.
With no caller parked the call is the EnqueueTask of the step model. -/
theorem C2_enqueue_by_channel_state {P : Type} (s : Scheduler P) (receiverParked : Bool)
    (payload : P) (jobID frameID taskID : String) (now : Time) :
    (receiverParked = false → s.cap ≤ s.taskQueue.length →
      EnqueueTaskCh s receiverParked payload jobID frameID taskID now =
        (s, ("", some errEnqueueFull), none)) ∧
    (receiverParked = false → s.taskQueue.length < s.cap →
      (EnqueueTaskCh s receiverParked payload jobID frameID taskID now).2.1 = (taskID, none) ∧
      (EnqueueTaskCh s receiverParked payload jobID frameID taskID now).2.2 = none ∧
      (EnqueueTaskCh s receiverParked payload jobID frameID taskID now).1.taskQueue =
        s.taskQueue ++
          [{ ID := taskID, JobID := jobID, FrameID := frameID, Payload := payload,
             CreatedAt := now, StartedAt := Time.zero, Retries := 0 }] ∧
      (EnqueueTaskCh s receiverParked payload jobID frameID taskID now).1.activeTasks =
        s.activeTasks ∧
      (EnqueueTaskCh s receiverParked payload jobID frameID taskID now).1.cap = s.cap) ∧
    (receiverParked = true → s.taskQueue = [] →
      EnqueueTaskCh s receiverParked payload jobID frameID taskID now =
        (s, (taskID, none),
          some { ID := taskID, JobID := jobID, FrameID := frameID, Payload := payload,
                 CreatedAt := now, StartedAt := Time.zero, Retries := 0 }) ∧
      (∀ now',
        (receiveHandOff s
          { ID := taskID, JobID := jobID, FrameID := frameID, Payload := payload,
            CreatedAt := now, StartedAt := Time.zero, Retries := 0 } now').2 =
          .task { ID := taskID, JobID := jobID, FrameID := frameID, Payload := payload,
                  CreatedAt := now, StartedAt := now', Retries := 0 } ∧
        (receiveHandOff s
          { ID := taskID, JobID := jobID, FrameID := frameID, Payload := payload,
            CreatedAt := now, StartedAt := Time.zero, Retries := 0 } now').1.activeTasks taskID =
          some { ID := taskID, JobID := jobID, FrameID := frameID, Payload := payload,
                 CreatedAt := now, StartedAt := now', Retries := 0 } ∧
        (receiveHandOff s
          { ID := taskID, JobID := jobID, FrameID := frameID, Payload := payload,
            CreatedAt := now, StartedAt := Time.zero, Retries := 0 } now').1.taskQueue =
          s.taskQueue) ∧
      (0 < s.cap → ∀ pick now',
        receiveHandOff (EnqueueTaskCh s receiverParked payload jobID frameID taskID now).1
            { ID := taskID, JobID := jobID, FrameID := frameID, Payload := payload,
              CreatedAt := now, StartedAt := Time.zero, Retries := 0 } now' =
          GetNextTask (EnqueueTask s payload jobID frameID taskID now).1 none pick now')) ∧
    (EnqueueTaskCh s false payload jobID frameID taskID now =
      ((EnqueueTask s payload jobID frameID taskID now).1,
        (EnqueueTask s payload jobID frameID taskID now).2, none)) := by
  refine ⟨?_, ?_, ?_, EnqueueTaskCh_unparked s payload jobID frameID taskID now⟩
  · intro hp h
    subst hp
    simp [EnqueueTaskCh, chanSend_refused s _ h]
  · intro hp h
    subst hp
    simp [EnqueueTaskCh, chanSend_room s _ h]
  · intro hp hq
    subst hp
    refine ⟨by simp [EnqueueTaskCh, chanSend_handOff], ?_, ?_⟩
    · intro now'
      exact ⟨rfl, by simp [receiveHandOff, Registry.insert], rfl⟩
    · intro hcap pick now'
      exact EnqueueTaskCh_hand_off_as_steps s payload jobID frameID taskID now pick now' hq hcap

/-- C2 (amended) on a full scheduler with no caller parked, on one with room,
and on the unbuffered scheduler with a caller parked. -/
theorem C2_enqueue_by_channel_state_witness :
    EnqueueTaskCh exampleFull false 7 "j2" "f2" "x" 9 =
      (exampleFull, ("", some errEnqueueFull), none) ∧
    ((EnqueueTaskCh exampleRoom false 7 "j2" "f2" "x" 9).2.1 = ("x", none) ∧
      (EnqueueTaskCh exampleRoom false 7 "j2" "f2" "x" 9).2.2 = none ∧
      (EnqueueTaskCh exampleRoom false 7 "j2" "f2" "x" 9).1.taskQueue =
        exampleRoom.taskQueue ++
          [{ ID := "x", JobID := "j2", FrameID := "f2", Payload := 7,
             CreatedAt := 9, StartedAt := Time.zero, Retries := 0 }] ∧
      (EnqueueTaskCh exampleRoom false 7 "j2" "f2" "x" 9).1.activeTasks =
        exampleRoom.activeTasks ∧
      (EnqueueTaskCh exampleRoom false 7 "j2" "f2" "x" 9).1.cap = exampleRoom.cap) ∧
    EnqueueTaskCh exampleUnbuffered true 1 "j" "f" "a" 0 =
      (exampleUnbuffered, ("a", none),
        some { ID := "a", JobID := "j", FrameID := "f", Payload := 1,
               CreatedAt := 0, StartedAt := Time.zero, Retries := 0 }) ∧
    (∀ pick now',
      receiveHandOff (EnqueueTaskCh exampleInit.sched true 1 "j" "f" "a" 0).1
          { ID := "a", JobID := "j", FrameID := "f", Payload := 1,
            CreatedAt := 0, StartedAt := Time.zero, Retries := 0 } now' =
        GetNextTask (EnqueueTask exampleInit.sched 1 "j" "f" "a" 0).1 none pick now') :=
  ⟨(C2_enqueue_by_channel_state exampleFull false 7 "j2" "f2" "x" 9).1 rfl (by decide),
   (C2_enqueue_by_channel_state exampleRoom false 7 "j2" "f2" "x" 9).2.1 rfl (by decide),
   ((C2_enqueue_by_channel_state exampleUnbuffered true 1 "j" "f" "a" 0).2.2.1 rfl rfl).1,
   ((C2_enqueue_by_channel_state exampleInit.sched true 1 "j" "f" "a" 0).2.2.1 rfl rfl).2.2
     (by decide)⟩

/-! ## C3 -/

/-- C3: on a fresh scheduler of capacity 2, EnqueueTask(A) and EnqueueTask(B)
succeed and return their generated ids, EnqueueTask(C) fails with the
queue-full error, GetNextTask with an open context then returns task A (the
task carrying the id the first call returned, with StartedAt set), and a
further EnqueueTask(C) succeeds. -/
theorem C3_capacity_two_scenario {P : Type} (a b c : EnqueueCall P) (c2 : String)
    (pick : Bool) (tc td : Time) :
    ∃ s0 : Scheduler P, NewScheduler 2 = some s0 ∧
      (EnqueueTask s0 a.payload a.jobID a.frameID a.taskID a.now).2 = (a.taskID, none) ∧
      (EnqueueTask (EnqueueTask s0 a.payload a.jobID a.frameID a.taskID a.now).1
          b.payload b.jobID b.frameID b.taskID b.now).2 = (b.taskID, none) ∧
      EnqueueTask (enqueueAll s0 [a, b]).1 c.payload c.jobID c.frameID c.taskID c.now =
        ((enqueueAll s0 [a, b]).1, ("", some errEnqueueFull)) ∧
      (GetNextTask (enqueueAll s0 [a, b]).1 none pick td).2 =
        .task { a.task with StartedAt := td } ∧
      (EnqueueTask (GetNextTask (enqueueAll s0 [a, b]).1 none pick td).1
          c.payload c.jobID c.frameID c2 tc).2 = (c2, none) ∧
      (EnqueueTask (GetNextTask (enqueueAll s0 [a, b]).1 none pick td).1
          c.payload c.jobID c.frameID c2 tc).1.taskQueue =
        [b.task, { ID := c2, JobID := c.jobID, FrameID := c.frameID, Payload := c.payload,
                   CreatedAt := tc, StartedAt := Time.zero, Retries := 0 }] := by
  refine ⟨{ cap := 2, taskQueue := [], activeTasks := fun _ => none }, ?_, ?_⟩
  · simp [NewScheduler]
  · simp [enqueueAll, EnqueueTask, trySend, GetNextTask, EnqueueCall.task]

/-! ## C4 -/

/-- C4: with a non-empty pending queue and an open context, GetNextTask
returns the head of the queue with StartedAt set to the clock reading; the
queue afterwards is the old tail, the registry holds the returned task under
its own id, and every other registry entry is as before. -/
theorem C4_dequeue_head_and_track {P : Type} (s : Scheduler P) (pick : Bool) (now : Time)
    (head : Task P) (tail : List (Task P)) (hq : s.taskQueue = head :: tail) :
    (GetNextTask s none pick now).2 = .task { head with StartedAt := now } ∧
    (GetNextTask s none pick now).1.taskQueue = tail ∧
    (GetNextTask s none pick now).1.activeTasks head.ID =
      some { head with StartedAt := now } ∧
    (∀ k, k ≠ head.ID →
      (GetNextTask s none pick now).1.activeTasks k = s.activeTasks k) ∧
    (GetNextTask s none pick now).1.cap = s.cap := by
  rw [GetNextTask_recv s none pick now head tail hq (Or.inl rfl)]
  refine ⟨rfl, rfl, ?_, ?_, rfl⟩
  · simp [Registry.insert]
  · intro k hk
    simp [Registry.insert, hk]

/-- C4 on the example scheduler: the pending task "p" is dispatched at time 20. -/
theorem C4_dequeue_head_and_track_witness :
    (GetNextTask exampleFull none false 20).2 =
      .task { ID := "p", JobID := "j", FrameID := "f", Payload := 1,
              CreatedAt := 3, StartedAt := 20, Retries := 0 } ∧
    (GetNextTask exampleFull none false 20).1.taskQueue = [] ∧
    (GetNextTask exampleFull none false 20).1.activeTasks "p" =
      some { ID := "p", JobID := "j", FrameID := "f", Payload := 1,
             CreatedAt := 3, StartedAt := 20, Retries := 0 } ∧
    (∀ k, k ≠ "p" →
      (GetNextTask exampleFull none false 20).1.activeTasks k = exampleFull.activeTasks k) ∧
    (GetNextTask exampleFull none false 20).1.cap = exampleFull.cap :=
  C4_dequeue_head_and_track exampleFull false 20
    { ID := "p", JobID := "j", FrameID := "f", Payload := 1,
      CreatedAt := 3, StartedAt := 0, Retries := 0 } [] rfl

/-! ## C5 -/

/-- C5: with an empty pending queue and a context that is already done,
GetNextTask returns the context error at once (it is not blocked and returns
no task) and the scheduler is unchanged; and in any state, whenever
GetNextTask returns an error, that error is the context error and the
scheduler (queue and registry) is exactly as before the call. -/
theorem C5_dequeue_cancelled {P : Type} (s : Scheduler P) (ctxErr : Option CtxError)
    (pick : Bool) (now : Time) :
    (∀ e, s.taskQueue = [] → ctxErr = some e →
      GetNextTask s ctxErr pick now = (s, .err (.context e))) ∧
    (∀ err, (GetNextTask s ctxErr pick now).2 = .err err →
      (GetNextTask s ctxErr pick now).1 = s ∧ ∃ e, ctxErr = some e ∧ err = .context e) := by
  constructor
  · intro e hq he
    simp [GetNextTask, hq, he]
  · intro err h
    rcases GetNextTask_cases s ctxErr pick now with ⟨head, tail, _, heq⟩ | ⟨e, he, heq⟩ |
      ⟨_, _, heq⟩
    · rw [heq] at h; cases h
    · rw [heq] at h ⊢
      cases h
      exact ⟨rfl, e, he, rfl⟩
    · rw [heq] at h; cases h

/-- C5 on an idle scheduler with a cancelled context, and on a scheduler with a
pending task where the select takes the cancellation case. -/
theorem C5_dequeue_cancelled_witness :
    GetNextTask exampleIdle (some .Canceled) true 20 = (exampleIdle, .err (.context .Canceled)) ∧
    ((GetNextTask exampleFull (some .Canceled) false 20).1 = exampleFull ∧
      ∃ e, some CtxError.Canceled = some e ∧ SchedError.context .Canceled = .context e) :=
  ⟨(C5_dequeue_cancelled exampleIdle (some .Canceled) true 20).1 .Canceled rfl rfl,
   (C5_dequeue_cancelled exampleFull (some .Canceled) false 20).2 (.context .Canceled) rfl⟩

/-! ## C6 -/

/-- C6: for a task id with no entry in the active registry, MarkTaskComplete
and RequeueTask both return with the scheduler unchanged (same queue, same
registry), and RequeueTask spawns no push, so nothing is added to the queue. -/
theorem C6_unknown_id_noop {P : Type} (s : Scheduler P) (taskID : String) (now : Time)
    (h : s.activeTasks taskID = none) :
    MarkTaskComplete s taskID = s ∧ RequeueTask s taskID now = (s, none) := by
  simp [MarkTaskComplete, RequeueTask, popActiveTask, h]

/-- C6 on the example scheduler with the id "zzz", which is not active. -/
theorem C6_unknown_id_noop_witness :
    MarkTaskComplete exampleFull "zzz" = exampleFull ∧
    RequeueTask exampleFull "zzz" 30 = (exampleFull, none) :=
  C6_unknown_id_noop exampleFull "zzz" 30 (by decide)

/-! ## C7 -/

/-- C7: in a reachable state with an active task t, after
MarkTaskComplete(t.ID) no task with that id is in the registry or in the
pending queue (or held by a spawned requeue goroutine), and after every
continuation of operations (enqueues with fresh uuids, dequeues, completes,
requeues, spawned pushes, sweeps, purges) this is still so, no GetNextTask
call returns a task with that id, and no sweep scan collects one. -/
theorem C7_completed_never_returns {P : Type} (maxQueueSize : Int) (s : Sys P)
    (k : String) (t : Task P) (hreach : Reachable maxQueueSize s)
    (hact : s.sched.activeTasks k = some t) (ops : List (Op P))
    (hadm : admissibleRun (step s (.complete t.ID)) ops) :
    Gone t.ID (step s (.complete t.ID)) ∧
    Gone t.ID (run (step s (.complete t.ID)) ops) ∧
    (∀ ctxErr pick now u,
      (GetNextTask (run (step s (.complete t.ID)) ops).sched ctxErr pick now).2 = .task u →
        u.ID ≠ t.ID) ∧
    (∀ timeout now order,
      ∀ d ∈ (scanExpired timeout now
          (run (step s (.complete t.ID)) ops).sched.activeTasks order).2, d.ID ≠ t.ID) := by
  have hinv := Inv_of_Reachable maxQueueSize s hreach
  have hid : t.ID = k := hinv.key k t hact
  subst hid
  have hnot := hinv.disjoint t.ID t hact
  rw [taskIDs_append, List.mem_append, not_or] at hnot
  obtain ⟨hqueue, _, hself, hother⟩ := MarkTaskComplete_sub s.sched t.ID
  have hgone : Gone t.ID (step s (.complete t.ID)) := by
    refine ⟨?_, hnot.2, ?_⟩
    · show t.ID ∉ taskIDs (MarkTaskComplete s.sched t.ID).taskQueue
      rw [hqueue]; exact hnot.1
    · intro k' u hk' hid
      have hk'' : (MarkTaskComplete s.sched t.ID).activeTasks k' = some u := hk'
      by_cases hk : k' = t.ID
      · rw [hk, hself] at hk''; cases hk''
      · rw [hother k' hk] at hk''
        exact hk (by rw [← hinv.key k' u hk'', hid])
  have hiss : t.ID ∈ (step s (.complete t.ID)).issued := hinv.activeIssued t.ID t hact
  obtain ⟨hlater, _⟩ := Gone_run t.ID ops _ hgone hiss hadm
  refine ⟨hgone, hlater, ?_, ?_⟩
  · intro ctxErr pick now u hres
    obtain ⟨head, tail, hq, rfl, _⟩ := GetNextTask_task _ ctxErr pick now u hres
    intro hid
    exact hlater.1 ((mem_taskIDs _ _).mpr ⟨head, by rw [hq]; exact List.mem_cons_self _ _, hid⟩)
  · intro timeout now order d hd
    obtain ⟨k', _, hact', _, _⟩ := scanExpired_dead timeout now order _ d hd
    exact hlater.2.2 k' d hact'

theorem exampleDispatched_reachable : Reachable 2 exampleDispatched :=
  ⟨{ cap := 2, taskQueue := [], activeTasks := fun _ => none },
    [.enqueue 1 "j" "f" "a" 0, .getNext none false 5], rfl,
    ⟨by simp [admissible], trivial, trivial⟩, rfl⟩

/-- C7 on the state where task "a" is active: it is completed, then a task
"b" is enqueued and dispatched. -/
theorem C7_completed_never_returns_witness :
    Gone exampleActive.ID (step exampleDispatched (.complete exampleActive.ID)) ∧
    Gone exampleActive.ID (run (step exampleDispatched (.complete exampleActive.ID))
      [.enqueue 2 "j" "g" "b" 6, .getNext none false 7]) ∧
    (∀ ctxErr pick now u,
      (GetNextTask (run (step exampleDispatched (.complete exampleActive.ID))
        [.enqueue 2 "j" "g" "b" 6, .getNext none false 7]).sched ctxErr pick now).2 = .task u →
        u.ID ≠ exampleActive.ID) ∧
    (∀ timeout now order,
      ∀ d ∈ (scanExpired timeout now
          (run (step exampleDispatched (.complete exampleActive.ID))
            [.enqueue 2 "j" "g" "b" 6, .getNext none false 7]).sched.activeTasks order).2,
        d.ID ≠ exampleActive.ID) :=
  C7_completed_never_returns 2 exampleDispatched "a" exampleActive
    exampleDispatched_reachable rfl [.enqueue 2 "j" "g" "b" 6, .getNext none false 7]
    ⟨by show "b" ∉ ["a"]; decide, trivial, trivial⟩

/-! ## C8 -/

theorem purgeLoop_apply {P : Type} (jobID : String) (order : List String) :
    ∀ (active : Registry P) (k : String),
      purgeLoop jobID active order k =
        if k ∈ order then
          (active k).bind (fun t => if t.JobID = jobID then none else some t)
        else active k := by
  induction order with
  | nil => intro active k; simp [purgeLoop]
  | cons id rest ih =>
    intro active k
    cases htask : active id with
    | none =>
      rw [purgeLoop_cons_none jobID active id rest htask, ih]
      by_cases hk : k = id
      · subst hk; simp [htask]
      · simp [hk]
    | some task =>
      by_cases hjob : task.JobID = jobID
      · rw [purgeLoop_cons_delete jobID active id rest task htask hjob, ih]
        by_cases hk : k = id
        · subst hk; simp [htask, hjob, Registry.delete]
        · simp [hk, Registry.delete]
      · rw [purgeLoop_cons_keep jobID active id rest task htask hjob, ih]
        by_cases hk : k = id
        · subst hk; simp [htask, hjob]
        · simp [hk]

/-- C8: PurgeJobTasks(jobID), whatever the order in which the range visits
the keys of the map, returns a nil error and leaves in the registry exactly
the old entries whose JobID differs from jobID, each unchanged: an entry of
that job is removed, any other entry stays as it was, and no entry appears.
The pending queue (contents and order, pending tasks of that job included)
and the capacity are unchanged, so nothing is pushed. -/
theorem C8_purge_exactly_job {P : Type} (s : Scheduler P) (jobID : String)
    (order : List String) (horder : Enumerates order s.activeTasks) :
    (PurgeJobTasks s jobID order).2 = none ∧
    (PurgeJobTasks s jobID order).1.taskQueue = s.taskQueue ∧
    (PurgeJobTasks s jobID order).1.cap = s.cap ∧
    (∀ k t, s.activeTasks k = some t → t.JobID = jobID →
      (PurgeJobTasks s jobID order).1.activeTasks k = none) ∧
    (∀ k t, s.activeTasks k = some t → t.JobID ≠ jobID →
      (PurgeJobTasks s jobID order).1.activeTasks k = some t) ∧
    (∀ k, s.activeTasks k = none →
      (PurgeJobTasks s jobID order).1.activeTasks k = none) := by
  refine ⟨rfl, rfl, rfl, ?_, ?_, ?_⟩
  · intro k t hk hjob
    have hmem : k ∈ order := (horder.2 k).mpr (by simp [hk])
    show purgeLoop jobID s.activeTasks order k = none
    rw [purgeLoop_apply, if_pos hmem, hk]
    simp [hjob]
  · intro k t hk hjob
    have hmem : k ∈ order := (horder.2 k).mpr (by simp [hk])
    show purgeLoop jobID s.activeTasks order k = some t
    rw [purgeLoop_apply, if_pos hmem, hk]
    simp [hjob]
  · intro k hk
    show purgeLoop jobID s.activeTasks order k = none
    rw [purgeLoop_apply, hk]
    simp

theorem exampleTwoJobs_order : Enumerates ["r1", "c1"] exampleTwoJobs.activeTasks := by
  refine ⟨by decide, ?_⟩
  intro k
  simp only [exampleTwoJobs, Registry.insert]
  by_cases h1 : k = "c1"
  · subst h1; simp
  · by_cases h2 : k = "r1"
    · subst h2; simp
    · simp [h1, h2]

/-- C8 on a scheduler with active tasks of the jobs "render" and "comp" and a
pending task of the job "render": purging "render". -/
theorem C8_purge_exactly_job_witness :
    (PurgeJobTasks exampleTwoJobs "render" ["r1", "c1"]).2 = none ∧
    (PurgeJobTasks exampleTwoJobs "render" ["r1", "c1"]).1.taskQueue =
      exampleTwoJobs.taskQueue ∧
    (PurgeJobTasks exampleTwoJobs "render" ["r1", "c1"]).1.cap = exampleTwoJobs.cap ∧
    (∀ k t, exampleTwoJobs.activeTasks k = some t → t.JobID = "render" →
      (PurgeJobTasks exampleTwoJobs "render" ["r1", "c1"]).1.activeTasks k = none) ∧
    (∀ k t, exampleTwoJobs.activeTasks k = some t → t.JobID ≠ "render" →
      (PurgeJobTasks exampleTwoJobs "render" ["r1", "c1"]).1.activeTasks k = some t) ∧
    (∀ k, exampleTwoJobs.activeTasks k = none →
      (PurgeJobTasks exampleTwoJobs "render" ["r1", "c1"]).1.activeTasks k = none) :=
  C8_purge_exactly_job exampleTwoJobs "render" ["r1", "c1"] exampleTwoJobs_order

/-! ## C9 -/

theorem requeuePush_lost {P : Type} (s2 : Sys P) (i : Nat) (t' : Task P) (hinv : Inv s2)
    (hget : s2.spawned.get? i = some t')
    (hfull : s2.sched.cap ≤ s2.sched.taskQueue.length) :
    (step s2 (.requeuePush i)).sched = s2.sched ∧ Gone t'.ID (step s2 (.requeuePush i)) := by
  have hperm := perm_cons_eraseIdx s2.spawned i _ hget
  have hstep : step s2 (.requeuePush i) =
      { s2 with spawned := s2.spawned.eraseIdx i } := by
    simp only [step, hget, requeuePush_full s2.sched _ hfull]
  rw [hstep]
  refine ⟨rfl, ?_⟩
  have hnd := hinv.nodup
  rw [taskIDs_append] at hnd
  have hnd2 : (taskIDs s2.sched.taskQueue ++
      taskIDs (t' :: s2.spawned.eraseIdx i)).Nodup := by
    refine (List.Perm.nodup_iff ?_).mp hnd
    exact List.Perm.append_left _ (List.Perm.map _ hperm)
  simp only [taskIDs, List.map_cons] at hnd2
  have hnd3 := List.nodup_middle.mp hnd2
  rw [List.nodup_cons, ← List.map_append] at hnd3
  have hmemsp : t'.ID ∈ taskIDs (s2.sched.taskQueue ++ s2.spawned) := by
    rw [taskIDs_append]
    refine List.mem_append_right _ ((mem_taskIDs _ _).mpr ⟨t', ?_, rfl⟩)
    exact hperm.mem_iff.mpr (List.mem_cons_self _ _)
  refine ⟨?_, ?_, ?_⟩
  · intro hmem
    exact hnd3.1 (by
      simp only [taskIDs] at hmem
      rw [List.map_append]
      exact List.mem_append_left _ hmem)
  · intro hmem
    exact hnd3.1 (by
      simp only [taskIDs] at hmem
      rw [List.map_append]
      exact List.mem_append_right _ hmem)
  · intro k u hk hid
    have hkey := hinv.key k u hk
    exact hinv.disjoint k u hk (by rw [← hkey, hid]; exact hmemsp)

/-- C9 (as stated) fails: on the scheduler of capacity 0 on which task "a" is
active (it was handed to a parked GetNextTask caller and recorded at time 5),
RequeueTask("a") at time 9 removes it from the registry; the queue is full at
the time of the push (length 0, capacity 0), yet with a GetNextTask caller
parked on the channel the spawned push does not fail: it hands the task to
that caller, which records it, so the task is in the registry again and is
not lost. -/
theorem C9_unbuffered_push_not_lost :
    exampleUnbufferedActive.cap = 0 ∧
    exampleUnbufferedActive.activeTasks "a" = some { exampleHandedTask with StartedAt := 5 } ∧
    (RequeueTask exampleUnbufferedActive "a" 9).2 = some exampleRequeued ∧
    (RequeueTask exampleUnbufferedActive "a" 9).1.activeTasks "a" = none ∧
    (RequeueTask exampleUnbufferedActive "a" 9).1.cap ≤
      (RequeueTask exampleUnbufferedActive "a" 9).1.taskQueue.length ∧
    (requeuePushCh (RequeueTask exampleUnbufferedActive "a" 9).1 true exampleRequeued).2.1 =
      ("a", none) ∧
    (requeuePushCh (RequeueTask exampleUnbufferedActive "a" 9).1 true exampleRequeued).2.2 =
      some exampleRequeued ∧
    (receiveHandOff
        (requeuePushCh (RequeueTask exampleUnbufferedActive "a" 9).1 true exampleRequeued).1
        exampleRequeued 12).1.activeTasks "a" =
      some { exampleRequeued with StartedAt := 12 } := by
  decide

/-- C9 (amended): for the id of an active task t, RequeueTask removes t from
the registry, leaves the queue as it is and hands t, with CreatedAt set to the
clock reading and every other field (ID, JobID, FrameID, Payload, StartedAt,
Retries) unchanged, to the spawned push. When that push runs with no
GetNextTask caller parked on the channel: in a state with room the task is
appended at the tail of the queue, behind everything pending, and nothing
else changes; in a state whose queue is full the send fails and the scheduler
is unchanged, and in a state that satisfies the structural invariant (so in
every state of a run from a fresh scheduler) no task with that id is then
pending, spawned or active: the task is lost. When the push runs with a
caller parked on the (empty) channel, it hands the task to that caller, whose
receive case records it under its id with StartedAt set; at capacity 1 or
more this is the same as appending the task and the caller receiving it, at
capacity 0 it happens although the queue is at capacity, and the task is not
lost. The RequeueTask call itself returns in every case. -/
theorem C9_requeue_by_channel_state {P : Type} :
    (∀ (s : Scheduler P) (taskID : String) (t : Task P) (now : Time),
      s.activeTasks taskID = some t →
        (RequeueTask s taskID now).2 = some { t with CreatedAt := now } ∧
        (RequeueTask s taskID now).1.activeTasks taskID = none ∧
        (∀ k, k ≠ taskID → (RequeueTask s taskID now).1.activeTasks k = s.activeTasks k) ∧
        (RequeueTask s taskID now).1.taskQueue = s.taskQueue ∧
        (RequeueTask s taskID now).1.cap = s.cap) ∧
    (∀ (s : Scheduler P) (receiverParked : Bool) (t : Task P),
      (receiverParked = false → s.taskQueue.length < s.cap →
        requeuePushCh s receiverParked t =
          ({ s with taskQueue := s.taskQueue ++ [t] }, (t.ID, none), none)) ∧
      (receiverParked = false → s.cap ≤ s.taskQueue.length →
        requeuePushCh s receiverParked t = (s, ("", some errRequeueFull), none)) ∧
      (receiverParked = true → s.taskQueue = [] →
        requeuePushCh s receiverParked t = (s, (t.ID, none), some t) ∧
        (∀ now',
          (receiveHandOff s t now').2 = .task { t with StartedAt := now' } ∧
          (receiveHandOff s t now').1.activeTasks t.ID = some { t with StartedAt := now' } ∧
          (receiveHandOff s t now').1.taskQueue = s.taskQueue) ∧
        (0 < s.cap → ∀ pick now',
          receiveHandOff (requeuePushCh s receiverParked t).1 t now' =
            GetNextTask (requeuePush s t).1 none pick now')) ∧
      requeuePushCh s false t = ((requeuePush s t).1, (requeuePush s t).2, none)) ∧
    (∀ (s2 : Sys P) (i : Nat) (t' : Task P),
      Inv s2 → s2.spawned.get? i = some t' →
      s2.sched.cap ≤ s2.sched.taskQueue.length →
      (step s2 (.requeuePush i)).sched = s2.sched ∧
      Gone t'.ID (step s2 (.requeuePush i))) ∧
    (∀ (maxQueueSize : Int) (s : Sys P) (taskID : String) (t : Task P) (now : Time)
      (ops : List (Op P)) (i : Nat),
      Reachable maxQueueSize s → s.sched.activeTasks taskID = some t →
      admissibleRun (step s (.requeue taskID now)) ops →
      (run (step s (.requeue taskID now)) ops).spawned.get? i =
        some { t with CreatedAt := now } →
      (run (step s (.requeue taskID now)) ops).sched.cap ≤
        (run (step s (.requeue taskID now)) ops).sched.taskQueue.length →
      (step (run (step s (.requeue taskID now)) ops) (.requeuePush i)).sched =
        (run (step s (.requeue taskID now)) ops).sched ∧
      Gone t.ID (step (run (step s (.requeue taskID now)) ops) (.requeuePush i))) := by
  refine ⟨?_, ?_, ?_, ?_⟩
  · intro s taskID t now h
    rw [RequeueTask_some s taskID now t h]
    exact ⟨rfl, Registry.delete_self _ _, fun k hk => Registry.delete_of_ne _ _ _ hk,
      rfl, rfl⟩
  · intro s receiverParked t
    refine ⟨?_, ?_, ?_, requeuePushCh_unparked s t⟩
    · intro hp h
      subst hp
      simp [requeuePushCh, chanSend_room s _ h]
    · intro hp h
      subst hp
      simp [requeuePushCh, chanSend_refused s _ h]
    · intro hp hq
      subst hp
      refine ⟨by simp [requeuePushCh, chanSend_handOff], ?_, ?_⟩
      · intro now'
        exact ⟨rfl, by simp [receiveHandOff, Registry.insert], rfl⟩
      · intro hcap pick now'
        exact requeuePushCh_hand_off_as_steps s t pick now' hq hcap
  · intro s2 i t' hinv hget hfull
    exact requeuePush_lost s2 i t' hinv hget hfull
  · intro maxQueueSize s taskID t now ops i hreach hact hadm hget hfull
    have hreach2 : Reachable maxQueueSize (run (step s (.requeue taskID now)) ops) :=
      Reachable_run maxQueueSize s (.requeue taskID now :: ops) hreach ⟨trivial, hadm⟩
    exact requeuePush_lost _ i { t with CreatedAt := now }
      (Inv_of_Reachable maxQueueSize _ hreach2) hget hfull

theorem exampleUnbufferedSpawned_inv : Inv exampleUnbufferedSpawned := by
  have hnone : ∀ k, exampleUnbufferedSpawned.sched.activeTasks k = none := by
    intro k
    show Registry.delete (Registry.insert (fun _ => none) "a" _) "a" k = none
    by_cases hk : k = "a"
    · simp [Registry.delete, hk]
    · simp [Registry.delete, Registry.insert, hk]
  refine ⟨by decide, ?_, ?_, by decide, ?_⟩
  · intro k t hk; rw [hnone k] at hk; cases hk
  · intro k t hk; rw [hnone k] at hk; cases hk
  · intro k t hk; rw [hnone k] at hk; cases hk

/-- C9 (amended) on the state where task "a" is active: the requeue at time
9, the push into a queue with room, into a full queue with no caller parked
and into the unbuffered channel with a caller parked, and the loss of the
task when the push finds the queue full with no caller parked, at capacity 0
and at capacity 2 after two enqueues filled the queue. -/
theorem C9_requeue_by_channel_state_witness :
    ((RequeueTask exampleDispatched.sched "a" 9).2 = some { exampleActive with CreatedAt := 9 } ∧
      (RequeueTask exampleDispatched.sched "a" 9).1.activeTasks "a" = none ∧
      (∀ k, k ≠ "a" → (RequeueTask exampleDispatched.sched "a" 9).1.activeTasks k =
        exampleDispatched.sched.activeTasks k) ∧
      (RequeueTask exampleDispatched.sched "a" 9).1.taskQueue =
        exampleDispatched.sched.taskQueue ∧
      (RequeueTask exampleDispatched.sched "a" 9).1.cap = exampleDispatched.sched.cap) ∧
    requeuePushCh exampleRoom false exampleActive =
      ({ exampleRoom with taskQueue := exampleRoom.taskQueue ++ [exampleActive] },
        (exampleActive.ID, none), none) ∧
    requeuePushCh exampleFull false exampleActive =
      (exampleFull, ("", some errRequeueFull), none) ∧
    requeuePushCh exampleUnbufferedSpawned.sched true exampleRequeued =
      (exampleUnbufferedSpawned.sched, (exampleRequeued.ID, none), some exampleRequeued) ∧
    ((step exampleUnbufferedSpawned (.requeuePush 0)).sched = exampleUnbufferedSpawned.sched ∧
      Gone exampleRequeued.ID (step exampleUnbufferedSpawned (.requeuePush 0))) ∧
    ((step (run (step exampleDispatched (.requeue "a" 9))
        [.enqueue 2 "j" "g" "b" 10, .enqueue 3 "j" "h" "c" 11]) (.requeuePush 0)).sched =
      (run (step exampleDispatched (.requeue "a" 9))
        [.enqueue 2 "j" "g" "b" 10, .enqueue 3 "j" "h" "c" 11]).sched ∧
    Gone exampleActive.ID (step (run (step exampleDispatched (.requeue "a" 9))
        [.enqueue 2 "j" "g" "b" 10, .enqueue 3 "j" "h" "c" 11]) (.requeuePush 0))) :=
  ⟨C9_requeue_by_channel_state.1 exampleDispatched.sched "a" exampleActive 9 rfl,
   (C9_requeue_by_channel_state.2.1 exampleRoom false exampleActive).1 rfl (by decide),
   (C9_requeue_by_channel_state.2.1 exampleFull false exampleActive).2.1 rfl (by decide),
   ((C9_requeue_by_channel_state.2.1 exampleUnbufferedSpawned.sched true exampleRequeued).2.2.1
     rfl rfl).1,
   C9_requeue_by_channel_state.2.2.1 exampleUnbufferedSpawned 0 exampleRequeued
     exampleUnbufferedSpawned_inv rfl (by decide),
   C9_requeue_by_channel_state.2.2.2 2 exampleDispatched "a" exampleActive 9
     [.enqueue 2 "j" "g" "b" 10, .enqueue 3 "j" "h" "c" 11] 0
     exampleDispatched_reachable rfl
     ⟨by show "b" ∉ ["a"]; decide, by show "c" ∉ ["b", "a"]; decide, trivial⟩
     rfl (by decide)⟩

/-! ## C10 -/

theorem fifo_step {P : Type} (s : Sys P) (op : Op P) (hop : plainOp op) :
    (servedID s.sched op).toList ++ taskIDs (step s op).sched.taskQueue =
      taskIDs s.sched.taskQueue ++ (enqueuedID s.sched op).toList := by
  cases op with
  | enqueue payload jobID frameID taskID now =>
    by_cases hroom : s.sched.taskQueue.length < s.sched.cap
    · simp [servedID, enqueuedID, step,
        EnqueueTask_room s.sched payload jobID frameID taskID now hroom, taskIDs]
    · simp [servedID, enqueuedID, step,
        EnqueueTask_full s.sched payload jobID frameID taskID now (Nat.not_lt.mp hroom)]
  | getNext ctxErr pick now =>
    rcases GetNextTask_cases s.sched ctxErr pick now with ⟨head, tail, hq, heq⟩ |
      ⟨e, _, heq⟩ | ⟨_, _, heq⟩
    · simp [servedID, enqueuedID, step, heq, hq, taskIDs]
    · simp [servedID, enqueuedID, step, heq]
    · simp [servedID, enqueuedID, step, heq]
  | complete taskID =>
    simp [servedID, enqueuedID, step, (MarkTaskComplete_sub s.sched taskID).1]
  | requeue taskID now => exact absurd hop (by simp [plainOp])
  | requeuePush i => exact absurd hop (by simp [plainOp])
  | sweep timeout now order => exact absurd hop (by simp [plainOp])
  | purge jobID order => simp [servedID, enqueuedID, step, PurgeJobTasks]
  | queueLength => simp [servedID, enqueuedID, step]

theorem fifo_run {P : Type} (ops : List (Op P)) :
    ∀ s : Sys P, (∀ op ∈ ops, plainOp op) →
      servedIDs s ops ++ taskIDs (run s ops).sched.taskQueue =
        taskIDs s.sched.taskQueue ++ enqueuedIDs s ops := by
  induction ops with
  | nil => intro s _; simp [servedIDs, enqueuedIDs, run]
  | cons op rest ih =>
    intro s hplain
    have h1 := fifo_step s op (hplain op (List.mem_cons_self _ _))
    have h2 := ih (step s op) (fun o ho => hplain o (List.mem_cons_of_mem _ ho))
    simp only [servedIDs, enqueuedIDs, run]
    rw [List.append_assoc, h2, ← List.append_assoc, h1, List.append_assoc]

/-- C10: in any run of operations without reclamation or requeue, the ids of
the tasks returned by the GetNextTask calls, followed by the ids still
pending at the end, are the ids pending at the start followed by the ids
returned by the successful EnqueueTask calls, in order; so from an empty
queue the tasks are served in the order in which their ids were returned by
EnqueueTask. And a sweep leaves the old queue as a prefix of the new one:
every task it pushes back is a collected task, with Retries incremented,
placed behind every task that was pending. -/
theorem C10_fifo_order {P : Type} :
    (∀ (s : Sys P) (ops : List (Op P)), (∀ op ∈ ops, plainOp op) →
      servedIDs s ops ++ taskIDs (run s ops).sched.taskQueue =
        taskIDs s.sched.taskQueue ++ enqueuedIDs s ops) ∧
    (∀ (s : Sys P) (ops : List (Op P)), (∀ op ∈ ops, plainOp op) →
      s.sched.taskQueue = [] →
      enqueuedIDs s ops = servedIDs s ops ++ taskIDs (run s ops).sched.taskQueue) ∧
    (∀ (s : Scheduler P) (timeout : Int) (now : Time) (order : List String),
      ∃ pushed : List (Task P),
        (sweep s timeout now order).1.taskQueue = s.taskQueue ++ pushed ∧
        pushed.Sublist ((scanExpired timeout now s.activeTasks order).2.map bumpRetries)) := by
  refine ⟨fun s ops h => fifo_run ops s h, ?_, ?_⟩
  · intro s ops h hq
    have := fifo_run ops s h
    rw [hq] at this
    simpa [taskIDs] using this.symm
  · intro s timeout now order
    obtain ⟨pushed, hsub, _, heq⟩ := sweep_spec s timeout now order
    exact ⟨pushed, by rw [heq], hsub⟩

theorem exampleFifoOps_plain : ∀ op ∈ exampleFifoOps, plainOp op := by
  intro op hop
  simp only [exampleFifoOps, List.mem_cons, List.mem_singleton, List.not_mem_nil,
    or_false] at hop
  rcases hop with h | h | h | h | h <;> subst h <;> trivial

/-- C10 on a fresh scheduler of capacity 2 with the run enqueue "a", enqueue
"b", dequeue, enqueue "c", dequeue (ids served: "a" then "b"; "c" pending),
and on a sweep of the scheduler holding one pending and one active task. -/
theorem C10_fifo_order_witness :
    (servedIDs exampleInit exampleFifoOps ++
        taskIDs (run exampleInit exampleFifoOps).sched.taskQueue =
      taskIDs exampleInit.sched.taskQueue ++ enqueuedIDs exampleInit exampleFifoOps) ∧
    (enqueuedIDs exampleInit exampleFifoOps =
      servedIDs exampleInit exampleFifoOps ++
        taskIDs (run exampleInit exampleFifoOps).sched.taskQueue) ∧
    (∃ pushed : List (Task Nat),
      (sweep exampleRoom 10 100 ["q"]).1.taskQueue = exampleRoom.taskQueue ++ pushed ∧
      pushed.Sublist
        ((scanExpired 10 100 exampleRoom.activeTasks ["q"]).2.map bumpRetries)) :=
  ⟨C10_fifo_order.1 exampleInit exampleFifoOps exampleFifoOps_plain,
   C10_fifo_order.2.1 exampleInit exampleFifoOps exampleFifoOps_plain rfl,
   C10_fifo_order.2.2 exampleRoom 10 100 ["q"]⟩

/-! ## C18 -/

/-- C18 (as stated) fails: on the example scheduler, whose queue holds the task
"p", a GetNextTask call with an already cancelled context in which the select
takes the receive case returns "p" and records it in the registry, which had
no entry for "p" before. -/
theorem C18_cancelled_may_dispatch :
    exampleFull.activeTasks "p" = none ∧
    (GetNextTask exampleFull (some .Canceled) true 20).2 =
      .task { ID := "p", JobID := "j", FrameID := "f", Payload := 1,
              CreatedAt := 3, StartedAt := 20, Retries := 0 } ∧
    (GetNextTask exampleFull (some .Canceled) true 20).1.activeTasks "p" =
      some { ID := "p", JobID := "j", FrameID := "f", Payload := 1,
             CreatedAt := 3, StartedAt := 20, Retries := 0 } := by
  decide

/-- C18 (amended): a GetNextTask call whose context is already done returns
the context error with the scheduler unchanged when the queue is empty or when
the select takes the cancellation case; when the queue is non-empty and the
select takes the receive case, the call returns the head task and records it
as active. Whenever the call returns an error the scheduler is unchanged. -/
theorem C18_cancelled_select {P : Type} (s : Scheduler P) (e : CtxError) (pick : Bool)
    (now : Time) :
    (s.taskQueue = [] ∨ pick = false →
      GetNextTask s (some e) pick now = (s, .err (.context e))) ∧
    (∀ head tail, s.taskQueue = head :: tail → pick = true →
      GetNextTask s (some e) pick now =
        ({ s with taskQueue := tail,
                  activeTasks := s.activeTasks.insert head.ID { head with StartedAt := now } },
          .task { head with StartedAt := now })) ∧
    (∀ err, (GetNextTask s (some e) pick now).2 = .err err →
      (GetNextTask s (some e) pick now).1 = s) := by
  refine ⟨GetNextTask_done s e pick now, ?_, ?_⟩
  · intro head tail hq hpick
    exact GetNextTask_recv s (some e) pick now head tail hq (Or.inr hpick)
  · intro err h
    rcases GetNextTask_cases s (some e) pick now with ⟨head, tail, _, heq⟩ | ⟨e', _, heq⟩ |
      ⟨_, _, heq⟩
    · rw [heq] at h; cases h
    · rw [heq]
    · rw [heq]

/-- C18 (amended) on the idle example scheduler and on the example scheduler
with the pending task "p", for both choices of the select. -/
theorem C18_cancelled_select_witness :
    GetNextTask exampleIdle (some .Canceled) true 20 =
      (exampleIdle, .err (.context .Canceled)) ∧
    GetNextTask exampleFull (some .Canceled) false 20 =
      (exampleFull, .err (.context .Canceled)) ∧
    GetNextTask exampleFull (some .Canceled) true 20 =
      ({ exampleFull with
          taskQueue := [],
          activeTasks := exampleFull.activeTasks.insert "p"
            { ID := "p", JobID := "j", FrameID := "f", Payload := 1,
              CreatedAt := 3, StartedAt := 20, Retries := 0 } },
        .task { ID := "p", JobID := "j", FrameID := "f", Payload := 1,
                CreatedAt := 3, StartedAt := 20, Retries := 0 }) ∧
    (GetNextTask exampleFull (some .Canceled) false 20).1 = exampleFull :=
  ⟨(C18_cancelled_select exampleIdle .Canceled true 20).1 (Or.inl rfl),
   (C18_cancelled_select exampleFull .Canceled false 20).1 (Or.inr rfl),
   (C18_cancelled_select exampleFull .Canceled true 20).2.1
     { ID := "p", JobID := "j", FrameID := "f", Payload := 1,
       CreatedAt := 3, StartedAt := 0, Retries := 0 } [] rfl rfl,
   (C18_cancelled_select exampleFull .Canceled false 20).2.2 (.context .Canceled) rfl⟩

/-! ## C15 -/

theorem requeueDead_createdAt {P : Type} (dead : List (Task P)) :
    ∀ (s : Scheduler P) (t : Task P), t ∈ (requeueDead s dead).1.taskQueue →
      t ∈ s.taskQueue ∨ ∃ d ∈ dead, t = bumpRetries d := by
  intro s t ht
  obtain ⟨pushed, hsub, _, heq⟩ := requeueDead_spec dead s
  rw [heq] at ht
  rcases List.mem_append.mp ht with h | h
  · exact Or.inl h
  · obtain ⟨d, hd, rfl⟩ := List.mem_map.mp (hsub.subset h)
    exact Or.inr ⟨d, hd, rfl⟩

theorem sweep_keeps_createdAt {P : Type} (s : Scheduler P) (timeout : Int) (now : Time)
    (order : List String) (t : Task P) (ht : t ∈ (sweep s timeout now order).1.taskQueue) :
    t ∈ s.taskQueue ∨
    ∃ k d, s.activeTasks k = some d ∧ t = bumpRetries d ∧ t.CreatedAt = d.CreatedAt := by
  rcases requeueDead_createdAt _ _ t ht with h | ⟨d, hd, rfl⟩
  · exact Or.inl h
  · obtain ⟨k, _, hact, _, _⟩ := scanExpired_dead timeout now order _ d hd
    exact Or.inr ⟨k, d, hact, rfl, rfl⟩

/-- C15 (code): the sweep never assigns CreatedAt. On the example scheduler,
whose active task "q" has CreatedAt 1 and StartedAt 2 and whose queue has
room, a sweep at time 100 with timeout 10 reports "q" requeued and leaves it
at the tail of the queue with Retries 1 and CreatedAt 1, not 100, whereas
RequeueTask("q") at time 100 hands the task on with CreatedAt 100. -/
theorem C15_sweep_keeps_createdAt :
    (sweep exampleRoom 10 100 ["q"]).1.taskQueue =
      [{ ID := "p", JobID := "j", FrameID := "f", Payload := 1,
         CreatedAt := 3, StartedAt := 0, Retries := 0 },
       { ID := "q", JobID := "j", FrameID := "g", Payload := 2,
         CreatedAt := 1, StartedAt := 2, Retries := 1 }] ∧
    (sweep exampleRoom 10 100 ["q"]).2 = [.requeued "q" 1] ∧
    (RequeueTask exampleRoom "q" 100).2 =
      some { ID := "q", JobID := "j", FrameID := "g", Payload := 2,
             CreatedAt := 100, StartedAt := 2, Retries := 0 } := by
  decide

/-! ## C11 -/

theorem reclaimCycle_single {P : Type} (s : Scheduler P) (t : Task P) (id : String)
    (timeout : Int) (d w : Time) (hid : t.ID = id) (hq : s.taskQueue = [t])
    (hreg : ∀ k, s.activeTasks k = none) (hcap : 0 < s.cap)
    (hexp : Time.Sub w d > timeout) (r : Int) (hr : wrapInt32 (t.Retries + 1) = r) :
    (reclaimCycle s timeout d w [id]).cap = s.cap ∧
    (∀ k, (reclaimCycle s timeout d w [id]).activeTasks k = none) ∧
    (reclaimCycle s timeout d w [id]).taskQueue =
      if r > 3 then [] else [{ t with StartedAt := d, Retries := r }] := by
  subst hid
  subst hr
  have hrecv := GetNextTask_recv s none false d t [] hq (Or.inl rfl)
  have hscan : scanExpired timeout w
      (s.activeTasks.insert t.ID { t with StartedAt := d }) [t.ID] =
      ((s.activeTasks.insert t.ID { t with StartedAt := d }).delete t.ID,
        [{ t with StartedAt := d }]) := by
    rw [scanExpired_cons_dead timeout w _ t.ID [] { t with StartedAt := d }
      (by simp [Registry.insert]) hexp]
    simp [scanExpired]
  have hnone : ∀ k, ((s.activeTasks.insert t.ID { t with StartedAt := d }).delete t.ID) k
      = none := by
    intro k
    by_cases hk : k = t.ID
    · simp [Registry.delete, hk]
    · simp [Registry.delete, Registry.insert, hk, hreg k]
  by_cases hret : wrapInt32 (t.Retries + 1) > 3
  · have heq : reclaimCycle s timeout d w [t.ID] =
        { cap := s.cap, taskQueue := [],
          activeTasks := (s.activeTasks.insert t.ID { t with StartedAt := d }).delete t.ID } := by
      unfold reclaimCycle sweep
      rw [hrecv]
      simp only [hscan]
      rw [requeueDead_cons_dropped _ _ _ (by simpa [bumpRetries] using hret)]
      simp only [requeueDead]
    rw [heq, if_pos hret]
    exact ⟨rfl, hnone, rfl⟩
  · have heq : reclaimCycle s timeout d w [t.ID] =
        { cap := s.cap,
          taskQueue := [{ t with StartedAt := d, Retries := wrapInt32 (t.Retries + 1) }],
          activeTasks := (s.activeTasks.insert t.ID { t with StartedAt := d }).delete t.ID } := by
      unfold reclaimCycle sweep
      rw [hrecv]
      simp only [hscan]
      rw [requeueDead_cons_pushed _ _ _ (by simpa [bumpRetries] using hret)
        (by simpa using hcap)]
      simp only [requeueDead, List.nil_append, bumpRetries]
    rw [heq, if_neg hret]
    exact ⟨rfl, hnone, rfl⟩

/-- C11 (as stated) fails: the scheduler is constructed from the queue
capacity alone and has no configurable budget. With a 50ms timeout, a task
dispatched at 0 and swept at 60ms, dispatched again at 70ms and swept at
140ms, is not dropped by the second sweep: it is back in the queue with
Retries 2 and a third GetNextTask returns it. -/
theorem C11_second_sweep_requeues :
    (reclaimCycles exampleOneTask ms50 ["a"]
        [(0, 60000000), (70000000, 140000000)]).taskQueue =
      [{ ID := "a", JobID := "j", FrameID := "f", Payload := 1,
         CreatedAt := 0, StartedAt := 70000000, Retries := 2 }] ∧
    (GetNextTask (reclaimCycles exampleOneTask ms50 ["a"]
        [(0, 60000000), (70000000, 140000000)]) none false 150000000).2 =
      .task { ID := "a", JobID := "j", FrameID := "f", Payload := 1,
              CreatedAt := 0, StartedAt := 150000000, Retries := 2 } := by
  decide

/-- C11 (amended): the retry budget is the constant 3. A task enqueued on a
fresh scheduler of capacity at least 1, dequeued and never completed or
requeued, is returned again by GetNextTask after each of the first three
sweeps that find it timed out, with Retries 1, 2 and 3; the fourth such sweep
drops it: the queue is empty, the registry is empty, and a further
GetNextTask with an open context finds nothing to return. -/
theorem C11_budget_is_three {P : Type} (n : Nat) (hn : 0 < n) (c : EnqueueCall P)
    (timeout : Int) (d1 w1 d2 w2 d3 w3 d4 w4 : Time)
    (h1 : Time.Sub w1 d1 > timeout) (h2 : Time.Sub w2 d2 > timeout)
    (h3 : Time.Sub w3 d3 > timeout) (h4 : Time.Sub w4 d4 > timeout) :
    ∃ s0 : Scheduler P, NewScheduler (n : Int) = some s0 ∧
      (GetNextTask (reclaimCycles
          (EnqueueTask s0 c.payload c.jobID c.frameID c.taskID c.now).1 timeout [c.taskID]
          [(d1, w1)]) none false d2).2 =
        .task { c.task with StartedAt := d2, Retries := 1 } ∧
      (GetNextTask (reclaimCycles
          (EnqueueTask s0 c.payload c.jobID c.frameID c.taskID c.now).1 timeout [c.taskID]
          [(d1, w1), (d2, w2)]) none false d3).2 =
        .task { c.task with StartedAt := d3, Retries := 2 } ∧
      (GetNextTask (reclaimCycles
          (EnqueueTask s0 c.payload c.jobID c.frameID c.taskID c.now).1 timeout [c.taskID]
          [(d1, w1), (d2, w2), (d3, w3)]) none false d4).2 =
        .task { c.task with StartedAt := d4, Retries := 3 } ∧
      (reclaimCycles
          (EnqueueTask s0 c.payload c.jobID c.frameID c.taskID c.now).1 timeout [c.taskID]
          [(d1, w1), (d2, w2), (d3, w3), (d4, w4)]).taskQueue = [] ∧
      (∀ k, (reclaimCycles
          (EnqueueTask s0 c.payload c.jobID c.frameID c.taskID c.now).1 timeout [c.taskID]
          [(d1, w1), (d2, w2), (d3, w3), (d4, w4)]).activeTasks k = none) ∧
      (∀ pick now, (GetNextTask (reclaimCycles
          (EnqueueTask s0 c.payload c.jobID c.frameID c.taskID c.now).1 timeout [c.taskID]
          [(d1, w1), (d2, w2), (d3, w3), (d4, w4)]) none pick now).2 = .blocked) := by
  refine ⟨{ cap := n, taskQueue := [], activeTasks := fun _ => none }, ?_, ?_⟩
  · simp [NewScheduler]
  have hroom := EnqueueTask_room
    ({ cap := n, taskQueue := [], activeTasks := fun _ => none } : Scheduler P)
    c.payload c.jobID c.frameID c.taskID c.now (by simpa using hn)
  have hq1 : (EnqueueTask ({ cap := n, taskQueue := [], activeTasks := fun _ => none } :
      Scheduler P) c.payload c.jobID c.frameID c.taskID c.now).1.taskQueue = [c.task] := by
    rw [hroom]; rfl
  have hr1 : ∀ k, (EnqueueTask ({ cap := n, taskQueue := [], activeTasks := fun _ => none } :
      Scheduler P) c.payload c.jobID c.frameID c.taskID c.now).1.activeTasks k = none := by
    rw [hroom]; intro k; rfl
  have hc1 : 0 < (EnqueueTask ({ cap := n, taskQueue := [], activeTasks := fun _ => none } :
      Scheduler P) c.payload c.jobID c.frameID c.taskID c.now).1.cap := by
    rw [hroom]; exact hn
  generalize (EnqueueTask ({ cap := n, taskQueue := [], activeTasks := fun _ => none } :
      Scheduler P) c.payload c.jobID c.frameID c.taskID c.now).1 = s1 at hq1 hr1 hc1 ⊢
  simp only [reclaimCycles]
  obtain ⟨c2, r2, q2⟩ := reclaimCycle_single s1 c.task c.taskID timeout d1 w1 rfl hq1 hr1 hc1
    h1 1 rfl
  simp only [show ¬ ((1 : Int) > 3) from by decide, if_false] at q2
  obtain ⟨c3, r3, q3⟩ := reclaimCycle_single _ _ c.taskID timeout d2 w2 rfl q2 r2
    (by rw [c2]; exact hc1) h2 2 rfl
  simp only [show ¬ ((2 : Int) > 3) from by decide, if_false] at q3
  obtain ⟨c4, r4, q4⟩ := reclaimCycle_single _ _ c.taskID timeout d3 w3 rfl q3 r3
    (by rw [c3, c2]; exact hc1) h3 3 rfl
  simp only [show ¬ ((3 : Int) > 3) from by decide, if_false] at q4
  obtain ⟨_, r5, q5⟩ := reclaimCycle_single _ _ c.taskID timeout d4 w4 rfl q4 r4
    (by rw [c4, c3, c2]; exact hc1) h4 4 rfl
  simp only [show ((4 : Int) > 3) from by decide, if_true] at q5
  refine ⟨?_, ?_, ?_, q5, r5, ?_⟩
  · rw [GetNextTask_recv _ none false d2 _ [] q2 (Or.inl rfl)]
  · rw [GetNextTask_recv _ none false d3 _ [] q3 (Or.inl rfl)]
  · rw [GetNextTask_recv _ none false d4 _ [] q4 (Or.inl rfl)]
  · intro pick now
    rw [GetNextTask_blocked _ pick now q5]

/-- C11 (amended) with a 50ms timeout on a scheduler of capacity 1: dispatches
at 0, 70, 150 and 220ms, sweeps at 60, 140, 210 and 280ms. -/
theorem C11_budget_is_three_witness :
    ∃ s0 : Scheduler Nat, NewScheduler ((1 : Nat) : Int) = some s0 ∧
      (GetNextTask (reclaimCycles
          (EnqueueTask s0 exampleCall.payload exampleCall.jobID exampleCall.frameID
            exampleCall.taskID exampleCall.now).1 ms50 [exampleCall.taskID]
          [(0, 60000000)]) none false 70000000).2 =
        .task { exampleCall.task with StartedAt := 70000000, Retries := 1 } ∧
      (GetNextTask (reclaimCycles
          (EnqueueTask s0 exampleCall.payload exampleCall.jobID exampleCall.frameID
            exampleCall.taskID exampleCall.now).1 ms50 [exampleCall.taskID]
          [(0, 60000000), (70000000, 140000000)]) none false 150000000).2 =
        .task { exampleCall.task with StartedAt := 150000000, Retries := 2 } ∧
      (GetNextTask (reclaimCycles
          (EnqueueTask s0 exampleCall.payload exampleCall.jobID exampleCall.frameID
            exampleCall.taskID exampleCall.now).1 ms50 [exampleCall.taskID]
          [(0, 60000000), (70000000, 140000000), (150000000, 210000000)])
          none false 220000000).2 =
        .task { exampleCall.task with StartedAt := 220000000, Retries := 3 } ∧
      (reclaimCycles
          (EnqueueTask s0 exampleCall.payload exampleCall.jobID exampleCall.frameID
            exampleCall.taskID exampleCall.now).1 ms50 [exampleCall.taskID]
          [(0, 60000000), (70000000, 140000000), (150000000, 210000000),
           (220000000, 280000000)]).taskQueue = [] ∧
      (∀ k, (reclaimCycles
          (EnqueueTask s0 exampleCall.payload exampleCall.jobID exampleCall.frameID
            exampleCall.taskID exampleCall.now).1 ms50 [exampleCall.taskID]
          [(0, 60000000), (70000000, 140000000), (150000000, 210000000),
           (220000000, 280000000)]).activeTasks k = none) ∧
      (∀ pick now, (GetNextTask (reclaimCycles
          (EnqueueTask s0 exampleCall.payload exampleCall.jobID exampleCall.frameID
            exampleCall.taskID exampleCall.now).1 ms50 [exampleCall.taskID]
          [(0, 60000000), (70000000, 140000000), (150000000, 210000000),
           (220000000, 280000000)]) none pick now).2 = .blocked) :=
  C11_budget_is_three 1 (by decide) exampleCall ms50 0 60000000 70000000 140000000
    150000000 210000000 220000000 280000000 (by decide) (by decide) (by decide) (by decide)

/-! ## C14 -/

theorem scanExpired_exact {P : Type} (timeout : Int) (now : Time) (order : List String) :
    ∀ (active : Registry P), order.Nodup →
      (scanExpired timeout now active order).2 =
        order.filterMap (fun k => (active k).filter (expired timeout now)) ∧
      ∀ k, (scanExpired timeout now active order).1 k =
        if k ∈ order then (active k).filter (fun t => !expired timeout now t)
        else active k := by
  induction order with
  | nil => intro active _; simp [scanExpired]
  | cons id rest ih =>
    intro active hnd
    obtain ⟨hid, hrest⟩ := List.nodup_cons.mp hnd
    cases htask : active id with
    | none =>
      rw [scanExpired_cons_none timeout now active id rest htask]
      obtain ⟨h2, h1⟩ := ih active hrest
      refine ⟨by simp [h2, htask], ?_⟩
      intro k
      rw [h1 k]
      by_cases hk : k = id
      · subst hk; simp [hid, htask]
      · simp [hk]
    | some task =>
      by_cases hexp : Time.Sub now task.StartedAt > timeout
      · rw [scanExpired_cons_dead timeout now active id rest task htask hexp]
        obtain ⟨h2, h1⟩ := ih (active.delete id) hrest
        have hcongr : rest.filterMap
            (fun k => (active.delete id k).filter (expired timeout now)) =
            rest.filterMap (fun k => (active k).filter (expired timeout now)) := by
          apply List.filterMap_congr
          intro k hk
          have hne : k ≠ id := fun h => hid (h ▸ hk)
          simp [Registry.delete, hne]
        refine ⟨?_, ?_⟩
        · rw [h2, hcongr]
          simp [htask, Option.filter, expired, hexp]
        · intro k
          simp only [h1 k]
          by_cases hk : k = id
          · subst hk
            simp [hid, htask, Registry.delete, Option.filter, expired, hexp]
          · simp [hk, Registry.delete]
      · rw [scanExpired_cons_keep timeout now active id rest task htask hexp]
        obtain ⟨h2, h1⟩ := ih active hrest
        refine ⟨?_, ?_⟩
        · simp only [h2, List.filterMap_cons, htask, Option.filter, expired,
            decide_eq_false hexp]
          simp
        · intro k
          rw [h1 k]
          by_cases hk : k = id
          · subst hk
            simp [hid, htask, Option.filter, expired, hexp]
          · simp [hk]

theorem Time.Sub_gt_iff (now u : Int) (timeout : Int) (hmin : minDuration ≤ timeout)
    (hmax : timeout < maxDuration) : Time.Sub now u > timeout ↔ now - u > timeout := by
  unfold Time.Sub
  by_cases h1 : now - u > maxDuration
  · rw [if_pos h1]
    exact ⟨fun _ => lt_trans hmax h1, fun _ => hmax⟩
  · rw [if_neg h1]
    by_cases h2 : now - u < minDuration
    · rw [if_pos h2]
      constructor
      · intro h; exact absurd (lt_of_lt_of_le h hmin) (lt_irrefl _)
      · intro h; exact absurd (lt_trans (lt_of_le_of_lt hmin h) h2) (lt_irrefl _)
    · rw [if_neg h2]

/-- C14: when the range visits every key of the registry once, the locked
scan of the sweep collects exactly the registry entries whose
`now.Sub(StartedAt)` is strictly greater than the timeout, one per key in
visiting order, and deletes exactly those: a collected task is under no key
afterwards, an entry with `now.Sub(StartedAt)` at most the timeout (so also
equal to it) stays unchanged, no entry appears, and no remaining entry is
expired. For a timeout below the largest duration the saturating `Sub` test is
the same as `now - StartedAt > timeout`. -/
theorem C14_scan_collects_exactly_expired {P : Type} (active : Registry P) (timeout : Int)
    (now : Time) (order : List String) (horder : Enumerates order active) :
    (scanExpired timeout now active order).2 =
      order.filterMap (fun k => (active k).filter (expired timeout now)) ∧
    (∀ d, d ∈ (scanExpired timeout now active order).2 ↔
      ∃ k, active k = some d ∧ Time.Sub now d.StartedAt > timeout) ∧
    (∀ k t, active k = some t → Time.Sub now t.StartedAt > timeout →
      (scanExpired timeout now active order).1 k = none) ∧
    (∀ k t, active k = some t → Time.Sub now t.StartedAt ≤ timeout →
      (scanExpired timeout now active order).1 k = some t) ∧
    (∀ k, active k = none → (scanExpired timeout now active order).1 k = none) ∧
    (∀ d ∈ (scanExpired timeout now active order).2,
      ∀ k, (scanExpired timeout now active order).1 k ≠ some d) ∧
    (∀ k t, (scanExpired timeout now active order).1 k = some t →
      Time.Sub now t.StartedAt ≤ timeout) ∧
    (minDuration ≤ timeout → timeout < maxDuration →
      ∀ u : Time, Time.Sub now u > timeout ↔ now - u > timeout) := by
  obtain ⟨hlist, hreg⟩ := scanExpired_exact timeout now order active horder.1
  have hkeep : ∀ k t, (scanExpired timeout now active order).1 k = some t →
      active k = some t ∧ Time.Sub now t.StartedAt ≤ timeout := by
    intro k t hk
    have hact := scanExpired_sub timeout now order active k t hk
    have hmem : k ∈ order := (horder.2 k).mpr (by simp [hact])
    rw [hreg k, if_pos hmem, hact] at hk
    refine ⟨hact, ?_⟩
    by_contra hgt
    simp [Option.filter, expired, not_le.mp hgt] at hk
  refine ⟨hlist, ?_, ?_, ?_, ?_, ?_, ?_, ?_⟩
  · intro d
    constructor
    · intro hd
      obtain ⟨k, _, hact, hexp, _⟩ := scanExpired_dead timeout now order active d hd
      exact ⟨k, hact, hexp⟩
    · rintro ⟨k, hact, hexp⟩
      rw [hlist, List.mem_filterMap]
      exact ⟨k, (horder.2 k).mpr (by simp [hact]), by simp [hact, Option.filter, expired, hexp]⟩
  · intro k t hact hexp
    have hmem : k ∈ order := (horder.2 k).mpr (by simp [hact])
    rw [hreg k, if_pos hmem, hact]
    simp [Option.filter, expired, hexp]
  · intro k t hact hle
    have hmem : k ∈ order := (horder.2 k).mpr (by simp [hact])
    rw [hreg k, if_pos hmem, hact]
    simp [Option.filter, expired, not_lt.mpr hle]
  · intro k hact
    rw [hreg k, hact]
    simp
  · intro d hd k hk
    obtain ⟨_, _, _, hexp, _⟩ := scanExpired_dead timeout now order active d hd
    exact absurd hexp (not_lt.mpr (hkeep k d hk).2)
  · exact fun k t hk => (hkeep k t hk).2
  · exact fun hmin hmax u => Time.Sub_gt_iff now u timeout hmin hmax

/-- C14 on the registry with "r1" dispatched at 4 and "c1" dispatched at 5,
scanned at time 15 with timeout 10: "r1" is collected, "c1" (exactly at the
timeout) is not. -/
theorem C14_scan_collects_exactly_expired_witness :
    (scanExpired 10 15 exampleTwoJobs.activeTasks ["r1", "c1"]).2 =
      ["r1", "c1"].filterMap
        (fun k => (exampleTwoJobs.activeTasks k).filter (expired 10 15)) ∧
    (∀ d, d ∈ (scanExpired 10 15 exampleTwoJobs.activeTasks ["r1", "c1"]).2 ↔
      ∃ k, exampleTwoJobs.activeTasks k = some d ∧ Time.Sub 15 d.StartedAt > 10) ∧
    (∀ k t, exampleTwoJobs.activeTasks k = some t → Time.Sub 15 t.StartedAt > 10 →
      (scanExpired 10 15 exampleTwoJobs.activeTasks ["r1", "c1"]).1 k = none) ∧
    (∀ k t, exampleTwoJobs.activeTasks k = some t → Time.Sub 15 t.StartedAt ≤ 10 →
      (scanExpired 10 15 exampleTwoJobs.activeTasks ["r1", "c1"]).1 k = some t) ∧
    (∀ k, exampleTwoJobs.activeTasks k = none →
      (scanExpired 10 15 exampleTwoJobs.activeTasks ["r1", "c1"]).1 k = none) ∧
    (∀ d ∈ (scanExpired 10 15 exampleTwoJobs.activeTasks ["r1", "c1"]).2,
      ∀ k, (scanExpired 10 15 exampleTwoJobs.activeTasks ["r1", "c1"]).1 k ≠ some d) ∧
    (∀ k t, (scanExpired 10 15 exampleTwoJobs.activeTasks ["r1", "c1"]).1 k = some t →
      Time.Sub 15 t.StartedAt ≤ 10) ∧
    (minDuration ≤ 10 → 10 < maxDuration →
      ∀ u : Time, Time.Sub 15 u > 10 ↔ 15 - u > 10) :=
  C14_scan_collects_exactly_expired exampleTwoJobs.activeTasks 10 15 ["r1", "c1"]
    exampleTwoJobs_order

/-! ## C19 -/

theorem step_tasks {P : Type} (s : Sys P) (op : Op P) (t' : Task P)
    (h : InSys (step s op) t') :
    (∃ t, InSys s t ∧ Evolves s op t t') ∨
    (∃ payload jobID frameID taskID now, op = .enqueue payload jobID frameID taskID now ∧
      t' = { ID := taskID, JobID := jobID, FrameID := frameID, Payload := payload,
             CreatedAt := now, StartedAt := Time.zero, Retries := 0 }) := by
  have same : InSys s t' → (∃ t, InSys s t ∧ Evolves s op t t') ∨
      (∃ payload jobID frameID taskID now, op = .enqueue payload jobID frameID taskID now ∧
        t' = { ID := taskID, JobID := jobID, FrameID := frameID, Payload := payload,
               CreatedAt := now, StartedAt := Time.zero, Retries := 0 }) :=
    fun h0 => Or.inl ⟨t', h0, Or.inl rfl⟩
  cases op with
  | enqueue payload jobID frameID taskID now =>
    by_cases hroom : s.sched.taskQueue.length < s.sched.cap
    · simp only [step, EnqueueTask_room s.sched payload jobID frameID taskID now hroom,
        InSys] at h
      rcases h with h | h | h
      · rcases List.mem_append.mp h with h1 | h1
        · exact same (Or.inl h1)
        · exact Or.inr ⟨payload, jobID, frameID, taskID, now, rfl, List.mem_singleton.mp h1⟩
      · exact same (Or.inr (Or.inl h))
      · exact same (Or.inr (Or.inr h))
    · simp only [step, EnqueueTask_full s.sched payload jobID frameID taskID now
        (Nat.not_lt.mp hroom)] at h
      exact same h
  | getNext ctxErr pick now =>
    rcases GetNextTask_cases s.sched ctxErr pick now with ⟨head, tail, hq, heq⟩ |
      ⟨e, _, heq⟩ | ⟨_, _, heq⟩
    · simp only [step, heq, InSys] at h
      rcases h with h | h | ⟨k, h⟩
      · exact same (Or.inl (by rw [hq]; exact List.mem_cons_of_mem _ h))
      · exact same (Or.inr (Or.inl h))
      · simp only [Registry.insert] at h
        split at h
        · cases h
          exact Or.inl ⟨head, Or.inl (by rw [hq]; exact List.mem_cons_self _ _),
            Or.inr (Or.inl ⟨ctxErr, pick, now, rfl, by rw [hq]; rfl, rfl⟩)⟩
        · exact same (Or.inr (Or.inr ⟨k, h⟩))
    · simp only [step, heq] at h; exact same h
    · simp only [step, heq] at h; exact same h
  | complete taskID =>
    obtain ⟨hq, _, hself, hother⟩ := MarkTaskComplete_sub s.sched taskID
    simp only [step, InSys, hq] at h
    rcases h with h | h | ⟨k, h⟩
    · exact same (Or.inl h)
    · exact same (Or.inr (Or.inl h))
    · by_cases hk : k = taskID
      · subst hk; rw [hself] at h; cases h
      · rw [hother k hk] at h
        exact same (Or.inr (Or.inr ⟨k, h⟩))
  | requeue taskID now =>
    cases hact : s.sched.activeTasks taskID with
    | none =>
      simp only [step, RequeueTask_none s.sched taskID now hact] at h
      exact same h
    | some t =>
      simp only [step, RequeueTask_some s.sched taskID now t hact, InSys] at h
      rcases h with h | h | ⟨k, h⟩
      · exact same (Or.inl h)
      · rcases List.mem_append.mp h with h1 | h1
        · exact same (Or.inr (Or.inl h1))
        · exact Or.inl ⟨t, Or.inr (Or.inr ⟨taskID, hact⟩),
            Or.inr (Or.inr (Or.inl ⟨taskID, now, rfl, hact, List.mem_singleton.mp h1⟩))⟩
      · exact same (Or.inr (Or.inr ⟨k, (Registry.delete_eq_some _ _ _ _ h).2⟩))
  | requeuePush i =>
    cases hget : s.spawned.get? i with
    | none =>
      simp only [step, hget] at h
      exact same h
    | some t =>
      have hperm := perm_cons_eraseIdx s.spawned i t hget
      have hsub : ∀ u, u ∈ s.spawned.eraseIdx i → u ∈ s.spawned :=
        fun u hu => (List.eraseIdx_sublist _ _).subset hu
      by_cases hroom : s.sched.taskQueue.length < s.sched.cap
      · simp only [step, hget, requeuePush_room s.sched t hroom, InSys] at h
        rcases h with h | h | h
        · rcases List.mem_append.mp h with h1 | h1
          · exact same (Or.inl h1)
          · have ht : t' = t := List.mem_singleton.mp h1
            subst ht
            exact same (Or.inr (Or.inl (hperm.mem_iff.mpr (List.mem_cons_self _ _))))
        · exact same (Or.inr (Or.inl (hsub _ h)))
        · exact same (Or.inr (Or.inr h))
      · simp only [step, hget, requeuePush_full s.sched t (Nat.not_lt.mp hroom), InSys] at h
        rcases h with h | h | h
        · exact same (Or.inl h)
        · exact same (Or.inr (Or.inl (hsub _ h)))
        · exact same (Or.inr (Or.inr h))
  | sweep timeout now order =>
    obtain ⟨pushed, hsub, hle, heq⟩ := sweep_spec s.sched timeout now order
    simp only [step, heq, InSys] at h
    rcases h with h | h | ⟨k, h⟩
    · rcases List.mem_append.mp h with h1 | h1
      · exact same (Or.inl h1)
      · obtain ⟨d, hd, rfl⟩ := List.mem_map.mp (hsub.subset h1)
        obtain ⟨k, _, hact, hexp, _⟩ := scanExpired_dead timeout now order _ d hd
        exact Or.inl ⟨d, Or.inr (Or.inr ⟨k, hact⟩),
          Or.inr (Or.inr (Or.inr ⟨timeout, now, order, rfl, ⟨k, hact⟩, hexp, rfl,
            hle _ h1⟩))⟩
    · exact same (Or.inr (Or.inl h))
    · exact same (Or.inr (Or.inr ⟨k, scanExpired_sub timeout now order _ k _ h⟩))
  | purge jobID order =>
    simp only [step, PurgeJobTasks, InSys] at h
    rcases h with h | h | ⟨k, h⟩
    · exact same (Or.inl h)
    · exact same (Or.inr (Or.inl h))
    · exact same (Or.inr (Or.inr ⟨k, purgeLoop_sub jobID order _ k _ h⟩))
  | queueLength => exact same h

theorem wrapInt32_of_small (x : Int) (h0 : -2147483648 ≤ x) (h1 : x < 2147483648) :
    wrapInt32 x = x := by
  unfold wrapInt32
  norm_num
  omega

theorem RetryBound_step {P : Type} (s : Sys P) (op : Op P) (h : RetryBound s) :
    RetryBound (step s op) := by
  intro t' ht'
  rcases step_tasks s op t' ht' with ⟨t, ht, hev⟩ | ⟨_, _, _, _, _, _, rfl⟩
  · obtain ⟨h0, h3⟩ := h t ht
    rcases hev with rfl | ⟨_, _, _, _, _, rfl⟩ | ⟨_, _, _, _, rfl⟩ |
      ⟨_, _, _, _, _, _, rfl, hle⟩
    · exact ⟨h0, h3⟩
    · exact ⟨h0, h3⟩
    · exact ⟨h0, h3⟩
    · refine ⟨?_, hle⟩
      show 0 ≤ wrapInt32 (t.Retries + 1)
      rw [wrapInt32_of_small _ (by omega) (by omega)]
      omega
  · exact ⟨le_refl _, show (0 : Int) ≤ 3 from by decide⟩

theorem RetryBound_run {P : Type} (ops : List (Op P)) :
    ∀ s : Sys P, RetryBound s → RetryBound (run s ops) := by
  induction ops with
  | nil => intro s h; exact h
  | cons op rest ih => intro s h; exact ih _ (RetryBound_step s op h)

theorem RetryBound_of_Reachable {P : Type} (maxQueueSize : Int) (s : Sys P)
    (h : Reachable maxQueueSize s) : RetryBound s := by
  obtain ⟨s0, ops, hnew, _, rfl⟩ := h
  apply RetryBound_run
  intro t ht
  unfold NewScheduler at hnew
  split at hnew
  · cases hnew
  · cases hnew
    rcases ht with h | h | ⟨k, h⟩
    · cases h
    · cases h
    · cases h

theorem InSys_unique {P : Type} (s : Sys P) (hinv : Inv s) (t u : Task P)
    (ht : InSys s t) (hu : InSys s u) (hid : t.ID = u.ID) : t = u := by
  have hlist : ∀ a b : Task P, a ∈ s.sched.taskQueue ++ s.spawned →
      b ∈ s.sched.taskQueue ++ s.spawned → a.ID = b.ID → a = b :=
    fun a b ha hb hab => List.inj_on_of_nodup_map hinv.nodup ha hb hab
  have hcross : ∀ a b : Task P, a ∈ s.sched.taskQueue ++ s.spawned →
      (∃ k, s.sched.activeTasks k = some b) → a.ID = b.ID → False := by
    intro a b ha ⟨k, hk⟩ hab
    have hkey := hinv.key k b hk
    exact hinv.disjoint k b hk ((mem_taskIDs _ _).mpr ⟨a, ha, by rw [hab, hkey]⟩)
  have hmem : ∀ a : Task P, a ∈ s.sched.taskQueue ∨ a ∈ s.spawned →
      a ∈ s.sched.taskQueue ++ s.spawned := fun a h => List.mem_append.mpr h
  rcases ht with h1 | h1 | h1
  · rcases hu with h2 | h2 | h2
    · exact hlist t u (hmem t (Or.inl h1)) (hmem u (Or.inl h2)) hid
    · exact hlist t u (hmem t (Or.inl h1)) (hmem u (Or.inr h2)) hid
    · exact (hcross t u (hmem t (Or.inl h1)) h2 hid).elim
  · rcases hu with h2 | h2 | h2
    · exact hlist t u (hmem t (Or.inr h1)) (hmem u (Or.inl h2)) hid
    · exact hlist t u (hmem t (Or.inr h1)) (hmem u (Or.inr h2)) hid
    · exact (hcross t u (hmem t (Or.inr h1)) h2 hid).elim
  · rcases hu with h2 | h2 | h2
    · exact (hcross u t (hmem u (Or.inl h2)) h1 hid.symm).elim
    · exact (hcross u t (hmem u (Or.inr h2)) h1 hid.symm).elim
    · obtain ⟨k1, hk1⟩ := h1
      obtain ⟨k2, hk2⟩ := h2
      have e1 := hinv.key k1 t hk1
      have e2 := hinv.key k2 u hk2
      have : k1 = k2 := by rw [← e1, ← e2, hid]
      subst this
      rw [hk1] at hk2
      exact Option.some.inj hk2

theorem InSys_issued {P : Type} (s : Sys P) (hinv : Inv s) (t : Task P) (ht : InSys s t) :
    t.ID ∈ s.issued := by
  rcases ht with h | h | ⟨k, h⟩
  · exact hinv.pendingIssued _
      ((mem_taskIDs _ _).mpr ⟨t, List.mem_append_left _ h, rfl⟩)
  · exact hinv.pendingIssued _
      ((mem_taskIDs _ _).mpr ⟨t, List.mem_append_right _ h, rfl⟩)
  · have := hinv.key k t h
    rw [this]
    exact hinv.activeIssued k t h

theorem step_tasks_same_id {P : Type} (s : Sys P) (op : Op P) (t t' : Task P)
    (hinv : Inv s) (hadm : admissible s op) (ht : InSys s t) (ht' : InSys (step s op) t')
    (hid : t'.ID = t.ID) : Evolves s op t t' := by
  rcases step_tasks s op t' ht' with ⟨t0, ht0, hev⟩ | ⟨payload, jobID, frameID, taskID, now, rfl, rfl⟩
  · have hid0 : t0.ID = t'.ID := by
      rcases hev with rfl | ⟨_, _, _, _, _, rfl⟩ | ⟨_, _, _, _, rfl⟩ |
        ⟨_, _, _, _, _, _, rfl, _⟩ <;> rfl
    have := InSys_unique s hinv t0 t ht0 ht (hid0.trans hid)
    subst this
    exact hev
  · exact absurd (InSys_issued s hinv t ht) (by rw [← hid]; exact hadm)

/-! ## C17 -/

/-- C17: in a reachable state, every task the scheduler holds after an
operation is either the task an EnqueueTask call has just built, under an id
no held task had, or comes from a task held before with the same ID, JobID,
FrameID and Payload, from which it differs in nothing or in exactly one of
StartedAt (set by GetNextTask), CreatedAt (set by RequeueTask) or Retries
(incremented by a sweep). Ids identify the held tasks before and after, so
the task with a given id after the operation is the task with that id before
it, with those four fields unchanged; and every task held before is either
still held, under the same id, or no task with its id is left. -/
theorem C17_identity_fields_frame {P : Type} (maxQueueSize : Int) (s : Sys P) (op : Op P)
    (hreach : Reachable maxQueueSize s) (hadm : admissible s op) :
    (∀ t', InSys (step s op) t' →
      (∃ t, InSys s t ∧
        t'.ID = t.ID ∧ t'.JobID = t.JobID ∧ t'.FrameID = t.FrameID ∧ t'.Payload = t.Payload ∧
        (t' = t ∨
          (∃ ctxErr pick now, op = .getNext ctxErr pick now ∧
            t' = { t with StartedAt := now }) ∨
          (∃ taskID now, op = .requeue taskID now ∧ t' = { t with CreatedAt := now }) ∨
          (∃ timeout now order, op = .sweep timeout now order ∧
            t' = { t with Retries := t.Retries + 1 }))) ∨
      (∃ payload jobID frameID taskID now,
        op = .enqueue payload jobID frameID taskID now ∧
        t' = { ID := taskID, JobID := jobID, FrameID := frameID, Payload := payload,
               CreatedAt := now, StartedAt := Time.zero, Retries := 0 } ∧
        ∀ t, InSys s t → t.ID ≠ taskID)) ∧
    (∀ t u, InSys s t → InSys s u → t.ID = u.ID → t = u) ∧
    (∀ t' u', InSys (step s op) t' → InSys (step s op) u' → t'.ID = u'.ID → t' = u') ∧
    (∀ t t', InSys s t → InSys (step s op) t' → t'.ID = t.ID →
      t'.JobID = t.JobID ∧ t'.FrameID = t.FrameID ∧ t'.Payload = t.Payload ∧
      (t' = t ∨
        (∃ ctxErr pick now, op = .getNext ctxErr pick now ∧ t' = { t with StartedAt := now }) ∨
        (∃ taskID now, op = .requeue taskID now ∧ t' = { t with CreatedAt := now }) ∨
        (∃ timeout now order, op = .sweep timeout now order ∧
          t' = { t with Retries := t.Retries + 1 }))) ∧
    (∀ t, InSys s t →
      (∃ t', InSys (step s op) t' ∧
        t'.ID = t.ID ∧ t'.JobID = t.JobID ∧ t'.FrameID = t.FrameID ∧ t'.Payload = t.Payload) ∨
      (∀ t', InSys (step s op) t' → t'.ID ≠ t.ID)) := by
  have hinv := Inv_of_Reachable maxQueueSize s hreach
  have hinv' := Inv_step s op hinv hadm
  have hrb := RetryBound_of_Reachable maxQueueSize s hreach
  have frame : ∀ t t', InSys s t → Evolves s op t t' →
      t'.ID = t.ID ∧ t'.JobID = t.JobID ∧ t'.FrameID = t.FrameID ∧ t'.Payload = t.Payload ∧
      (t' = t ∨
        (∃ ctxErr pick now, op = .getNext ctxErr pick now ∧ t' = { t with StartedAt := now }) ∨
        (∃ taskID now, op = .requeue taskID now ∧ t' = { t with CreatedAt := now }) ∨
        (∃ timeout now order, op = .sweep timeout now order ∧
          t' = { t with Retries := t.Retries + 1 })) := by
    intro t t' ht hev
    have hbound := hrb t ht
    rcases hev with rfl | ⟨c, p, now, hop, _, rfl⟩ | ⟨k, now, hop, _, rfl⟩ |
      ⟨tmo, now, order, hop, _, _, rfl, _⟩
    · exact ⟨rfl, rfl, rfl, rfl, Or.inl rfl⟩
    · exact ⟨rfl, rfl, rfl, rfl, Or.inr (Or.inl ⟨c, p, now, hop, rfl⟩)⟩
    · exact ⟨rfl, rfl, rfl, rfl, Or.inr (Or.inr (Or.inl ⟨k, now, hop, rfl⟩))⟩
    · refine ⟨rfl, rfl, rfl, rfl, Or.inr (Or.inr (Or.inr ⟨tmo, now, order, hop, ?_⟩))⟩
      unfold bumpRetries
      rw [wrapInt32_of_small _ (by omega) (by omega)]
  refine ⟨?_, ?_, ?_, ?_, ?_⟩
  · intro t' ht'
    rcases step_tasks s op t' ht' with ⟨t, ht, hev⟩ |
      ⟨payload, jobID, frameID, taskID, now, rfl, rfl⟩
    · exact Or.inl ⟨t, ht, frame t t' ht hev⟩
    · refine Or.inr ⟨payload, jobID, frameID, taskID, now, rfl, rfl, ?_⟩
      intro t ht hid
      exact hadm (hid ▸ InSys_issued s hinv t ht)
  · exact fun t u ht hu hid => InSys_unique s hinv t u ht hu hid
  · exact fun t' u' ht' hu' hid => InSys_unique (step s op) hinv' t' u' ht' hu' hid
  · intro t t' ht ht' hid
    exact (frame t t' ht (step_tasks_same_id s op t t' hinv hadm ht ht' hid)).2
  · intro t ht
    by_cases hkept : ∃ t', InSys (step s op) t' ∧ t'.ID = t.ID
    · obtain ⟨t', ht', hid⟩ := hkept
      obtain ⟨h1, h2, h3, h4, _⟩ :=
        frame t t' ht (step_tasks_same_id s op t t' hinv hadm ht ht' hid)
      exact Or.inl ⟨t', ht', h1, h2, h3, h4⟩
    · exact Or.inr (fun t' ht' hid => hkept ⟨t', ht', hid⟩)

/-- C17 on the state where task "a" is active, for RequeueTask("a") at time 9:
the task handed to the spawned push has the ID, JobID, FrameID and Payload of
the active task and differs from it in CreatedAt only. -/
theorem C17_identity_fields_frame_witness :
    ((∀ t', InSys (step exampleDispatched (.requeue "a" 9)) t' →
      (∃ t, InSys exampleDispatched t ∧
        t'.ID = t.ID ∧ t'.JobID = t.JobID ∧ t'.FrameID = t.FrameID ∧ t'.Payload = t.Payload ∧
        (t' = t ∨
          (∃ ctxErr pick now, (Op.requeue "a" 9 : Op Nat) = .getNext ctxErr pick now ∧
            t' = { t with StartedAt := now }) ∨
          (∃ taskID now, (Op.requeue "a" 9 : Op Nat) = .requeue taskID now ∧
            t' = { t with CreatedAt := now }) ∨
          (∃ timeout now order, (Op.requeue "a" 9 : Op Nat) = .sweep timeout now order ∧
            t' = { t with Retries := t.Retries + 1 }))) ∨
      (∃ payload jobID frameID taskID now,
        (Op.requeue "a" 9 : Op Nat) = .enqueue payload jobID frameID taskID now ∧
        t' = { ID := taskID, JobID := jobID, FrameID := frameID, Payload := payload,
               CreatedAt := now, StartedAt := Time.zero, Retries := 0 } ∧
        ∀ t, InSys exampleDispatched t → t.ID ≠ taskID)) ∧
    (∀ t u, InSys exampleDispatched t → InSys exampleDispatched u → t.ID = u.ID → t = u) ∧
    (∀ t' u', InSys (step exampleDispatched (.requeue "a" 9)) t' →
      InSys (step exampleDispatched (.requeue "a" 9)) u' → t'.ID = u'.ID → t' = u') ∧
    (∀ t t', InSys exampleDispatched t →
      InSys (step exampleDispatched (.requeue "a" 9)) t' → t'.ID = t.ID →
      t'.JobID = t.JobID ∧ t'.FrameID = t.FrameID ∧ t'.Payload = t.Payload ∧
      (t' = t ∨
        (∃ ctxErr pick now, (Op.requeue "a" 9 : Op Nat) = .getNext ctxErr pick now ∧
          t' = { t with StartedAt := now }) ∨
        (∃ taskID now, (Op.requeue "a" 9 : Op Nat) = .requeue taskID now ∧
          t' = { t with CreatedAt := now }) ∨
        (∃ timeout now order, (Op.requeue "a" 9 : Op Nat) = .sweep timeout now order ∧
          t' = { t with Retries := t.Retries + 1 }))) ∧
    (∀ t, InSys exampleDispatched t →
      (∃ t', InSys (step exampleDispatched (.requeue "a" 9)) t' ∧
        t'.ID = t.ID ∧ t'.JobID = t.JobID ∧ t'.FrameID = t.FrameID ∧ t'.Payload = t.Payload) ∨
      (∀ t', InSys (step exampleDispatched (.requeue "a" 9)) t' → t'.ID ≠ t.ID))) ∧
    InSys exampleDispatched exampleActive ∧
    InSys (step exampleDispatched (.requeue "a" 9)) { exampleActive with CreatedAt := 9 } :=
  ⟨C17_identity_fields_frame 2 exampleDispatched (.requeue "a" 9)
     exampleDispatched_reachable trivial,
   Or.inr (Or.inr ⟨"a", rfl⟩), Or.inr (Or.inl (List.mem_singleton.mpr rfl))⟩

/-! ## C13 -/

theorem exampleDispatched_order :
    Enumerates ["a"] exampleDispatched.sched.activeTasks := by
  refine ⟨by decide, ?_⟩
  intro k
  by_cases hk : k = "a"
  · subst hk
    exact ⟨fun _ => by decide, fun _ => List.mem_singleton.mpr rfl⟩
  · have hnone : exampleDispatched.sched.activeTasks k = none := by
      show Registry.insert (fun _ => none) "a" _ k = none
      simp [Registry.insert, hk]
    simp [hnone, hk]

/-- C13: in a reachable state, for a task held before and after an
operation (the task after is the one with the same id), Retries after is at
least Retries before and is either equal or larger by exactly 1; it differs
only when the operation is a sweep that finds the task active and timed out,
and (when the range visits every key) such a sweep always yields Retries + 1.
Every task a sweep collects, pushed back or not, gets Retries + 1. A task
that appears with an EnqueueTask has Retries 0. -/
theorem C13_retries_monotone {P : Type} (maxQueueSize : Int) (s : Sys P) (op : Op P)
    (t t' : Task P) (hreach : Reachable maxQueueSize s) (hadm : admissible s op)
    (ht : InSys s t) (ht' : InSys (step s op) t') (hid : t'.ID = t.ID) :
    t.Retries ≤ t'.Retries ∧
    (t'.Retries = t.Retries ∨ t'.Retries = t.Retries + 1) ∧
    (t'.Retries ≠ t.Retries →
      ∃ timeout now order, op = .sweep timeout now order ∧
        (∃ k, s.sched.activeTasks k = some t) ∧ Time.Sub now t.StartedAt > timeout) ∧
    (∀ timeout now order, op = .sweep timeout now order →
      (∃ k, s.sched.activeTasks k = some t) → Time.Sub now t.StartedAt > timeout →
      t'.Retries = t.Retries + 1) ∧
    (∀ timeout now order, ∀ d ∈ (scanExpired timeout now s.sched.activeTasks order).2,
      (bumpRetries d).Retries = d.Retries + 1) ∧
    (∀ payload jobID frameID taskID now u,
      InSys (step s (.enqueue payload jobID frameID taskID now)) u → ¬ InSys s u →
      u.Retries = 0) := by
  have hinv := Inv_of_Reachable maxQueueSize s hreach
  have hrb := RetryBound_of_Reachable maxQueueSize s hreach
  have hbump : ∀ d : Task P, InSys s d → (bumpRetries d).Retries = d.Retries + 1 := by
    intro d hd
    obtain ⟨h0, h3⟩ := hrb d hd
    show wrapInt32 (d.Retries + 1) = d.Retries + 1
    exact wrapInt32_of_small _ (by omega) (by omega)
  have hev := step_tasks_same_id s op t t' hinv hadm ht ht' hid
  have hcases : t' = t ∨ ∃ timeout now order, op = .sweep timeout now order ∧
      (∃ k, s.sched.activeTasks k = some t) ∧ Time.Sub now t.StartedAt > timeout ∧
      t' = bumpRetries t ∨ t'.Retries = t.Retries ∧ ∀ timeout now order,
        op ≠ .sweep timeout now order := by
    rcases hev with rfl | ⟨c, p, now, hop, _, rfl⟩ | ⟨k, now, hop, _, rfl⟩ |
      ⟨tmo, now, order, hop, hact, hexp, rfl, _⟩
    · exact Or.inl rfl
    · exact Or.inr ⟨0, 0, [], Or.inr ⟨rfl, fun _ _ _ h => by rw [hop] at h; cases h⟩⟩
    · exact Or.inr ⟨0, 0, [], Or.inr ⟨rfl, fun _ _ _ h => by rw [hop] at h; cases h⟩⟩
    · exact Or.inr ⟨tmo, now, order, Or.inl ⟨hop, hact, hexp, rfl⟩⟩
  refine ⟨?_, ?_, ?_, ?_, ?_, ?_⟩
  · rcases hcases with rfl | ⟨_, _, _, ⟨_, _, _, rfl⟩ | ⟨h, _⟩⟩
    · exact le_refl _
    · rw [hbump t ht]; omega
    · rw [h]
  · rcases hcases with rfl | ⟨_, _, _, ⟨_, _, _, rfl⟩ | ⟨h, _⟩⟩
    · exact Or.inl rfl
    · exact Or.inr (hbump t ht)
    · exact Or.inl h
  · intro hne
    rcases hcases with rfl | ⟨tmo, now, order, ⟨hop, hact, hexp, rfl⟩ | ⟨h, _⟩⟩
    · exact absurd rfl hne
    · exact ⟨tmo, now, order, hop, hact, hexp⟩
    · exact absurd h hne
  · intro timeout now order hop ⟨k, hact⟩ hexp
    subst hop
    rcases hcases with rfl | ⟨_, _, _, ⟨_, _, _, rfl⟩ | ⟨_, hno⟩⟩
    · exfalso
      have hkey := hinv.key k t' hact
      have hdis := hinv.disjoint k t' hact
      obtain ⟨pushed, hsub, _, heq⟩ := sweep_spec s.sched timeout now order
      obtain ⟨_, hreg⟩ := scanExpired_exact timeout now order s.sched.activeTasks hadm.2.2.1
      have hmem : k ∈ order := (hadm.2.2.2 k).mpr (by simp [hact])
      have hgone : (scanExpired timeout now s.sched.activeTasks order).1 k = none := by
        rw [hreg k, if_pos hmem, hact]
        simp [Option.filter, expired, hexp]
      simp only [step, heq, InSys] at ht'
      rcases ht' with h | h | ⟨k', h⟩
      · rcases List.mem_append.mp h with h1 | h1
        · exact hdis ((mem_taskIDs _ _).mpr ⟨t', List.mem_append_left _ h1, hkey⟩)
        · obtain ⟨d, hd, hdeq⟩ := List.mem_map.mp (hsub.subset h1)
          obtain ⟨kd, _, hdact, _, _⟩ := scanExpired_dead timeout now order _ d hd
          have hdin : InSys s d := Or.inr (Or.inr ⟨kd, hdact⟩)
          have hdt : d = t' := InSys_unique s hinv d t' hdin ht (by rw [← hdeq]; rfl)
          subst hdt
          have h1' := hbump d ht
          rw [hdeq] at h1'
          omega
      · exact hdis ((mem_taskIDs _ _).mpr ⟨t', List.mem_append_right _ h, hkey⟩)
      · have h' := scanExpired_sub timeout now order _ k' t' h
        have hk' := hinv.key k' t' h'
        rw [← hk', hkey, hgone] at h
        cases h
    · exact hbump t ht
    · exact absurd rfl (hno timeout now order)
  · intro timeout now order d hd
    obtain ⟨k, _, hact, _, _⟩ := scanExpired_dead timeout now order _ d hd
    exact hbump d (Or.inr (Or.inr ⟨k, hact⟩))
  · intro payload jobID frameID taskID now u hu hnot
    rcases step_tasks s _ u hu with ⟨u0, hu0, hev0⟩ | ⟨_, _, _, _, _, _, rfl⟩
    · rcases hev0 with rfl | ⟨_, _, _, hop, _⟩ | ⟨_, _, hop, _⟩ | ⟨_, _, _, hop, _⟩
      · exact absurd hu0 hnot
      · cases hop
      · cases hop
      · cases hop
    · rfl

/-- C13 on the state where task "a" is active since time 5, for a sweep at
time 100 with timeout 10: the task is pushed back with Retries 1. -/
theorem C13_retries_monotone_witness :
    exampleActive.Retries ≤ (bumpRetries exampleActive).Retries ∧
    ((bumpRetries exampleActive).Retries = exampleActive.Retries ∨
      (bumpRetries exampleActive).Retries = exampleActive.Retries + 1) ∧
    ((bumpRetries exampleActive).Retries ≠ exampleActive.Retries →
      ∃ timeout now order, (Op.sweep 10 100 ["a"] : Op Nat) = .sweep timeout now order ∧
        (∃ k, exampleDispatched.sched.activeTasks k = some exampleActive) ∧
        Time.Sub now exampleActive.StartedAt > timeout) ∧
    (∀ timeout now order, (Op.sweep 10 100 ["a"] : Op Nat) = .sweep timeout now order →
      (∃ k, exampleDispatched.sched.activeTasks k = some exampleActive) →
      Time.Sub now exampleActive.StartedAt > timeout →
      (bumpRetries exampleActive).Retries = exampleActive.Retries + 1) ∧
    (∀ timeout now order,
      ∀ d ∈ (scanExpired timeout now exampleDispatched.sched.activeTasks order).2,
        (bumpRetries d).Retries = d.Retries + 1) ∧
    (∀ payload jobID frameID taskID now u,
      InSys (step exampleDispatched (.enqueue payload jobID frameID taskID now)) u →
      ¬ InSys exampleDispatched u → u.Retries = 0) :=
  C13_retries_monotone 2 exampleDispatched (.sweep 10 100 ["a"]) exampleActive
    (bumpRetries exampleActive) exampleDispatched_reachable
    ⟨by decide, by decide, exampleDispatched_order⟩
    (Or.inr (Or.inr ⟨"a", rfl⟩)) (Or.inl (by decide)) rfl

/-! ## C12 -/

theorem requeueDead_dropped_report {P : Type} (dead : List (Task P)) :
    ∀ (s : Scheduler P) (d : Task P), d ∈ dead → (bumpRetries d).Retries > 3 →
      SweepReport.dropped d.ID (bumpRetries d).Retries ∈ (requeueDead s dead).2 := by
  induction dead with
  | nil => intro s d hd; cases hd
  | cons task rest ih =>
    intro s d hd hgt
    by_cases hret : (bumpRetries task).Retries > 3
    · rw [requeueDead_cons_dropped s task rest hret]
      rcases List.mem_cons.mp hd with rfl | h
      · exact List.mem_cons_self _ _
      · exact List.mem_cons_of_mem _ (ih s d h hgt)
    · have hne : d ≠ task := fun h => hret (h ▸ hgt)
      have hrest : d ∈ rest := by
        rcases List.mem_cons.mp hd with h | h
        · exact absurd h hne
        · exact h
      by_cases hroom : s.taskQueue.length < s.cap
      · rw [requeueDead_cons_pushed s task rest hret hroom]
        exact List.mem_cons_of_mem _ (ih _ d hrest hgt)
      · rw [requeueDead_cons_lost s task rest hret (Nat.not_lt.mp hroom)]
        exact List.mem_cons_of_mem _ (ih s d hrest hgt)

/-- C12: in a reachable state, a task the sweep collects whose incremented
Retries exceeds 3 is reported as dropped and after the sweep no task with its
id is pending, spawned or active; in any state whatsoever a task in the queue
after a sweep was pending before or has Retries at most 3. Hence in every
reachable state every pending task has Retries at most 3 and so has every
task GetNextTask returns. -/
theorem C12_over_budget_never_requeued {P : Type} (maxQueueSize : Int) (s : Sys P)
    (hreach : Reachable maxQueueSize s) :
    (∀ timeout now order, ∀ d ∈ (scanExpired timeout now s.sched.activeTasks order).2,
      (bumpRetries d).Retries > 3 →
        SweepReport.dropped d.ID (bumpRetries d).Retries ∈
          (sweep s.sched timeout now order).2 ∧
        Gone d.ID (step s (.sweep timeout now order))) ∧
    (∀ (sch : Scheduler P) timeout now order, ∀ t ∈ (sweep sch timeout now order).1.taskQueue,
      t ∈ sch.taskQueue ∨ t.Retries ≤ 3) ∧
    (∀ t ∈ s.sched.taskQueue, t.Retries ≤ 3) ∧
    (∀ ctxErr pick now u, (GetNextTask s.sched ctxErr pick now).2 = .task u →
      u.Retries ≤ 3) := by
  have hinv := Inv_of_Reachable maxQueueSize s hreach
  have hrb := RetryBound_of_Reachable maxQueueSize s hreach
  refine ⟨?_, ?_, ?_, ?_⟩
  · intro timeout now order d hd hgt
    refine ⟨requeueDead_dropped_report _ _ d hd hgt, ?_⟩
    obtain ⟨k, _, hact, _, hnone⟩ := scanExpired_dead timeout now order _ d hd
    have hkey := hinv.key k d hact
    have hdis := hinv.disjoint k d hact
    rw [taskIDs_append, List.mem_append, not_or] at hdis
    obtain ⟨pushed, hsub, hle, heq⟩ := sweep_spec s.sched timeout now order
    simp only [step, heq]
    refine ⟨?_, ?_, ?_⟩
    · rw [taskIDs_append, List.mem_append, not_or]
      refine ⟨by rw [hkey]; exact hdis.1, ?_⟩
      intro hmem
      obtain ⟨p, hp, hpid⟩ := (mem_taskIDs _ _).mp hmem
      obtain ⟨d', hd', rfl⟩ := List.mem_map.mp (hsub.subset hp)
      obtain ⟨k', _, hact', _, _⟩ := scanExpired_dead timeout now order _ d' hd'
      have : d' = d := InSys_unique s hinv d' d (Or.inr (Or.inr ⟨k', hact'⟩))
        (Or.inr (Or.inr ⟨k, hact⟩)) hpid
      subst this
      exact absurd (hle _ hp) (not_le.mpr hgt)
    · rw [hkey]; exact hdis.2
    · intro k' t' hk' hid
      have hact' := scanExpired_sub timeout now order _ k' t' hk'
      have hkey' := hinv.key k' t' hact'
      have hkk : k' = k := by rw [← hkey', hid, hkey]
      subst hkk
      have hk'' : (scanExpired timeout now s.sched.activeTasks order).1 k' = some t' := hk'
      rw [hnone] at hk''
      cases hk''
  · intro sch timeout now order t ht
    obtain ⟨pushed, _, hle, heq⟩ := sweep_spec sch timeout now order
    rw [heq] at ht
    rcases List.mem_append.mp ht with h | h
    · exact Or.inl h
    · exact Or.inr (hle t h)
  · exact fun t ht => (hrb t (Or.inl ht)).2
  · intro ctxErr pick now u hres
    obtain ⟨head, tail, hq, rfl, _⟩ := GetNextTask_task s.sched ctxErr pick now u hres
    exact (hrb head (Or.inl (by rw [hq]; exact List.mem_cons_self _ _))).2

theorem enumerates_single {P : Type} (m : Registry P) (id : String) (h1 : m id ≠ none)
    (h2 : ∀ k, k ≠ id → m k = none) : Enumerates [id] m := by
  refine ⟨List.nodup_singleton _, ?_⟩
  intro k
  by_cases hk : k = id
  · subst hk
    exact ⟨fun _ => h1, fun _ => List.mem_singleton.mpr rfl⟩
  · exact ⟨fun h => absurd (List.mem_singleton.mp h) hk, fun h => absurd (h2 k hk) h⟩

theorem exampleThreeSweeps_admissible : admissibleRun exampleInit exampleThreeSweeps := by
  refine ⟨?_, trivial, ⟨by decide, by decide, ?_⟩, trivial, ⟨by decide, by decide, ?_⟩,
    trivial, ⟨by decide, by decide, ?_⟩, trivial, trivial⟩
  · show "a" ∉ []
    decide
  · refine enumerates_single _ "a" (by decide) ?_
    intro k hk
    show Registry.insert (fun _ => none) "a" _ k = none
    simp [Registry.insert, hk]
  · refine enumerates_single _ "a" (by decide) ?_
    intro k hk
    show Registry.insert (Registry.delete (Registry.insert (fun _ => none) "a" _) "a") "a" _ k
      = none
    simp [Registry.insert, Registry.delete, hk]
  · refine enumerates_single _ "a" (by decide) ?_
    intro k hk
    show Registry.insert (Registry.delete (Registry.insert
      (Registry.delete (Registry.insert (fun _ => none) "a" _) "a") "a" _) "a") "a" _ k = none
    simp [Registry.insert, Registry.delete, hk]

theorem exampleLastChance_reachable : Reachable 2 exampleLastChance :=
  ⟨{ cap := 2, taskQueue := [], activeTasks := fun _ => none }, exampleThreeSweeps,
    rfl, exampleThreeSweeps_admissible, rfl⟩

set_option maxRecDepth 8192 in
theorem exampleLastChance_order :
    Enumerates ["a"] exampleLastChance.sched.activeTasks := by
  refine enumerates_single _ "a" (by decide) ?_
  intro k hk
  show Registry.insert (Registry.delete (Registry.insert (Registry.delete (Registry.insert
    (Registry.delete (Registry.insert (fun _ => none) "a" _) "a") "a" _) "a") "a" _) "a")
    "a" _ k = none
  simp [Registry.insert, Registry.delete, hk]

set_option maxRecDepth 8192 in
/-- C12 on the reachable state where task "a" is active with Retries 3, with
the sweep at 280ms (timeout 50ms) that collects it: it is reported dropped
with Retries 4 and is gone afterwards. -/
theorem C12_over_budget_never_requeued_witness :
    ((∀ timeout now order,
      ∀ d ∈ (scanExpired timeout now exampleLastChance.sched.activeTasks order).2,
      (bumpRetries d).Retries > 3 →
        SweepReport.dropped d.ID (bumpRetries d).Retries ∈
          (sweep exampleLastChance.sched timeout now order).2 ∧
        Gone d.ID (step exampleLastChance (.sweep timeout now order))) ∧
    (∀ (sch : Scheduler Nat) timeout now order,
      ∀ t ∈ (sweep sch timeout now order).1.taskQueue, t ∈ sch.taskQueue ∨ t.Retries ≤ 3) ∧
    (∀ t ∈ exampleLastChance.sched.taskQueue, t.Retries ≤ 3) ∧
    (∀ ctxErr pick now u,
      (GetNextTask exampleLastChance.sched ctxErr pick now).2 = .task u → u.Retries ≤ 3)) ∧
    (SweepReport.dropped exampleLastTask.ID (bumpRetries exampleLastTask).Retries ∈
        (sweep exampleLastChance.sched ms50 280000000 ["a"]).2 ∧
      Gone exampleLastTask.ID (step exampleLastChance (.sweep ms50 280000000 ["a"]))) :=
  ⟨C12_over_budget_never_requeued 2 exampleLastChance exampleLastChance_reachable,
   (C12_over_budget_never_requeued 2 exampleLastChance exampleLastChance_reachable).1
     ms50 280000000 ["a"] exampleLastTask (by decide) (by decide)⟩

/-! ## C16 -/

theorem step_issued {P : Type} (s : Sys P) (op : Op P) (id : String) (h : id ∈ s.issued) :
    id ∈ (step s op).issued := by
  cases op with
  | enqueue payload jobID frameID taskID now => exact List.mem_cons_of_mem _ h
  | getNext ctxErr pick now => exact h
  | complete taskID => exact h
  | requeue taskID now =>
    simp only [step]
    split <;> exact h
  | requeuePush i =>
    simp only [step]
    split <;> exact h
  | sweep timeout now order => exact h
  | purge jobID order => exact h
  | queueLength => exact h

theorem notPending_step {P : Type} (id : String) (s : Sys P) (op : Op P) (hinv : Inv s)
    (hadm : admissible s op) (hrec : ¬ reclaims id s op) (hiss : id ∈ s.issued)
    (hq : id ∉ taskIDs s.sched.taskQueue) (hsp : id ∉ taskIDs s.spawned) :
    id ∈ (step s op).issued ∧ id ∉ taskIDs (step s op).sched.taskQueue ∧
      id ∉ taskIDs (step s op).spawned := by
  refine ⟨step_issued s op id hiss, ?_⟩
  cases op with
  | enqueue payload jobID frameID taskID now =>
    have hne : taskID ≠ id := fun h => hadm (h ▸ hiss)
    by_cases hroom : s.sched.taskQueue.length < s.sched.cap
    · simp only [step, EnqueueTask_room s.sched payload jobID frameID taskID now hroom]
      refine ⟨?_, hsp⟩
      rw [taskIDs_append]
      simp only [taskIDs, List.map_cons, List.map_nil, List.mem_append, List.mem_singleton]
      rintro (h | h)
      · exact hq h
      · exact hne h.symm
    · simp only [step, EnqueueTask_full s.sched payload jobID frameID taskID now
        (Nat.not_lt.mp hroom)]
      exact ⟨hq, hsp⟩
  | getNext ctxErr pick now =>
    rcases GetNextTask_cases s.sched ctxErr pick now with ⟨head, tail, hqueue, heq⟩ |
      ⟨e, _, heq⟩ | ⟨_, _, heq⟩
    · simp only [step, heq]
      rw [hqueue] at hq
      simp only [taskIDs, List.map_cons, List.mem_cons, not_or] at hq
      exact ⟨hq.2, hsp⟩
    · simp only [step, heq]; exact ⟨hq, hsp⟩
    · simp only [step, heq]; exact ⟨hq, hsp⟩
  | complete taskID =>
    simp only [step, (MarkTaskComplete_sub s.sched taskID).1]
    exact ⟨hq, hsp⟩
  | requeue taskID now =>
    cases h : s.sched.activeTasks taskID with
    | none =>
      simp only [step, RequeueTask_none s.sched taskID now h]
      exact ⟨hq, hsp⟩
    | some t =>
      simp only [step, RequeueTask_some s.sched taskID now t h]
      refine ⟨hq, ?_⟩
      rw [taskIDs_append]
      simp only [taskIDs, List.map_cons, List.map_nil, List.mem_append, List.mem_singleton]
      rintro (h2 | h2)
      · exact hsp h2
      · have hkey : t.ID = taskID := hinv.key taskID t h
        exact hrec (show taskID = id from hkey.symm.trans h2.symm)
  | requeuePush i =>
    cases h : s.spawned.get? i with
    | none =>
      simp only [step, h]
      exact ⟨hq, hsp⟩
    | some t =>
      have hperm := perm_cons_eraseIdx s.spawned i t h
      have ht : t.ID ≠ id := fun h2 =>
        hsp ((mem_taskIDs _ _).mpr ⟨t, hperm.mem_iff.mpr (List.mem_cons_self _ _), h2⟩)
      have hsp' : id ∉ taskIDs (s.spawned.eraseIdx i) := fun hmem => by
        obtain ⟨u, hu, hid⟩ := (mem_taskIDs _ _).mp hmem
        exact hsp ((mem_taskIDs _ _).mpr ⟨u, (List.eraseIdx_sublist _ _).subset hu, hid⟩)
      by_cases hroom : s.sched.taskQueue.length < s.sched.cap
      · simp only [step, h, requeuePush_room s.sched t hroom]
        refine ⟨?_, hsp'⟩
        rw [taskIDs_append]
        simp only [taskIDs, List.map_cons, List.map_nil, List.mem_append, List.mem_singleton]
        rintro (h2 | h2)
        · exact hq h2
        · exact ht h2.symm
      · simp only [step, h, requeuePush_full s.sched t (Nat.not_lt.mp hroom)]
        exact ⟨hq, hsp'⟩
  | sweep timeout now order =>
    obtain ⟨pushed, hsub, _, heq⟩ := sweep_spec s.sched timeout now order
    simp only [step, heq]
    refine ⟨?_, hsp⟩
    rw [taskIDs_append]
    intro hmem
    rcases List.mem_append.mp hmem with h | h
    · exact hq h
    · obtain ⟨u, hu, hid⟩ := (mem_taskIDs _ _).mp h
      obtain ⟨d, hd, rfl⟩ := List.mem_map.mp (hsub.subset hu)
      exact hrec ((mem_taskIDs _ _).mpr ⟨d, hd, hid⟩)
  | purge jobID order => exact ⟨hq, hsp⟩
  | queueLength => exact ⟨hq, hsp⟩

theorem notPending_run {P : Type} (id : String) (ops : List (Op P)) :
    ∀ s : Sys P, Inv s → admissibleRun s ops → neverReclaimed id s ops → id ∈ s.issued →
      id ∉ taskIDs s.sched.taskQueue → id ∉ taskIDs s.spawned →
      id ∉ taskIDs (run s ops).sched.taskQueue := by
  induction ops with
  | nil => intro s _ _ _ _ hq _; exact hq
  | cons op rest ih =>
    intro s hinv hadm hrec hiss hq hsp
    obtain ⟨h1, h2, h3⟩ := notPending_step id s op hinv hadm.1 hrec.1 hiss hq hsp
    exact ih (step s op) (Inv_step s op hinv hadm.1) hadm.2 hrec.2 h1 h2 h3

/-- C16: in every reachable state the ids in the pending queue are pairwise
distinct and no registry key, and no id of an active task, is the id of a
pending task. Hence when GetNextTask returns a task and the operations that
follow neither requeue it nor collect it in a sweep, no later GetNextTask
returns a task with the same id. -/
theorem C16_queue_registry_disjoint {P : Type} (maxQueueSize : Int) (s : Sys P)
    (hreach : Reachable maxQueueSize s) :
    (taskIDs s.sched.taskQueue).Nodup ∧
    (∀ k t, s.sched.activeTasks k = some t →
      t.ID = k ∧ k ∉ taskIDs s.sched.taskQueue) ∧
    (∀ ctxErr pick now u ops ctxErr' pick' now' u',
      (GetNextTask s.sched ctxErr pick now).2 = .task u →
      admissibleRun (step s (.getNext ctxErr pick now)) ops →
      neverReclaimed u.ID (step s (.getNext ctxErr pick now)) ops →
      (GetNextTask (run (step s (.getNext ctxErr pick now)) ops).sched
        ctxErr' pick' now').2 = .task u' →
      u'.ID ≠ u.ID) := by
  have hinv := Inv_of_Reachable maxQueueSize s hreach
  refine ⟨?_, ?_, ?_⟩
  · have := hinv.nodup
    rw [taskIDs_append] at this
    exact (List.nodup_append.mp this).1
  · intro k t hk
    have := hinv.disjoint k t hk
    rw [taskIDs_append, List.mem_append, not_or] at this
    exact ⟨hinv.key k t hk, this.1⟩
  · intro ctxErr pick now u ops ctxErr' pick' now' u' hres hadm hrec hres'
    have hinv1 := Inv_step s (.getNext ctxErr pick now) hinv trivial
    obtain ⟨head, tail, hq, rfl, heq⟩ := GetNextTask_task s.sched ctxErr pick now u hres
    have hact : (step s (.getNext ctxErr pick now)).sched.activeTasks head.ID =
        some { head with StartedAt := now } := by
      simp only [step, heq, Registry.insert, if_true]
    have hdis := hinv1.disjoint _ _ hact
    rw [taskIDs_append, List.mem_append, not_or] at hdis
    have hiss := hinv1.activeIssued _ _ hact
    have hlater := notPending_run head.ID ops _ hinv1 hadm hrec hiss hdis.1 hdis.2
    obtain ⟨head', tail', hq', rfl, _⟩ := GetNextTask_task _ ctxErr' pick' now' u' hres'
    intro hid
    exact hlater ((mem_taskIDs _ _).mpr ⟨head', by rw [hq']; exact List.mem_cons_self _ _, hid⟩)

theorem exampleTwoPending_reachable : Reachable 2 exampleTwoPending :=
  ⟨{ cap := 2, taskQueue := [], activeTasks := fun _ => none },
    [.enqueue 1 "j" "f1" "a" 0, .enqueue 2 "j" "f2" "b" 1], rfl,
    ⟨by show "a" ∉ []; decide, by show "b" ∉ ["a"]; decide, trivial⟩, rfl⟩

/-- C16 on the reachable state with "a" and "b" pending: GetNextTask returns
"a"; after an EnqueueTask of "c" the next GetNextTask returns "b". -/
theorem C16_queue_registry_disjoint_witness :
    ((taskIDs exampleTwoPending.sched.taskQueue).Nodup ∧
    (∀ k t, exampleTwoPending.sched.activeTasks k = some t →
      t.ID = k ∧ k ∉ taskIDs exampleTwoPending.sched.taskQueue) ∧
    (∀ ctxErr pick now u ops ctxErr' pick' now' u',
      (GetNextTask exampleTwoPending.sched ctxErr pick now).2 = .task u →
      admissibleRun (step exampleTwoPending (.getNext ctxErr pick now)) ops →
      neverReclaimed u.ID (step exampleTwoPending (.getNext ctxErr pick now)) ops →
      (GetNextTask (run (step exampleTwoPending (.getNext ctxErr pick now)) ops).sched
        ctxErr' pick' now').2 = .task u' →
      u'.ID ≠ u.ID)) ∧
    ({ ID := "b", JobID := "j", FrameID := "f2", Payload := 2,
       CreatedAt := 1, StartedAt := 6, Retries := 0 } : Task Nat).ID ≠
      ({ ID := "a", JobID := "j", FrameID := "f1", Payload := 1,
         CreatedAt := 0, StartedAt := 5, Retries := 0 } : Task Nat).ID :=
  ⟨C16_queue_registry_disjoint 2 exampleTwoPending exampleTwoPending_reachable,
   (C16_queue_registry_disjoint 2 exampleTwoPending exampleTwoPending_reachable).2.2
     none false 5
     { ID := "a", JobID := "j", FrameID := "f1", Payload := 1,
       CreatedAt := 0, StartedAt := 5, Retries := 0 }
     [.enqueue 3 "j" "f3" "c" 2] none false 6
     { ID := "b", JobID := "j", FrameID := "f2", Payload := 2,
       CreatedAt := 1, StartedAt := 6, Retries := 0 }
     rfl ⟨by show "c" ∉ ["b", "a"]; decide, trivial⟩ ⟨fun h => h, trivial⟩ rfl⟩

/-! ## C20 -/

theorem servedID_some {P : Type} (s : Scheduler P) (op : Op P) (id : String)
    (h : servedID s op = some id) :
    ∃ ctxErr pick now head tail, op = .getNext ctxErr pick now ∧
      s.taskQueue = head :: tail ∧ head.ID = id ∧
      GetNextTask s ctxErr pick now =
        ({ s with taskQueue := tail,
                  activeTasks := s.activeTasks.insert head.ID { head with StartedAt := now } },
          .task { head with StartedAt := now }) := by
  cases op with
  | getNext ctxErr pick now =>
    rcases GetNextTask_cases s ctxErr pick now with ⟨head, tail, hq, heq⟩ |
      ⟨e, _, heq⟩ | ⟨_, _, heq⟩
    · simp only [servedID, heq, Option.some.injEq] at h
      exact ⟨ctxErr, pick, now, head, tail, rfl, hq, h, heq⟩
    · simp [servedID, heq] at h
    · simp [servedID, heq] at h
  | enqueue payload jobID frameID taskID now => simp [servedID] at h
  | complete taskID => simp [servedID] at h
  | requeue taskID now => simp [servedID] at h
  | requeuePush i => simp [servedID] at h
  | sweep timeout now order => simp [servedID] at h
  | purge jobID order => simp [servedID] at h
  | queueLength => simp [servedID] at h

theorem servedID_pending {P : Type} (s : Scheduler P) (op : Op P) (id : String)
    (h : id ∉ taskIDs s.taskQueue) : servedID s op ≠ some id := by
  intro hs
  obtain ⟨_, _, _, head, tail, _, hq, hid, _⟩ := servedID_some s op id hs
  exact h ((mem_taskIDs _ _).mpr ⟨head, by rw [hq]; exact List.mem_cons_self _ _, hid⟩)

theorem spawned_step {P : Type} (id : String) (s : Sys P) (op : Op P) (hinv : Inv s)
    (hreq : ¬ requeuesTask id op) (hsp : id ∉ taskIDs s.spawned) :
    id ∉ taskIDs (step s op).spawned := by
  cases op with
  | requeue taskID now =>
    cases h : s.sched.activeTasks taskID with
    | none =>
      simp only [step, RequeueTask_none s.sched taskID now h]
      exact hsp
    | some t =>
      simp only [step, RequeueTask_some s.sched taskID now t h]
      rw [taskIDs_append]
      simp only [taskIDs, List.map_cons, List.map_nil, List.mem_append, List.mem_singleton]
      rintro (h2 | h2)
      · exact hsp h2
      · have hkey : t.ID = taskID := hinv.key taskID t h
        exact hreq (show taskID = id from hkey.symm.trans h2.symm)
  | requeuePush i =>
    cases h : s.spawned.get? i with
    | none =>
      simp only [step, h]
      exact hsp
    | some t =>
      have hsp' : id ∉ taskIDs (s.spawned.eraseIdx i) := fun hmem => by
        obtain ⟨u, hu, hid⟩ := (mem_taskIDs _ _).mp hmem
        exact hsp ((mem_taskIDs _ _).mpr ⟨u, (List.eraseIdx_sublist _ _).subset hu, hid⟩)
      simp only [step, h]
      exact hsp'
  | enqueue payload jobID frameID taskID now => exact hsp
  | getNext ctxErr pick now => exact hsp
  | complete taskID => exact hsp
  | sweep timeout now order => exact hsp
  | purge jobID order => exact hsp
  | queueLength => exact hsp

theorem queue_keep {P : Type} (s : Sys P) (op : Op P) (t : Task P)
    (ht : t ∈ s.sched.taskQueue) (hserved : servedID s.sched op ≠ some t.ID) :
    t ∈ (step s op).sched.taskQueue := by
  cases op with
  | enqueue payload jobID frameID taskID now =>
    by_cases hroom : s.sched.taskQueue.length < s.sched.cap
    · simp only [step, EnqueueTask_room s.sched payload jobID frameID taskID now hroom]
      exact List.mem_append_left _ ht
    · simp only [step, EnqueueTask_full s.sched payload jobID frameID taskID now
        (Nat.not_lt.mp hroom)]
      exact ht
  | getNext ctxErr pick now =>
    rcases GetNextTask_cases s.sched ctxErr pick now with ⟨head, tail, hq, heq⟩ |
      ⟨e, _, heq⟩ | ⟨_, _, heq⟩
    · simp only [servedID, heq] at hserved
      simp only [step, heq]
      rw [hq] at ht
      rcases List.mem_cons.mp ht with rfl | h
      · exact absurd rfl hserved
      · exact h
    · simp only [step, heq]; exact ht
    · simp only [step, heq]; exact ht
  | complete taskID =>
    simp only [step, (MarkTaskComplete_sub s.sched taskID).1]
    exact ht
  | requeue taskID now =>
    cases h : s.sched.activeTasks taskID with
    | none => simp only [step, RequeueTask_none s.sched taskID now h]; exact ht
    | some u => simp only [step, RequeueTask_some s.sched taskID now u h]; exact ht
  | requeuePush i =>
    cases h : s.spawned.get? i with
    | none => simp only [step, h]; exact ht
    | some u =>
      by_cases hroom : s.sched.taskQueue.length < s.sched.cap
      · simp only [step, h, requeuePush_room s.sched u hroom]
        exact List.mem_append_left _ ht
      · simp only [step, h, requeuePush_full s.sched u (Nat.not_lt.mp hroom)]
        exact ht
  | sweep timeout now order =>
    obtain ⟨pushed, _, _, heq⟩ := sweep_spec s.sched timeout now order
    simp only [step, heq]
    exact List.mem_append_left _ ht
  | purge jobID order => exact ht
  | queueLength => exact ht

theorem Gone_of_removed {P : Type} (s : Sys P) (sched' : Scheduler P) (id : String)
    (t : Task P) (hinv : Inv s) (hact : s.sched.activeTasks id = some t)
    (hq : sched'.taskQueue = s.sched.taskQueue)
    (hsub : ∀ k u, sched'.activeTasks k = some u → s.sched.activeTasks k = some u)
    (hnone : sched'.activeTasks id = none) : Gone id { s with sched := sched' } := by
  have hdis := hinv.disjoint id t hact
  rw [taskIDs_append, List.mem_append, not_or] at hdis
  refine ⟨by rw [hq]; exact hdis.1, hdis.2, ?_⟩
  intro k u hk hid
  have hk' := hsub k u hk
  have hkey := hinv.key k u hk'
  have hkk : k = id := hkey.symm.trans hid
  subst hkk
  have hk2 : sched'.activeTasks k = some u := hk
  rw [hnone] at hk2
  cases hk2

theorem budget_active {P : Type} (id : String) (s : Sys P) (op : Op P) (b : Nat)
    (t : Task P) (hinv : Inv s) (hrb : RetryBound s) (hadm : admissible s op)
    (hreq : ¬ requeuesTask id op) (hact : s.sched.activeTasks id = some t)
    (hb : t.Retries + b = 3) :
    ∃ b', Budget id (step s op) b' ∧ b' ≤ b := by
  have hdis := hinv.disjoint id t hact
  rw [taskIDs_append, List.mem_append, not_or] at hdis
  have hiss := hinv.activeIssued id t hact
  have hkey := hinv.key id t hact
  have keep : (step s op).sched.activeTasks id = some t →
      ∃ b', Budget id (step s op) b' ∧ b' ≤ b :=
    fun h => ⟨b, Or.inl ⟨t, h, hb⟩, le_refl _⟩
  have gone : Gone id (step s op) → ∃ b', Budget id (step s op) b' ∧ b' ≤ b :=
    fun h => ⟨0, Or.inr (Or.inr (Or.inl ⟨h, step_issued s op id hiss, rfl⟩)), Nat.zero_le _⟩
  cases op with
  | enqueue payload jobID frameID taskID now =>
    apply keep
    by_cases hroom : s.sched.taskQueue.length < s.sched.cap
    · simp only [step, EnqueueTask_room s.sched payload jobID frameID taskID now hroom]
      exact hact
    · simp only [step, EnqueueTask_full s.sched payload jobID frameID taskID now
        (Nat.not_lt.mp hroom)]
      exact hact
  | getNext ctxErr pick now =>
    apply keep
    rcases GetNextTask_cases s.sched ctxErr pick now with ⟨head, tail, hq, heq⟩ |
      ⟨e, _, heq⟩ | ⟨_, _, heq⟩
    · have hne : id ≠ head.ID := fun h => hdis.1
        ((mem_taskIDs _ _).mpr ⟨head, by rw [hq]; exact List.mem_cons_self _ _, h.symm⟩)
      simp only [step, heq, Registry.insert, if_neg hne]
      exact hact
    · simp only [step, heq]; exact hact
    · simp only [step, heq]; exact hact
  | complete taskID =>
    obtain ⟨hq, _, hself, hother⟩ := MarkTaskComplete_sub s.sched taskID
    by_cases hk : id = taskID
    · subst hk
      apply gone
      refine Gone_of_removed s (MarkTaskComplete s.sched id) id t hinv hact hq ?_ hself
      intro k u h
      by_cases hk2 : k = id
      · subst hk2; rw [hself] at h; cases h
      · rwa [hother k hk2] at h
    · apply keep
      show (MarkTaskComplete s.sched taskID).activeTasks id = some t
      rw [hother id hk]; exact hact
  | requeue taskID now =>
    have hne : id ≠ taskID := fun h => hreq h.symm
    apply keep
    cases h : s.sched.activeTasks taskID with
    | none => simp only [step, RequeueTask_none s.sched taskID now h]; exact hact
    | some u =>
      simp only [step, RequeueTask_some s.sched taskID now u h]
      rw [Registry.delete_of_ne _ _ _ hne]; exact hact
  | requeuePush i =>
    apply keep
    cases h : s.spawned.get? i with
    | none => simp only [step, h]; exact hact
    | some u =>
      by_cases hroom : s.sched.taskQueue.length < s.sched.cap
      · simp only [step, h, requeuePush_room s.sched u hroom]; exact hact
      · simp only [step, h, requeuePush_full s.sched u (Nat.not_lt.mp hroom)]; exact hact
  | sweep timeout now order =>
    obtain ⟨pushed, hsub, hle, heq⟩ := sweep_spec s.sched timeout now order
    obtain ⟨hlist, hreg⟩ := scanExpired_exact timeout now order s.sched.activeTasks hadm.2.2.1
    cases hscan : (scanExpired timeout now s.sched.activeTasks order).1 id with
    | some t2 =>
      apply keep
      have h2 := scanExpired_sub timeout now order _ id t2 hscan
      rw [hact] at h2
      cases h2
      simp only [step, heq]
      exact hscan
    | none =>
      have hmem : id ∈ order := (hadm.2.2.2 id).mpr (by simp [hact])
      have hexp : expired timeout now t = true := by
        have h2 := hreg id
        rw [hscan, if_pos hmem, hact] at h2
        cases hx : expired timeout now t with
        | true => rfl
        | false => simp [Option.filter, hx] at h2
      have hdead : t ∈ (scanExpired timeout now s.sched.activeTasks order).2 := by
        rw [hlist, List.mem_filterMap]
        exact ⟨id, hmem, by simp [hact, Option.filter, hexp]⟩
      by_cases hp : bumpRetries t ∈ pushed
      · refine ⟨b, Or.inr (Or.inl ⟨bumpRetries t, ?_, hkey, ?_⟩), le_refl _⟩
        · simp only [step, heq]
          exact List.mem_append_right _ hp
        · obtain ⟨h0, h3⟩ := hrb t (Or.inr (Or.inr ⟨id, hact⟩))
          show wrapInt32 (t.Retries + 1) + b = 4
          rw [wrapInt32_of_small _ (by omega) (by omega)]
          omega
      · apply gone
        simp only [step, heq]
        refine ⟨?_, hdis.2, ?_⟩
        · rw [taskIDs_append, List.mem_append, not_or]
          refine ⟨hdis.1, ?_⟩
          intro hm
          obtain ⟨p, hpm, hpid⟩ := (mem_taskIDs _ _).mp hm
          obtain ⟨d, hd, hdeq⟩ := List.mem_map.mp (hsub.subset hpm)
          obtain ⟨k', _, hact', _, _⟩ := scanExpired_dead timeout now order _ d hd
          have hdt : d = t := InSys_unique s hinv d t (Or.inr (Or.inr ⟨k', hact'⟩))
            (Or.inr (Or.inr ⟨id, hact⟩)) (by rw [← hdeq] at hpid; exact hpid.trans hkey.symm)
          subst hdt
          rw [hdeq] at hp
          exact hp hpm
        · intro k' t' hk' hid
          have hk2 := scanExpired_sub timeout now order _ k' t' hk'
          have hkk : k' = id := (hinv.key k' t' hk2).symm.trans hid
          subst hkk
          have hk3 : (scanExpired timeout now s.sched.activeTasks order).1 k' = some t' := hk'
          rw [hscan] at hk3
          cases hk3
  | purge jobID order =>
    cases hp : purgeLoop jobID s.sched.activeTasks order id with
    | some t2 =>
      apply keep
      have h2 := purgeLoop_sub jobID order _ id t2 hp
      rw [hact] at h2
      cases h2
      exact hp
    | none =>
      apply gone
      exact Gone_of_removed s (PurgeJobTasks s.sched jobID order).1 id t hinv hact rfl
        (fun k u h => purgeLoop_sub jobID order _ k u h) hp
  | queueLength => exact keep hact

theorem step_issued_cases {P : Type} (s : Sys P) (op : Op P) :
    (step s op).issued = s.issued ∨
    ∃ payload jobID frameID taskID now, op = .enqueue payload jobID frameID taskID now := by
  cases op with
  | enqueue payload jobID frameID taskID now =>
    exact Or.inr ⟨payload, jobID, frameID, taskID, now, rfl⟩
  | getNext ctxErr pick now => exact Or.inl rfl
  | complete taskID => exact Or.inl rfl
  | requeue taskID now =>
    refine Or.inl ?_
    simp only [step]
    split <;> rfl
  | requeuePush i =>
    refine Or.inl ?_
    simp only [step]
    split <;> rfl
  | sweep timeout now order => exact Or.inl rfl
  | purge jobID order => exact Or.inl rfl
  | queueLength => exact Or.inl rfl

theorem budget_step {P : Type} (id : String) (s : Sys P) (op : Op P) (b : Nat)
    (hinv : Inv s) (hrb : RetryBound s) (hadm : admissible s op)
    (hreq : ¬ requeuesTask id op) (hb : Budget id s b) :
    ∃ b', Budget id (step s op) b' ∧
      (if servedID s.sched op = some id then 1 else 0) + b' ≤ b := by
  rcases hb with ⟨t, hact, hbt⟩ | ⟨t, ht, hid, hbt⟩ | ⟨hgone, hiss, rfl⟩ | ⟨hiss, rfl⟩
  · have hdis := hinv.disjoint id t hact
    rw [taskIDs_append, List.mem_append, not_or] at hdis
    obtain ⟨b', hb', hle⟩ := budget_active id s op b t hinv hrb hadm hreq hact hbt
    refine ⟨b', hb', ?_⟩
    rw [if_neg (servedID_pending s.sched op id hdis.1)]
    omega
  · by_cases hserved : servedID s.sched op = some id
    · obtain ⟨ctxErr, pick, now, head, tail, rfl, hq, hhead, heq⟩ :=
        servedID_some s.sched op id hserved
      have hht : head = t := InSys_unique s hinv head t
        (Or.inl (by rw [hq]; exact List.mem_cons_self _ _)) (Or.inl ht) (hhead.trans hid.symm)
      subst hht
      obtain ⟨_, h3⟩ := hrb head (Or.inl ht)
      refine ⟨b - 1, Or.inl ⟨{ head with StartedAt := now }, ?_, ?_⟩, ?_⟩
      · simp only [step, heq, Registry.insert, hid, if_true]
      · show head.Retries + ((b - 1 : Nat) : Int) = 3
        omega
      · rw [if_pos hserved]
        omega
    · refine ⟨b, Or.inr (Or.inl ⟨t, queue_keep s op t ht (by rw [hid]; exact hserved), hid,
        hbt⟩), ?_⟩
      rw [if_neg hserved]
      omega
  · obtain ⟨hgone', hiss'⟩ := Gone_step id s op hgone hiss hadm
    refine ⟨0, Or.inr (Or.inr (Or.inl ⟨hgone', hiss', rfl⟩)), ?_⟩
    rw [if_neg (servedID_pending s.sched op id hgone.1)]
  · have hgone : Gone id s := by
      refine ⟨?_, ?_, ?_⟩
      · intro h
        exact hiss (hinv.pendingIssued id (by rw [taskIDs_append]; exact List.mem_append_left _ h))
      · intro h
        exact hiss (hinv.pendingIssued id (by rw [taskIDs_append]; exact List.mem_append_right _ h))
      · intro k t hk hid
        have := hinv.activeIssued k t hk
        rw [← hinv.key k t hk, hid] at this
        exact hiss this
    have hzero : (if servedID s.sched op = some id then 1 else 0) = 0 :=
      if_neg (servedID_pending s.sched op id hgone.1)
    rw [hzero]
    rcases step_issued_cases s op with hsame | ⟨payload, jobID, frameID, taskID, now, rfl⟩
    · exact ⟨4, Or.inr (Or.inr (Or.inr ⟨by rw [hsame]; exact hiss, rfl⟩)), by omega⟩
    · by_cases hne : taskID = id
      · subst hne
        by_cases hroom : s.sched.taskQueue.length < s.sched.cap
        · refine ⟨4, Or.inr (Or.inl
            ⟨⟨taskID, jobID, frameID, payload, now, Time.zero, 0⟩, ?_, rfl,
              show (0 : Int) + ((4 : Nat) : Int) = 4 from by decide⟩),
            by omega⟩
          simp only [step, EnqueueTask_room s.sched payload jobID frameID taskID now hroom]
          exact List.mem_append_right _ (List.mem_singleton.mpr rfl)
        · refine ⟨0, Or.inr (Or.inr (Or.inl ⟨?_, List.mem_cons_self _ _, rfl⟩)), by omega⟩
          simp only [step, EnqueueTask_full s.sched payload jobID frameID taskID now
            (Nat.not_lt.mp hroom)]
          exact hgone
      · refine ⟨4, Or.inr (Or.inr (Or.inr ⟨?_, rfl⟩)), by omega⟩
        intro h
        rcases List.mem_cons.mp h with h1 | h1
        · exact hne h1.symm
        · exact hiss h1

theorem budget_run {P : Type} (id : String) (ops : List (Op P)) :
    ∀ (s : Sys P) (b : Nat), Inv s → RetryBound s → admissibleRun s ops →
      (∀ op ∈ ops, ¬ requeuesTask id op) → Budget id s b →
      dispatchCount id s ops ≤ b := by
  induction ops with
  | nil => intro s b _ _ _ _ _; exact Nat.zero_le _
  | cons op rest ih =>
    intro s b hinv hrb hadm hreq hb
    obtain ⟨b', hb', hle⟩ := budget_step id s op b hinv hrb hadm.1
      (hreq op (List.mem_cons_self _ _)) hb
    have hrest := ih (step s op) b' (Inv_step s op hinv hadm.1) (RetryBound_step s op hrb)
      hadm.2 (fun o ho => hreq o (List.mem_cons_of_mem _ ho)) hb'
    simp only [dispatchCount]
    omega

/-- C20: in every reachable state every pending task and every registry
entry has Retries between 0 and 3, and every registry entry is stored under
its own task id. In any run from a fresh scheduler that contains no explicit
RequeueTask of a given id, GetNextTask returns the task with that id at most
4 times. -/
theorem C20_retries_bounded_and_keyed {P : Type} (maxQueueSize : Int) (s : Sys P)
    (hreach : Reachable maxQueueSize s) :
    (∀ t ∈ s.sched.taskQueue, 0 ≤ t.Retries ∧ t.Retries ≤ 3) ∧
    (∀ k t, s.sched.activeTasks k = some t →
      0 ≤ t.Retries ∧ t.Retries ≤ 3 ∧ t.ID = k) ∧
    (∀ (s0 : Scheduler P) (ops : List (Op P)) (id : String),
      NewScheduler maxQueueSize = some s0 →
      admissibleRun { sched := s0, spawned := [], issued := [] } ops →
      (∀ op ∈ ops, ¬ requeuesTask id op) →
      dispatchCount id { sched := s0, spawned := [], issued := [] } ops ≤ 4) := by
  have hinv := Inv_of_Reachable maxQueueSize s hreach
  have hrb := RetryBound_of_Reachable maxQueueSize s hreach
  refine ⟨fun t ht => hrb t (Or.inl ht), ?_, ?_⟩
  · intro k t hk
    obtain ⟨h0, h3⟩ := hrb t (Or.inr (Or.inr ⟨k, hk⟩))
    exact ⟨h0, h3, hinv.key k t hk⟩
  · intro s0 ops id hnew hadm hreq
    have hreach0 : Reachable maxQueueSize
        ({ sched := s0, spawned := [], issued := [] } : Sys P) :=
      ⟨s0, [], hnew, trivial, rfl⟩
    exact budget_run id ops _ 4 (Inv_init maxQueueSize s0 hnew)
      (RetryBound_of_Reachable maxQueueSize _ hreach0) hadm hreq
      (Or.inr (Or.inr (Or.inr ⟨List.not_mem_nil _, rfl⟩)))

theorem exampleThreeSweeps_no_requeue :
    ∀ op ∈ exampleThreeSweeps, ¬ requeuesTask "a" op := by
  intro op hop h
  simp only [exampleThreeSweeps, List.mem_cons, List.mem_singleton, List.not_mem_nil,
    or_false] at hop
  rcases hop with rfl | rfl | rfl | rfl | rfl | rfl | rfl | rfl <;> exact h

set_option maxRecDepth 8192 in
/-- C20 on the reachable state where task "a" is active with Retries 3: the
run that leads there dispatches "a" exactly 4 times with sweeps only, while a
run with explicit RequeueTask calls dispatches it 5 times. -/
theorem C20_retries_bounded_and_keyed_witness :
    ((∀ t ∈ exampleLastChance.sched.taskQueue, 0 ≤ t.Retries ∧ t.Retries ≤ 3) ∧
    (∀ k t, exampleLastChance.sched.activeTasks k = some t →
      0 ≤ t.Retries ∧ t.Retries ≤ 3 ∧ t.ID = k) ∧
    (∀ (s0 : Scheduler Nat) (ops : List (Op Nat)) (id : String),
      NewScheduler 2 = some s0 →
      admissibleRun { sched := s0, spawned := [], issued := [] } ops →
      (∀ op ∈ ops, ¬ requeuesTask id op) →
      dispatchCount id { sched := s0, spawned := [], issued := [] } ops ≤ 4)) ∧
    dispatchCount "a" exampleInit exampleThreeSweeps ≤ 4 ∧
    dispatchCount "a" exampleInit exampleThreeSweeps = 4 ∧
    dispatchCount "a" exampleInit exampleRequeueRun = 5 :=
  ⟨C20_retries_bounded_and_keyed 2 exampleLastChance exampleLastChance_reachable,
   (C20_retries_bounded_and_keyed 2 exampleLastChance exampleLastChance_reachable).2.2
     { cap := 2, taskQueue := [], activeTasks := fun _ => none } exampleThreeSweeps "a" rfl
     exampleThreeSweeps_admissible exampleThreeSweeps_no_requeue,
   by decide, by decide⟩

end Coordinator
